import Mathlib

/-!
# FatFs block-device drivers (STM32 middleware): SD card over DMA with an RTOS

A shallow embedding of `drivers/sd/sd_diskio_dma_rtos.c` (and of the `ioctl` of
`drivers/sd/sd_diskio.c`, of the read and write of
`drivers/sram/sram_diskio.c`, and of the write of
`drivers/usb_host/usbh_diskio.c`).  The driver's static variables (`Stat`, `SDQueueID`,
`scratch`) are fields of an explicit `World`; the caller's buffer is passed and
returned explicitly.  The HAL, the CMSIS-RTOS kernel and the card itself are
external collaborators: they are simulated by a scripted hardware description
`Hw` that answers the n-th call of each kind, so that a statement quantified
over every `Hw` covers every behaviour of the collaborators.  Every call into
a collaborator is recorded in `World.trace`.

Machine integers are natural numbers with explicit reduction modulo `2^32`
where the C code wraps.  The busy-wait loops take a fuel argument that bounds
the number of evaluations of the loop condition.
-/

namespace FatFs

/-! ## Constants -/

/-- Modelled from the spec: the status bit "not-initialized" of `DSTATUS`; the
header `diskio.h` that defines `STA_NOINIT` is not among the sources, the value
is the one of FatFs (bit 0). -/
def STA_NOINIT : Nat := 0x01

/-- Nominal sector size, `#define BLOCKSIZE 512`. -/
def BLOCKSIZE : Nat := 512

/-- Capacity of the completion queue, `#define QUEUE_SIZE (uint32_t) 10`. -/
def QUEUE_SIZE : Nat := 10

/-- Event posted by the receive-complete callback. -/
def READ_CPLT_MSG : Nat := 1

/-- Event posted by the transmit-complete callback. -/
def WRITE_CPLT_MSG : Nat := 2

/-- Event code defined by the driver and never posted by it. -/
def RW_ABORT_MSG : Nat := 3

/-- Modelled from the spec: the `ioctl` code "Sync"; `diskio.h` is not among the
sources, the value is the one of FatFs. -/
def CTRL_SYNC : Nat := 0

/-- Modelled from the spec: the `ioctl` code "SectorCount" (FatFs value). -/
def GET_SECTOR_COUNT : Nat := 1

/-- Modelled from the spec: the `ioctl` code "SectorSize" (FatFs value). -/
def GET_SECTOR_SIZE : Nat := 2

/-- Modelled from the spec: the `ioctl` code "EraseBlockSizeInSectors" (FatFs
value). -/
def GET_BLOCK_SIZE : Nat := 3

/-- Card state value that the HAL reports when the card is ready for a
transfer (`HAL_SD_CARD_TRANSFER`, a constant of the external HAL). -/
def HAL_SD_CARD_TRANSFER : Nat := 4

/-- Width in bits of the FatFs type `WORD` (`ff.h`, not among the sources). -/
def WORD_BITS : Nat := 16

/-- Width in bits of the FatFs type `DWORD` and of `uint32_t`. -/
def DWORD_BITS : Nat := 32

/-- Result codes of the disk functions (`DRESULT` of FatFs). -/
inductive DRESULT
  | RES_OK
  | RES_ERROR
  | RES_WRPRT
  | RES_NOTRDY
  | RES_PARERR
  deriving DecidableEq, Repr

/-- Return codes of the HAL (`HAL_StatusTypeDef`). -/
inductive HAL_Status
  | HAL_OK
  | HAL_ERROR
  | HAL_BUSY
  | HAL_TIMEOUT
  deriving DecidableEq, Repr

/-- Return codes of the RTOS queue functions (`osStatus_t`), as far as the
queue functions produce them. -/
inductive osStatus
  | osOK
  | osErrorTimeout
  | osErrorResource
  | osErrorParameter
  deriving DecidableEq, Repr

/-- States of the RTOS kernel (`osKernelState_t`). -/
inductive osKernelState
  | osKernelInactive
  | osKernelReady
  | osKernelRunning
  | osKernelLocked
  | osKernelSuspended
  | osKernelError
  deriving DecidableEq, Repr

/-- Per-deployment constants of `sd_diskio_config.h`. -/
structure Config where
  SD_TIMEOUT : Nat
  ENABLE_SD_INIT : Bool
  ENABLE_SD_DMA_CACHE_MAINTENANCE : Bool
  deriving DecidableEq, Repr

/-- Values of the template `sd_diskio_config.h`: `SD_TIMEOUT 30 * 1000`,
`ENABLE_SD_INIT 0`, `ENABLE_SD_DMA_CACHE_MAINTENANCE 1`. -/
def templateConfig : Config :=
  { SD_TIMEOUT := 30 * 1000
    ENABLE_SD_INIT := false
    ENABLE_SD_DMA_CACHE_MAINTENANCE := true }

/-! ## The simulated collaborators -/

/-- Bytes of a memory region, by offset. -/
abbrev Mem := Nat → Nat

/-- A memory region handed to the DMA engine or to the cache maintenance: the
caller's buffer (with its address) or the driver's scratch buffer. -/
inductive Region
  | caller (addr : Nat)
  | scratch
  deriving DecidableEq, Repr

/-- What the card does about the completion interrupt of an accepted DMA
request: raise none, raise the one of the request's direction, or raise the
one of the other direction. -/
inductive Irq
  | silent
  | matching
  | crossed
  deriving DecidableEq, Repr

/-- The fields of `HAL_SD_CardInfoTypeDef` that the driver reads. -/
structure CardInfo where
  LogBlockNbr : Nat
  LogBlockSize : Nat
  deriving DecidableEq, Repr

/-- Scripted behaviour of the collaborators: the answer to the n-th call of
each kind. -/
structure Hw where
  /-- value of the n-th `osKernelGetTickCount` -/
  tickAt : Nat → Nat
  /-- value of the n-th `HAL_SD_GetCardState` -/
  cardStateAt : Nat → Nat
  /-- immediate status of the n-th DMA request -/
  issueAt : Nat → HAL_Status
  /-- completion interrupt of the n-th DMA request -/
  irqAt : Nat → Irq
  /-- value of `osKernelGetState` -/
  kernelState : osKernelState
  /-- handle returned by the n-th `osMessageQueueNew`, `none` for `NULL` -/
  queueNewAt : Nat → Option Nat
  /-- device information returned by the n-th `HAL_SD_GetCardInfo` -/
  cardInfoAt : Nat → CardInfo

/-- Calls into the collaborators, as recorded in the trace. -/
inductive Ev
  | getTick
  | getCardState
  | readDMA (dst : Region) (blockAdd : Nat) (n : Nat)
  | writeDMA (src : Region) (blockAdd : Nat) (n : Nat)
  | queueGet (timeout : Nat)
  | queuePut (msg : Nat) (msg_prio : Nat) (timeout : Nat)
  | queueNew
  | getCardInfo
  | kernelGetState
  | sdInit
  | cleanDCache (r : Region) (len : Nat)
  | invalidateDCache (r : Region) (len : Nat)
  deriving DecidableEq, Repr

/-- The driver's static variables, the medium, and the bookkeeping of the
simulation. -/
structure World where
  /-- `static volatile DSTATUS Stat` -/
  Stat : Nat
  /-- `static osMessageQueueId_t SDQueueID`, `none` for `NULL` -/
  SDQueueID : Option Nat
  /-- `static uint8_t scratch[BLOCKSIZE]` -/
  scratch : Mem
  /-- pending events of the completion queue, oldest first -/
  queue : List Nat
  /-- number of message slots of the completion queue, as given to
  `osMessageQueueNew`; a queue has at least one slot -/
  capacity : PNat
  /-- contents of the medium: sector, then byte offset -/
  disk : Nat → Mem
  nTick : Nat
  nState : Nat
  nIssue : Nat
  nNew : Nat
  nInfo : Nat
  /-- calls made so far, oldest first -/
  trace : List Ev

/-- State of the driver at process start: `Stat = STA_NOINIT`,
`SDQueueID = NULL`.  No queue exists yet; the number of slots is set when
`osMessageQueueNew` creates one. -/
def World.boot (disk : Nat → Mem) : World :=
  { Stat := STA_NOINIT, SDQueueID := none, scratch := fun _ => 0, queue := [],
    capacity := 1, disk := disk, nTick := 0, nState := 0, nIssue := 0, nNew := 0, nInfo := 0,
    trace := [] }

/-- Reduction to `uint32_t`. -/
def u32 (x : Nat) : Nat := x % 2 ^ 32

/-- Difference of two `uint32_t` values, wrapping. -/
def sub32 (a b : Nat) : Nat := (u32 a + 2 ^ 32 - u32 b) % 2 ^ 32

/-- Simulated `osKernelGetTickCount`. -/
def osKernelGetTickCount (hw : Hw) (w : World) : Nat × World :=
  (u32 (hw.tickAt w.nTick),
   { w with nTick := w.nTick + 1, trace := w.trace ++ [Ev.getTick] })

/-- Simulated `HAL_SD_GetCardState`. -/
def HAL_SD_GetCardState (hw : Hw) (w : World) : Nat × World :=
  (hw.cardStateAt w.nState,
   { w with nState := w.nState + 1, trace := w.trace ++ [Ev.getCardState] })

/-- Simulated `HAL_SD_GetCardInfo`: the fields are `uint32_t`. -/
def HAL_SD_GetCardInfo (hw : Hw) (w : World) : CardInfo × World :=
  ({ LogBlockNbr := u32 (hw.cardInfoAt w.nInfo).LogBlockNbr,
     LogBlockSize := u32 (hw.cardInfoAt w.nInfo).LogBlockSize },
   { w with nInfo := w.nInfo + 1, trace := w.trace ++ [Ev.getCardInfo] })

/-- Simulated `osMessageQueuePut(SDQueueID, &msg, msg_prio, timeout)` for a
16-bit message: a `NULL` handle is a parameter error; with a free slot the
message is appended (the queue is first-in first-out, `msg_prio` is not used);
a full queue refuses the message, at once with `osErrorResource` when
`timeout` is zero, and with `osErrorTimeout` after the caller was suspended for
`timeout` ticks otherwise (nothing takes an event out meanwhile).  The
arguments are recorded in the trace. -/
def osMessageQueuePut (msg msg_prio timeout : Nat) (w : World) : osStatus × World :=
  let w1 := { w with trace := w.trace ++ [Ev.queuePut msg msg_prio timeout] }
  match w.SDQueueID with
  | none => (osStatus.osErrorParameter, w1)
  | some _ =>
    if w.queue.length < w.capacity then
      (osStatus.osOK, { w1 with queue := w.queue ++ [msg % 2 ^ 16] })
    else if timeout = 0 then (osStatus.osErrorResource, w1)
    else (osStatus.osErrorTimeout, w1)

/-- Simulated `osMessageQueueGet` on `SDQueueID`: the oldest pending event if
there is one, a timeout otherwise (no interrupt is raised while the task is
suspended).  The second component is the new value of `event`. -/
def osMessageQueueGet (timeout : Nat) (event : Nat) (w : World) :
    osStatus × Nat × World :=
  let w1 := { w with trace := w.trace ++ [Ev.queueGet timeout] }
  match w.SDQueueID with
  | none => (osStatus.osErrorParameter, event, w1)
  | some _ =>
    match w.queue with
    | e :: rest => (osStatus.osOK, e, { w1 with queue := rest })
    | [] =>
      if timeout = 0 then (osStatus.osErrorResource, event, w1)
      else (osStatus.osErrorTimeout, event, w1)

/-- Simulated `osMessageQueueNew(msg_count, msg_size, NULL)`: `NULL` for a zero
count or a zero size; otherwise the scripted handle, for a new queue that is
empty and has `msg_count` slots. -/
def osMessageQueueNew (msg_count msg_size : Nat) (hw : Hw) (w : World) : Option Nat × World :=
  if h : 0 < msg_count ∧ 0 < msg_size then
    (hw.queueNewAt w.nNew,
     { w with nNew := w.nNew + 1, queue := [], capacity := ⟨msg_count, h.1⟩,
              trace := w.trace ++ [Ev.queueNew] })
  else (none, { w with nNew := w.nNew + 1, trace := w.trace ++ [Ev.queueNew] })

/-- Completion callback of the driver, `HAL_SD_TxCpltCallback`:
`osMessageQueuePut(SDQueueID, &msg, 0, 0)` with `msg = WRITE_CPLT_MSG`; the
status of the post is dropped. -/
def HAL_SD_TxCpltCallback (w : World) : World :=
  (osMessageQueuePut WRITE_CPLT_MSG 0 0 w).2

/-- Completion callback of the driver, `HAL_SD_RxCpltCallback`:
`osMessageQueuePut(SDQueueID, &msg, 0, 0)` with `msg = READ_CPLT_MSG`; the
status of the post is dropped. -/
def HAL_SD_RxCpltCallback (w : World) : World :=
  (osMessageQueuePut READ_CPLT_MSG 0 0 w).2

/-- Effect of `memcpy(dst + dOff, src + sOff, len)` on the destination. -/
def memcpy (dst : Mem) (dOff : Nat) (src : Mem) (sOff : Nat) (len : Nat) (j : Nat) : Nat :=
  if dOff ≤ j ∧ j < dOff + len then src (sOff + (j - dOff)) else dst j

/-- The interrupt that the card raises for an accepted request, delivered to
the driver's callbacks: `rx` tells whether the request was a read. -/
def raiseIrq (irq : Irq) (rx : Bool) (w : World) : World :=
  match irq with
  | Irq.silent => w
  | Irq.matching => if rx then HAL_SD_RxCpltCallback w else HAL_SD_TxCpltCallback w
  | Irq.crossed => if rx then HAL_SD_TxCpltCallback w else HAL_SD_RxCpltCallback w

/-- The data that a DMA read of the medium delivers, by offset. -/
def diskData (disk : Nat → Mem) (blockAdd : Nat) (j : Nat) : Nat :=
  disk (blockAdd + j / BLOCKSIZE) (j % BLOCKSIZE)

/-- The medium after an accepted DMA write of `n` sectors of `data` at sector
`blockAdd`. -/
def diskAfterWrite (disk : Nat → Mem) (data : Mem) (blockAdd n : Nat) (sec o : Nat) : Nat :=
  if blockAdd ≤ sec ∧ sec < blockAdd + n then
    memcpy (disk sec) 0 data ((sec - blockAdd) * BLOCKSIZE) BLOCKSIZE o
  else disk sec o

/-- Simulated `HAL_SD_ReadBlocks_DMA(&sdmmc_handle, dst, blockAdd, n)`: the
scripted immediate status; an accepted request copies `n` sectors of the medium
to the start of `dst` and raises the scripted completion interrupt, a rejected
one changes no memory.  `buf` is the caller's buffer. -/
def HAL_SD_ReadBlocks_DMA (hw : Hw) (dst : Region) (blockAdd n : Nat) (buf : Mem)
    (w : World) : HAL_Status × Mem × World :=
  let w1 := { w with nIssue := w.nIssue + 1,
                     trace := w.trace ++ [Ev.readDMA dst blockAdd n] }
  if hw.issueAt w.nIssue = HAL_Status.HAL_OK then
    match dst with
    | Region.caller _ =>
      (HAL_Status.HAL_OK, memcpy buf 0 (diskData w.disk blockAdd) 0 (n * BLOCKSIZE),
       raiseIrq (hw.irqAt w.nIssue) true w1)
    | Region.scratch =>
      (HAL_Status.HAL_OK, buf,
       raiseIrq (hw.irqAt w.nIssue) true
         { w1 with scratch :=
             memcpy w.scratch 0 (diskData w.disk blockAdd) 0 (n * BLOCKSIZE) })
  else (hw.issueAt w.nIssue, buf, w1)

/-- Simulated `HAL_SD_WriteBlocks_DMA(&sdmmc_handle, src, blockAdd, n)`: the
scripted immediate status; an accepted request copies the first `n` sectors of
`src` to the medium and raises the scripted completion interrupt, a rejected
one leaves the medium unchanged.  `buf` is the caller's buffer. -/
def HAL_SD_WriteBlocks_DMA (hw : Hw) (src : Region) (blockAdd n : Nat) (buf : Mem)
    (w : World) : HAL_Status × World :=
  let w1 := { w with nIssue := w.nIssue + 1,
                     trace := w.trace ++ [Ev.writeDMA src blockAdd n] }
  if hw.issueAt w.nIssue = HAL_Status.HAL_OK then
    let data : Mem := match src with
      | Region.caller _ => buf
      | Region.scratch => w.scratch
    (HAL_Status.HAL_OK,
     raiseIrq (hw.irqAt w.nIssue) false
       { w1 with disk := diskAfterWrite w.disk data blockAdd n })
  else (hw.issueAt w.nIssue, w1)

/-- Cache maintenance `SCB_InvalidateDCache_by_Addr`: recorded in the trace. -/
def SCB_InvalidateDCache_by_Addr (r : Region) (len : Nat) (w : World) : World :=
  { w with trace := w.trace ++ [Ev.invalidateDCache r len] }

/-- Cache maintenance `SCB_CleanDCache_by_Addr`: recorded in the trace. -/
def SCB_CleanDCache_by_Addr (r : Region) (len : Nat) (w : World) : World :=
  { w with trace := w.trace ++ [Ev.cleanDCache r len] }

/-- Application-level card initialisation `sdmmc_sd_init`: recorded in the
trace. -/
def sdmmc_sd_init (w : World) : World :=
  { w with trace := w.trace ++ [Ev.sdInit] }

/-! ## The driver -/

/-- The busy-wait loop that the driver uses five times,
`while (osKernelGetTickCount() - timer < timeout) { if (HAL_SD_GetCardState(..)
== HAL_SD_CARD_TRANSFER) <leave>; }`: `true` when a sample read transfer-ready,
`false` when the loop condition failed.  The fuel bounds the number of
evaluations of the loop condition. -/
def waitTransfer (hw : Hw) (timer timeout : Nat) : Nat → World → Option (Bool × World)
  | 0, _ => none
  | fuel + 1, w =>
    let t := osKernelGetTickCount hw w
    if sub32 t.1 timer < u32 timeout then
      let s := HAL_SD_GetCardState hw t.2
      if s.1 = HAL_SD_CARD_TRANSFER then some (true, s.2)
      else waitTransfer hw timer timeout fuel s.2
    else some (false, t.2)

/-- `SD_check_status_with_timeout`: 0 if the card is ready, -1 otherwise. -/
def SD_check_status_with_timeout (hw : Hw) (timeout : Nat) (fuel : Nat) (w : World) :
    Option (Int × World) :=
  let t := osKernelGetTickCount hw w
  match waitTransfer hw t.1 timeout fuel t.2 with
  | none => none
  | some (true, w1) => some (0, w1)
  | some (false, w1) => some (-1, w1)

/-- `SD_check_status`. -/
def SD_check_status (hw : Hw) (w : World) : Nat × World :=
  let w1 := { w with Stat := STA_NOINIT }
  let s := HAL_SD_GetCardState hw w1
  let w2 :=
    if s.1 = HAL_SD_CARD_TRANSFER then
      { s.2 with Stat := s.2.Stat &&& (0xFF - STA_NOINIT) }
    else s.2
  (w2.Stat, w2)

/-- `SD_DMA_initialize`. -/
def SD_DMA_initialize (cfg : Config) (hw : Hw) (w : World) : Nat × World :=
  let w0 := { w with Stat := STA_NOINIT, trace := w.trace ++ [Ev.kernelGetState] }
  if hw.kernelState = osKernelState.osKernelRunning then
    let w1 := if cfg.ENABLE_SD_INIT then sdmmc_sd_init w0 else w0
    let r := SD_check_status hw w1
    let w2 := { r.2 with Stat := r.1 }
    if w2.Stat ≠ STA_NOINIT then
      let w3 :=
        if w2.SDQueueID.isNone then
          { (osMessageQueueNew QUEUE_SIZE 2 hw w2).2 with
            SDQueueID := (osMessageQueueNew QUEUE_SIZE 2 hw w2).1 }
        else w2
      let w4 :=
        if w3.SDQueueID.isNone then { w3 with Stat := (w3.Stat ||| STA_NOINIT) % 256 }
        else w3
      (w4.Stat, w4)
    else (w2.Stat, w2)
  else (w0.Stat, w0)

/-- `SD_DMA_status`. -/
def SD_DMA_status (hw : Hw) (w : World) : Nat × World :=
  SD_check_status hw w

/-- The alignment test `!((uint32_t)buff & 0x1F)`. -/
def aligned32 (addr : Nat) : Bool := (u32 addr) &&& 0x1F == 0

/-- The wait for the completion event and the readiness poll that follow an
accepted sub-request of the slow path: the poll runs only after a matching
event, and its outcome is not kept.  Returns the new value of `event`. -/
def slowWait (cfg : Config) (hw : Hw) (fuel : Nat) (expected : Nat) (event : Nat)
    (w : World) : Option (Nat × World) :=
  let g := osMessageQueueGet cfg.SD_TIMEOUT event w
  if g.1 = osStatus.osOK ∧ g.2.1 = expected then
    let t := osKernelGetTickCount hw g.2.2
    match waitTransfer hw t.1 cfg.SD_TIMEOUT fuel t.2 with
    | none => none
    | some (_, w1) => some (g.2.1, w1)
  else some (g.2.1, g.2.2)

/-- Fast path of `SD_DMA_read` (buffer aligned on 32 bytes): one DMA request
for all sectors. -/
def SD_DMA_read_fast (cfg : Config) (hw : Hw) (fuel : Nat) (addr : Nat) (buf : Mem)
    (sector count : Nat) (w : World) : Option (DRESULT × Mem × World) :=
  let d := HAL_SD_ReadBlocks_DMA hw (Region.caller addr) (u32 sector) (u32 count) buf w
  if d.1 = HAL_Status.HAL_OK then
    let g := osMessageQueueGet cfg.SD_TIMEOUT 0 d.2.2
    if g.1 = osStatus.osOK ∧ g.2.1 = READ_CPLT_MSG then
      let t := osKernelGetTickCount hw g.2.2
      match waitTransfer hw t.1 cfg.SD_TIMEOUT fuel t.2 with
      | none => none
      | some (true, w1) =>
        some (DRESULT.RES_OK, d.2.1,
          if cfg.ENABLE_SD_DMA_CACHE_MAINTENANCE then
            SCB_InvalidateDCache_by_Addr (Region.caller addr) (u32 (count * BLOCKSIZE)) w1
          else w1)
      | some (false, w1) => some (DRESULT.RES_ERROR, d.2.1, w1)
    else some (DRESULT.RES_ERROR, d.2.1, g.2.2)
  else some (DRESULT.RES_ERROR, d.2.1, d.2.2)

/-- The `for (i = 0; i < count; i++)` loop of the slow path of `SD_DMA_read`.
The first argument is `count - i`; `ret` is `none` while the C variable is
uninitialised; `off` is the distance that `buff` has advanced.  Returns the
final `i` and `ret`. -/
def SD_DMA_read_slow (cfg : Config) (hw : Hw) (fuel : Nat) :
    Nat → Nat → Option HAL_Status → Nat → Nat → Nat → Mem → World →
    Option (Nat × Option HAL_Status × Mem × World)
  | 0, i, ret, _, _, _, buf, w => some (i, ret, buf, w)
  | n + 1, i, _, event, sector, off, buf, w =>
    let d := HAL_SD_ReadBlocks_DMA hw Region.scratch (u32 sector) 1 buf w
    if d.1 = HAL_Status.HAL_OK then
      match slowWait cfg hw fuel READ_CPLT_MSG event d.2.2 with
      | none => none
      | some (event1, w1) =>
        let w2 :=
          if cfg.ENABLE_SD_DMA_CACHE_MAINTENANCE then
            SCB_InvalidateDCache_by_Addr Region.scratch BLOCKSIZE w1
          else w1
        SD_DMA_read_slow cfg hw fuel n (i + 1) (some d.1) event1 (sector + 1)
          (off + BLOCKSIZE) (memcpy d.2.1 off w2.scratch 0 BLOCKSIZE) w2
    else some (i, some d.1, d.2.1, d.2.2)

/-- `SD_DMA_read(lun, buff, sector, count)`: `addr` is the address of `buff`,
`buf` its contents.  Returns the result and the new contents of the buffer. -/
def SD_DMA_read (cfg : Config) (hw : Hw) (fuel : Nat) (addr : Nat) (buf : Mem)
    (sector count : Nat) (w : World) : Option (DRESULT × Mem × World) :=
  match SD_check_status_with_timeout hw cfg.SD_TIMEOUT fuel w with
  | none => none
  | some (r, w1) =>
    if r < 0 then some (DRESULT.RES_ERROR, buf, w1)
    else if aligned32 addr then SD_DMA_read_fast cfg hw fuel addr buf sector count w1
    else
      match SD_DMA_read_slow cfg hw fuel count 0 none 0 sector 0 buf w1 with
      | none => none
      | some (i, ret, buf1, w2) =>
        if i = count ∧ ret = some HAL_Status.HAL_OK then some (DRESULT.RES_OK, buf1, w2)
        else some (DRESULT.RES_ERROR, buf1, w2)

/-- Fast path of `SD_DMA_write` (buffer aligned on 32 bytes): one DMA request
for all sectors. -/
def SD_DMA_write_fast (cfg : Config) (hw : Hw) (fuel : Nat) (addr : Nat) (buf : Mem)
    (sector count : Nat) (w : World) : Option (DRESULT × World) :=
  let w0 :=
    if cfg.ENABLE_SD_DMA_CACHE_MAINTENANCE then
      SCB_CleanDCache_by_Addr (Region.caller addr) (u32 (count * BLOCKSIZE)) w
    else w
  let d := HAL_SD_WriteBlocks_DMA hw (Region.caller addr) (u32 sector) (u32 count) buf w0
  if d.1 = HAL_Status.HAL_OK then
    let g := osMessageQueueGet cfg.SD_TIMEOUT 0 d.2
    if g.1 = osStatus.osOK ∧ g.2.1 = WRITE_CPLT_MSG then
      let t := osKernelGetTickCount hw g.2.2
      match waitTransfer hw t.1 cfg.SD_TIMEOUT fuel t.2 with
      | none => none
      | some (true, w1) => some (DRESULT.RES_OK, w1)
      | some (false, w1) => some (DRESULT.RES_ERROR, w1)
    else some (DRESULT.RES_ERROR, g.2.2)
  else some (DRESULT.RES_ERROR, d.2)

/-- The `for (i = 0; i < count; i++)` loop of the slow path of `SD_DMA_write`,
with the conventions of `SD_DMA_read_slow`. -/
def SD_DMA_write_slow (cfg : Config) (hw : Hw) (fuel : Nat) (buf : Mem) :
    Nat → Nat → Option HAL_Status → Nat → Nat → Nat → World →
    Option (Nat × Option HAL_Status × World)
  | 0, i, ret, _, _, _, w => some (i, ret, w)
  | n + 1, i, _, event, sector, off, w =>
    let w0 := { w with scratch := memcpy w.scratch 0 buf off BLOCKSIZE }
    let w1 :=
      if cfg.ENABLE_SD_DMA_CACHE_MAINTENANCE then
        SCB_CleanDCache_by_Addr Region.scratch BLOCKSIZE w0
      else w0
    let d := HAL_SD_WriteBlocks_DMA hw Region.scratch (u32 sector) 1 buf w1
    if d.1 = HAL_Status.HAL_OK then
      match slowWait cfg hw fuel WRITE_CPLT_MSG event d.2 with
      | none => none
      | some (event1, w2) =>
        SD_DMA_write_slow cfg hw fuel buf n (i + 1) (some d.1) event1 (sector + 1)
          (off + BLOCKSIZE) w2
    else some (i, some d.1, d.2)

/-- `SD_DMA_write(lun, buff, sector, count)`: `addr` is the address of `buff`,
`buf` its contents. -/
def SD_DMA_write (cfg : Config) (hw : Hw) (fuel : Nat) (addr : Nat) (buf : Mem)
    (sector count : Nat) (w : World) : Option (DRESULT × World) :=
  match SD_check_status_with_timeout hw cfg.SD_TIMEOUT fuel w with
  | none => none
  | some (r, w1) =>
    if r < 0 then some (DRESULT.RES_ERROR, w1)
    else if aligned32 addr then SD_DMA_write_fast cfg hw fuel addr buf sector count w1
    else
      match SD_DMA_write_slow cfg hw fuel buf count 0 none 0 sector 0 w1 with
      | none => none
      | some (i, ret, w2) =>
        if i = count ∧ ret = some HAL_Status.HAL_OK then some (DRESULT.RES_OK, w2)
        else some (DRESULT.RES_ERROR, w2)

/-- What an `ioctl` call stored through its output parameter `buff`. -/
inductive OutParam
  | untouched
  | dword (v : Nat)
  | word (v : Nat)
  deriving DecidableEq, Repr

/-- `SD_DMA_ioctl(lun, cmd, buff)` of `sd_diskio_dma_rtos.c`: `cmd` is a `BYTE`.
The store `*(DWORD*)buff = x` keeps `x` modulo `2^32`, the store
`*(WORD*)buff = x` keeps `x` modulo `2^16`. -/
def SD_DMA_ioctl (hw : Hw) (cmd : Nat) (w : World) : DRESULT × OutParam × World :=
  if w.Stat &&& STA_NOINIT ≠ 0 then (DRESULT.RES_NOTRDY, OutParam.untouched, w)
  else if cmd = CTRL_SYNC then (DRESULT.RES_OK, OutParam.untouched, w)
  else if cmd = GET_SECTOR_COUNT then
    let c := HAL_SD_GetCardInfo hw w
    (DRESULT.RES_OK, OutParam.dword (c.1.LogBlockNbr % 2 ^ DWORD_BITS), c.2)
  else if cmd = GET_SECTOR_SIZE then
    let c := HAL_SD_GetCardInfo hw w
    (DRESULT.RES_OK, OutParam.word (c.1.LogBlockSize % 2 ^ WORD_BITS), c.2)
  else if cmd = GET_BLOCK_SIZE then
    let c := HAL_SD_GetCardInfo hw w
    (DRESULT.RES_OK, OutParam.dword ((c.1.LogBlockSize / BLOCKSIZE) % 2 ^ DWORD_BITS), c.2)
  else (DRESULT.RES_PARERR, OutParam.untouched, w)

/-- `SD_ioctl(lun, cmd, buff)` of the polling backend `sd_diskio.c`; `w.Stat` is
then the `Stat` of that file. -/
def SD_ioctl (hw : Hw) (cmd : Nat) (w : World) : DRESULT × OutParam × World :=
  if w.Stat &&& STA_NOINIT ≠ 0 then (DRESULT.RES_NOTRDY, OutParam.untouched, w)
  else if cmd = CTRL_SYNC then (DRESULT.RES_OK, OutParam.untouched, w)
  else if cmd = GET_SECTOR_COUNT then
    let c := HAL_SD_GetCardInfo hw w
    (DRESULT.RES_OK, OutParam.dword (c.1.LogBlockNbr % 2 ^ DWORD_BITS), c.2)
  else if cmd = GET_SECTOR_SIZE then
    let c := HAL_SD_GetCardInfo hw w
    (DRESULT.RES_OK, OutParam.word (c.1.LogBlockSize % 2 ^ WORD_BITS), c.2)
  else if cmd = GET_BLOCK_SIZE then
    let c := HAL_SD_GetCardInfo hw w
    (DRESULT.RES_OK, OutParam.dword ((c.1.LogBlockSize / BLOCKSIZE) % 2 ^ DWORD_BITS), c.2)
  else (DRESULT.RES_PARERR, OutParam.untouched, w)

/-! ## Simulated hardware used in the examples -/

/-- A card that accepts every request, raises the matching interrupt, is always
transfer-ready, and whose tick counter advances by one per reading. -/
def goodHw : Hw :=
  { tickAt := fun n => n
    cardStateAt := fun _ => HAL_SD_CARD_TRANSFER
    issueAt := fun _ => HAL_Status.HAL_OK
    irqAt := fun _ => Irq.matching
    kernelState := osKernelState.osKernelRunning
    queueNewAt := fun _ => some 1
    cardInfoAt := fun _ => { LogBlockNbr := 8192, LogBlockSize := 512 } }

/-- A card like `goodHw` that never raises a completion interrupt. -/
def silentHw : Hw := { goodHw with irqAt := fun _ => Irq.silent }

/-- A card like `goodHw` that rejects every DMA request. -/
def rejectingHw : Hw := { goodHw with issueAt := fun _ => HAL_Status.HAL_ERROR }

/-- A card like `goodHw` that is never transfer-ready and whose tick counter
advances by 10000 per reading. -/
def busyHw : Hw :=
  { goodHw with cardStateAt := fun _ => 0, tickAt := fun n => 10000 * n }

/-- A card like `goodHw` that reports a logical block size of 66048 bytes,
which does not fit 16 bits. -/
def wideHw : Hw :=
  { goodHw with cardInfoAt := fun _ => { LogBlockNbr := 8192, LogBlockSize := 66048 } }

/-- The driver after a successful `SD_DMA_initialize`: status ready, queue
allocated with `QUEUE_SIZE` slots and empty. -/
def readyWorld (disk : Nat → Mem) : World :=
  { World.boot disk with Stat := 0, SDQueueID := some 1, capacity := ⟨QUEUE_SIZE, by decide⟩ }

/-! ## Hypotheses on the simulation -/

/-- A transport driver that accepts every DMA request, raises the matching
completion interrupt for it, always reports transfer-ready, and whose tick
counter never advances by the timeout or more between two consecutive
readings. -/
structure WellBehaved (cfg : Config) (hw : Hw) : Prop where
  accepts : ∀ n, hw.issueAt n = HAL_Status.HAL_OK
  posts : ∀ n, hw.irqAt n = Irq.matching
  ready : ∀ n, hw.cardStateAt n = HAL_SD_CARD_TRANSFER
  clock : ∀ n, sub32 (hw.tickAt (n + 1)) (hw.tickAt n) < u32 cfg.SD_TIMEOUT

/-- The completion queue exists and holds no pending event. -/
def QueueIdle (w : World) : Prop := w.SDQueueID ≠ none ∧ w.queue = []

/-- Number of waits on the completion queue recorded in a trace. -/
def countQueueGet (tr : List Ev) : Nat :=
  (tr.filter (fun e => match e with | Ev.queueGet _ => true | _ => false)).length

/-- Number of DMA requests recorded in a trace. -/
def countDMA (tr : List Ev) : Nat :=
  (tr.filter (fun e => match e with
    | Ev.readDMA _ _ _ => true
    | Ev.writeDMA _ _ _ => true
    | _ => false)).length

/-- Number of card-state queries recorded in a trace. -/
def countCardState (tr : List Ev) : Nat :=
  (tr.filter (fun e => match e with | Ev.getCardState => true | _ => false)).length

/-- Number of device-information queries recorded in a trace. -/
def countCardInfo (tr : List Ev) : Nat :=
  (tr.filter (fun e => match e with | Ev.getCardInfo => true | _ => false)).length

/-- The step from `w` to `w1` only read the tick counter and sampled the card
state: the driver's variables, the medium and the queue are as before, and the
trace has grown by tick readings and card-state samples only. -/
def ProbeOnly (w w1 : World) : Prop :=
  w1.Stat = w.Stat ∧ w1.SDQueueID = w.SDQueueID ∧ w1.scratch = w.scratch ∧
  w1.queue = w.queue ∧ w1.disk = w.disk ∧ w1.nIssue = w.nIssue ∧
  w1.nNew = w.nNew ∧ w1.nInfo = w.nInfo ∧ w1.capacity = w.capacity ∧
  ∃ evs, w1.trace = w.trace ++ evs ∧ ∀ e ∈ evs, e = Ev.getTick ∨ e = Ev.getCardState

/-- The state after a DMA request that the driver rejected. -/
def afterRejected (e : Ev) (w : World) : World :=
  { w with nIssue := w.nIssue + 1, trace := w.trace ++ [e] }

/-- The state in which `SD_DMA_write` issues its request on the fast path:
after the cache clean, when it is compiled in. -/
def writeFastIssueState (cfg : Config) (addr count : Nat) (w : World) : World :=
  if cfg.ENABLE_SD_DMA_CACHE_MAINTENANCE then
    SCB_CleanDCache_by_Addr (Region.caller addr) (u32 (count * BLOCKSIZE)) w
  else w

/-- The state in which `SD_DMA_write` issues a sub-request on the slow path:
after the copy to the scratch buffer and the cache clean, when it is compiled
in. -/
def writeSlowIssueState (cfg : Config) (buf : Mem) (off : Nat) (w : World) : World :=
  if cfg.ENABLE_SD_DMA_CACHE_MAINTENANCE then
    SCB_CleanDCache_by_Addr Region.scratch BLOCKSIZE
      { w with scratch := memcpy w.scratch 0 buf off BLOCKSIZE }
  else { w with scratch := memcpy w.scratch 0 buf off BLOCKSIZE }

/-- The world with another value of the cached status `Stat`. -/
def setStat (x : Nat) (w : World) : World := { w with Stat := x }

/-- Number of queue creations recorded in a trace. -/
def countQueueNew (tr : List Ev) : Nat :=
  (tr.filter (fun e => match e with | Ev.queueNew => true | _ => false)).length

/-- The entry points of the driver: the five disk functions, called by the
filesystem layer, and the two completion callbacks, called by the HAL. -/
inductive Op
  | init
  | status
  | read (addr : Nat) (buf : Mem) (sector count : Nat)
  | write (addr : Nat) (buf : Mem) (sector count : Nat)
  | ioctl (cmd : Nat)
  | rxCplt
  | txCplt

/-- The state after one call of an entry point (its result is dropped). -/
def runOp (cfg : Config) (hw : Hw) (fuel : Nat) : Op → World → Option World
  | Op.init, w => some ( SD_DMA_initialize cfg hw w).2
  | Op.status, w => some (SD_DMA_status hw w).2
  | Op.read a b s c, w => (SD_DMA_read cfg hw fuel a b s c w).map (fun r => r.2.2)
  | Op.write a b s c, w => (SD_DMA_write cfg hw fuel a b s c w).map (fun r => r.2)
  | Op.ioctl cmd, w => some (SD_DMA_ioctl hw cmd w).2.2
  | Op.rxCplt, w => some (HAL_SD_RxCpltCallback w)
  | Op.txCplt, w => some (HAL_SD_TxCpltCallback w)

/-- The state after a sequence of calls. -/
def runOps (cfg : Config) (hw : Hw) (fuel : Nat) : List Op → World → Option World
  | [], w => some w
  | op :: ops, w =>
    match runOp cfg hw fuel op w with
    | none => none
    | some w1 => runOps cfg hw fuel ops w1

/-- The step from `w` to `w1` kept the queue handle and created no queue: the
handle, the number of `osMessageQueueNew` calls and the number of slots of the
queue are as before. -/
def HandleKept (w w1 : World) : Prop :=
  w1.SDQueueID = w.SDQueueID ∧ w1.nNew = w.nNew ∧
  countQueueNew w1.trace = countQueueNew w.trace ∧ w1.capacity = w.capacity

/-- Allocation history of the completion queue: either the handle is `NULL` and
every `osMessageQueueNew` so far returned `NULL`, or the last
`osMessageQueueNew` returned the handle that `SDQueueID` holds and every
earlier one returned `NULL`. -/
def AllocatedOnce (hw : Hw) (w : World) : Prop :=
  (w.SDQueueID = none ∧ ∀ k, k < w.nNew → hw.queueNewAt k = none) ∨
  (∃ k0, w.nNew = k0 + 1 ∧ w.SDQueueID = hw.queueNewAt k0 ∧
    hw.queueNewAt k0 ≠ none ∧ ∀ k, k < k0 → hw.queueNewAt k = none)

/-- The DMA requests recorded in a trace, in order. -/
def dmaEvents (tr : List Ev) : List Ev :=
  tr.filter (fun e => match e with
    | Ev.readDMA _ _ _ => true
    | Ev.writeDMA _ _ _ => true
    | _ => false)

/-- The state after a readiness poll that reads the tick counter for `timer`,
passes the loop condition once and samples the card once. -/
def pollDone (hw : Hw) (w : World) : World :=
  (HAL_SD_GetCardState hw (osKernelGetTickCount hw (osKernelGetTickCount hw w).2).2).2

/-- The calls of a readiness poll that succeeds at its first sample: the tick
reading for `timer`, the tick reading of the loop condition, one card-state
sample. -/
def pollEvents : List Ev := [Ev.getTick, Ev.getTick, Ev.getCardState]

/-- The calls of one read request that completes: the DMA request, the post of
the completion callback, one wait on the completion queue, one readiness poll,
and the cache invalidate when it is compiled in. -/
def readRequestEvents (cfg : Config) (dst : Region) (blk n len : Nat) : List Ev :=
  [Ev.readDMA dst blk n, Ev.queuePut READ_CPLT_MSG 0 0, Ev.queueGet cfg.SD_TIMEOUT]
    ++ pollEvents ++
    (if cfg.ENABLE_SD_DMA_CACHE_MAINTENANCE then [Ev.invalidateDCache dst len] else [])

/-- The calls of `n` single-sector read requests through the scratch buffer,
for the sectors `s`, `s + 1`, ... -/
def slowReadEvents (cfg : Config) : Nat → Nat → List Ev
  | _, 0 => []
  | s, n + 1 =>
    readRequestEvents cfg Region.scratch s 1 BLOCKSIZE ++ slowReadEvents cfg (s + 1) n

/-- The `k`-th evaluation of the loop condition of a readiness poll that read
`timer` from the tick reading number `n0`: the tick reading number
`n0 + 1 + k` is less than `timeout` ticks after `timer`, in 32-bit wrapping
arithmetic. -/
def withinDeadline (hw : Hw) (timeout n0 k : Nat) : Prop :=
  sub32 (hw.tickAt (n0 + 1 + k)) (hw.tickAt n0) < u32 timeout

/-- The `k`-th card-state sample of a readiness poll that starts at sample
number `m0` reads transfer-ready. -/
def sampleReady (hw : Hw) (m0 k : Nat) : Prop :=
  hw.cardStateAt (m0 + k) = HAL_SD_CARD_TRANSFER

/-- Fast path of `SD_DMA_read`: the DMA request, issued in state `w`. -/
def fastReadIssue (hw : Hw) (addr : Nat) (buf : Mem) (s count : Nat) (w : World) :
    HAL_Status × Mem × World :=
  HAL_SD_ReadBlocks_DMA hw (Region.caller addr) (u32 s) (u32 count) buf w

/-- Fast path of `SD_DMA_read`: the wait on the completion queue that follows
the DMA request. -/
def fastReadWait (cfg : Config) (hw : Hw) (addr : Nat) (buf : Mem) (s count : Nat)
    (w : World) : osStatus × Nat × World :=
  osMessageQueueGet cfg.SD_TIMEOUT 0 (fastReadIssue hw addr buf s count w).2.2

/-- Fast path of `SD_DMA_read`: the readiness poll that follows the wait. -/
def fastReadPoll (cfg : Config) (hw : Hw) (fuel addr : Nat) (buf : Mem) (s count : Nat)
    (w : World) : Option (Bool × World) :=
  waitTransfer hw (osKernelGetTickCount hw (fastReadWait cfg hw addr buf s count w).2.2).1
    cfg.SD_TIMEOUT fuel (osKernelGetTickCount hw (fastReadWait cfg hw addr buf s count w).2.2).2

/-- Fast path of `SD_DMA_write`: the DMA request, issued after the cache clean
of state `w`. -/
def fastWriteIssue (cfg : Config) (hw : Hw) (addr : Nat) (buf : Mem) (s count : Nat)
    (w : World) : HAL_Status × World :=
  HAL_SD_WriteBlocks_DMA hw (Region.caller addr) (u32 s) (u32 count) buf
    (writeFastIssueState cfg addr count w)

/-- Fast path of `SD_DMA_write`: the wait on the completion queue that follows
the DMA request. -/
def fastWriteWait (cfg : Config) (hw : Hw) (addr : Nat) (buf : Mem) (s count : Nat)
    (w : World) : osStatus × Nat × World :=
  osMessageQueueGet cfg.SD_TIMEOUT 0 (fastWriteIssue cfg hw addr buf s count w).2

/-- Fast path of `SD_DMA_write`: the readiness poll that follows the wait. -/
def fastWritePoll (cfg : Config) (hw : Hw) (fuel addr : Nat) (buf : Mem) (s count : Nat)
    (w : World) : Option (Bool × World) :=
  waitTransfer hw (osKernelGetTickCount hw (fastWriteWait cfg hw addr buf s count w).2.2).1
    cfg.SD_TIMEOUT fuel
    (osKernelGetTickCount hw (fastWriteWait cfg hw addr buf s count w).2.2).2

/-- The step from `w` to `w1` touched neither the medium nor the scratch buffer
and issued no DMA request. -/
def Quiet (w w1 : World) : Prop :=
  w1.disk = w.disk ∧ w1.scratch = w.scratch ∧ w1.nIssue = w.nIssue ∧
  dmaEvents w1.trace = dmaEvents w.trace

/-- The tick source passes every deadline within the fuel: counted from any
tick reading, one of the next `fuel` readings is `timeout` ticks or more
later. -/
def ClockAdvances (hw : Hw) (timeout fuel : Nat) : Prop :=
  ∀ n0, ∃ K, K < fuel ∧ ¬ withinDeadline hw timeout n0 K

/-- A card like `goodHw` that accepts the first `k` DMA requests and rejects
the later ones, with a tick counter that advances by 10000 per reading. -/
def failAtHw (k : Nat) : Hw :=
  { goodHw with
    issueAt := fun n => if n < k then HAL_Status.HAL_OK else HAL_Status.HAL_ERROR
    tickAt := fun n => 10000 * n }

/-! ## The SRAM disk (`drivers/sram/sram_diskio.c`) -/

/-- Block size of the SRAM disk, `#define BLOCK_SIZE 512` of the template
`sram_diskio_config.h`. -/
def BLOCK_SIZE : Nat := 512

/-- Base address of the SRAM disk, `#define SRAM_DISK_BASE_ADDR 0x24000000`. -/
def SRAM_DISK_BASE_ADDR : Nat := 0x24000000

/-- Size of the SRAM disk in bytes, `#define SRAM_DISK_SIZE (32 * 1024)`. -/
def SRAM_DISK_SIZE : Nat := 32 * 1024

/-- The loop `for(; BufferSize != 0; BufferSize--) *buff++ = *pMem++;` of
`SRAMDISK_read`: the first argument is `BufferSize`, `pMem` is an address of
the memory `mem`, `b` the distance that `buff` has advanced. -/
def SRAMDISK_read_loop (mem : Mem) : Nat → Nat → Nat → Mem → Mem
  | 0, _, _, buf => buf
  | n + 1, pMem, b, buf =>
    SRAMDISK_read_loop mem n (pMem + 1) (b + 1) (fun j => if j = b then mem pMem else buf j)

/-- `SRAMDISK_read(lun, buff, sector, count)`: `mem` is the memory by address,
`buf` the contents of `buff`, a region of its own outside the disk.  Returns
the result and the new contents of the buffer. -/
def SRAMDISK_read (mem : Mem) (buf : Mem) (sector count : Nat) : DRESULT × Mem :=
  (DRESULT.RES_OK,
    SRAMDISK_read_loop mem (u32 (BLOCK_SIZE * count))
      (u32 (SRAM_DISK_BASE_ADDR + sector * BLOCK_SIZE)) 0 buf)

/-- The loop `for(; BufferSize != 0; BufferSize--) *pMem++ = *buff++;` of
`SRAMDISK_write`, with the conventions of `SRAMDISK_read_loop`. -/
def SRAMDISK_write_loop (buf : Mem) : Nat → Nat → Nat → Mem → Mem
  | 0, _, _, mem => mem
  | n + 1, pMem, b, mem =>
    SRAMDISK_write_loop buf n (pMem + 1) (b + 1) (fun a => if a = pMem then buf b else mem a)

/-- `SRAMDISK_write(lun, buff, sector, count)`.  Returns the result and the new
contents of the memory. -/
def SRAMDISK_write (mem : Mem) (buf : Mem) (sector count : Nat) : DRESULT × Mem :=
  (DRESULT.RES_OK,
    SRAMDISK_write_loop buf (u32 (BLOCK_SIZE * count))
      (u32 (SRAM_DISK_BASE_ADDR + sector * BLOCK_SIZE)) 0 mem)


/-- The calls that only wait or signal: tick readings, card-state samples,
waits on the completion queue and posts to it. -/
def isWaitEvent : Ev → Bool
  | Ev.getTick => true
  | Ev.getCardState => true
  | Ev.queueGet _ => true
  | Ev.queuePut _ _ _ => true
  | _ => false

/-- The trace `t1` continues the trace `t` with waiting and signalling calls
only. -/
def OnlyWaits (t t1 : List Ev) : Prop :=
  ∃ evs, t1 = t ++ evs ∧ ∀ e ∈ evs, isWaitEvent e = true


/-! ## The USB host disk (`drivers/usb_host/usbh_diskio.c`) -/

/-- Status codes of the USB host library (`USBH_StatusTypeDef`); the driver
tests for `USBH_OK` and `USBH_FAIL`. -/
inductive USBH_StatusTypeDef
  | USBH_OK
  | USBH_BUSY
  | USBH_FAIL
  | USBH_NOT_SUPPORTED
  | USBH_UNRECOVERED_ERROR
  | USBH_ERROR_SPEED_UNKNOWN
  deriving DecidableEq, Repr

/-- The additional sense code `info.sense.asc` as `USBH_write` distinguishes
it: the four codes that its `switch` names, or any other value. -/
inductive SenseCode
  | SCSI_ASC_WRITE_PROTECTED
  | SCSI_ASC_LOGICAL_UNIT_NOT_READY
  | SCSI_ASC_MEDIUM_NOT_PRESENT
  | SCSI_ASC_NOT_READY_TO_READY_CHANGE
  | other
  deriving DecidableEq, Repr

/-- Build-time constant of the USB host disk: `FF_MAX_SS`, the sector size in
bytes and the size of its scratch buffer. -/
structure UsbConfig where
  FF_MAX_SS : Nat

/-- A configuration with sectors of 512 bytes. -/
def usbConfig512 : UsbConfig := { FF_MAX_SS := 512 }

/-- Scripted behaviour of the USB host library: the answer to the n-th call of
each kind, and the `Init.dma_enable` field of the host controller handle. -/
structure UsbHost where
  /-- status of the n-th `USBH_MSC_Write` -/
  writeAt : Nat → USBH_StatusTypeDef
  /-- `info.sense.asc` after the n-th `USBH_MSC_GetLUNInfo` -/
  senseAt : Nat → SenseCode
  /-- `((HCD_HandleTypeDef *)hUsb_Host.pData)->Init.dma_enable` -/
  dma_enable : Bool

/-- Calls into the USB host library, as recorded in the trace: a write with
its logical unit, sector address, source, sector count and returned status,
and a query of the logical unit information. -/
inductive UsbEv
  | mscWrite (lun address : Nat) (src : Region) (length : Nat) (status : USBH_StatusTypeDef)
  | getLUNInfo (lun : Nat)
  deriving DecidableEq, Repr

/-- The static scratch buffer of the USB host disk and the bookkeeping of the
simulation. -/
structure UsbWorld where
  /-- `static DWORD scratch[FF_MAX_SS / 4]`, by byte offset -/
  scratch : Mem
  nWrite : Nat
  nInfo : Nat
  /-- calls made so far, oldest first -/
  trace : List UsbEv

/-- State of the USB host disk at process start. -/
def UsbWorld.boot : UsbWorld :=
  { scratch := fun _ => 0, nWrite := 0, nInfo := 0, trace := [] }

/-- Simulated `USBH_MSC_Write(&hUsb_Host, lun, address, src, length)`: the
scripted status. -/
def USBH_MSC_Write (host : UsbHost) (lun address : Nat) (src : Region) (length : Nat)
    (w : UsbWorld) : USBH_StatusTypeDef × UsbWorld :=
  (host.writeAt w.nWrite,
   { w with nWrite := w.nWrite + 1,
            trace := w.trace ++
              [UsbEv.mscWrite lun address src length (host.writeAt w.nWrite)] })

/-- Simulated `USBH_MSC_GetLUNInfo(&hUsb_Host, lun, &info)`: the value of
`info.sense.asc` that the driver reads afterwards. -/
def USBH_MSC_GetLUNInfo (host : UsbHost) (lun : Nat) (w : UsbWorld) :
    SenseCode × UsbWorld :=
  (host.senseAt w.nInfo,
   { w with nInfo := w.nInfo + 1, trace := w.trace ++ [UsbEv.getLUNInfo lun] })

/-- The loop `while (count--) { memcpy(scratch, &buff[count * FF_MAX_SS],
FF_MAX_SS); status = USBH_MSC_Write(.., sector + count, scratch, 1);
if (status == USBH_FAIL) break; }` of the scratch path of `USBH_write`.  The
first argument is the value of `count` that the loop condition tests, the
second the current `status`.  Returns the final `status`. -/
def USBH_write_loop (ucfg : UsbConfig) (host : UsbHost) (lun : Nat) (buf : Mem)
    (sector : Nat) : Nat → USBH_StatusTypeDef → UsbWorld → USBH_StatusTypeDef × UsbWorld
  | 0, status, w => (status, w)
  | count + 1, _, w =>
    let w0 :=
      { w with
        scratch := memcpy w.scratch 0 buf (u32 (count * ucfg.FF_MAX_SS)) ucfg.FF_MAX_SS }
    let r := USBH_MSC_Write host lun (u32 (sector + count)) Region.scratch 1 w0
    if r.1 = USBH_StatusTypeDef.USBH_FAIL then r
    else USBH_write_loop ucfg host lun buf sector count r.1 r.2

/-- The test `!((DWORD)buff & 3) && dma_enable` that selects the scratch path
of `USBH_write`. -/
def usbScratchPath (host : UsbHost) (addr : Nat) : Bool :=
  ((u32 addr) &&& 3 == 0) && host.dma_enable

/-- `USBH_write(lun, buff, sector, count)`: `addr` is the address of `buff`,
`buf` its contents. -/
def USBH_write (ucfg : UsbConfig) (host : UsbHost) (lun addr : Nat) (buf : Mem)
    (sector count : Nat) (w : UsbWorld) : DRESULT × UsbWorld :=
  let r :=
    if usbScratchPath host addr then
      USBH_write_loop ucfg host lun buf sector (u32 count) USBH_StatusTypeDef.USBH_OK w
    else USBH_MSC_Write host lun (u32 sector) (Region.caller addr) (u32 count) w
  if r.1 = USBH_StatusTypeDef.USBH_OK then (DRESULT.RES_OK, r.2)
  else
    let i := USBH_MSC_GetLUNInfo host lun r.2
    (match i.1 with
      | SenseCode.SCSI_ASC_WRITE_PROTECTED => DRESULT.RES_WRPRT
      | SenseCode.SCSI_ASC_LOGICAL_UNIT_NOT_READY => DRESULT.RES_NOTRDY
      | SenseCode.SCSI_ASC_MEDIUM_NOT_PRESENT => DRESULT.RES_NOTRDY
      | SenseCode.SCSI_ASC_NOT_READY_TO_READY_CHANGE => DRESULT.RES_NOTRDY
      | SenseCode.other => DRESULT.RES_ERROR,
     i.2)

/-- A USB host with DMA enabled whose first `USBH_MSC_Write` returns
`USBH_BUSY` and whose later ones return `USBH_OK`. -/
def busyFirstHost : UsbHost :=
  { writeAt := fun n =>
      if n = 0 then USBH_StatusTypeDef.USBH_BUSY else USBH_StatusTypeDef.USBH_OK
    senseAt := fun _ => SenseCode.other
    dma_enable := true }

/-- The statuses of the `USBH_MSC_Write` calls recorded in a trace, in
order. -/
def writeStatuses : List UsbEv → List USBH_StatusTypeDef
  | [] => []
  | UsbEv.mscWrite _ _ _ _ st :: rest => st :: writeStatuses rest
  | UsbEv.getLUNInfo _ :: rest => writeStatuses rest


/-! ## Basic facts -/

theorem u32_idem (x : Nat) : u32 (u32 x) = u32 x := by
  unfold u32; omega

theorem u32_of_lt {x : Nat} (h : x < 2 ^ 32) : u32 x = x := by
  unfold u32; omega

theorem sub32_u32_left (a b : Nat) : sub32 (u32 a) b = sub32 a b := by
  unfold sub32; rw [u32_idem]

theorem sub32_u32_right (a b : Nat) : sub32 a (u32 b) = sub32 a b := by
  unfold sub32; rw [u32_idem]

theorem goodHw_wellBehaved : WellBehaved templateConfig goodHw where
  accepts := fun _ => rfl
  posts := fun _ => rfl
  ready := fun _ => rfl
  clock := by
    intro n
    simp only [goodHw, templateConfig, sub32, u32]
    omega

/-- Under a well-behaved driver the readiness poll that follows a tick reading
succeeds at its first sample and touches neither memory nor the queue. -/
theorem poll_wellBehaved {cfg : Config} {hw : Hw} (hg : WellBehaved cfg hw)
    {fuel : Nat} (hfuel : 1 ≤ fuel) (w : World) :
    ∃ w1, waitTransfer hw (osKernelGetTickCount hw w).1 cfg.SD_TIMEOUT fuel
        (osKernelGetTickCount hw w).2 = some (true, w1) ∧
      w1.disk = w.disk ∧ w1.scratch = w.scratch ∧ w1.queue = w.queue ∧
      w1.SDQueueID = w.SDQueueID ∧ w1.Stat = w.Stat := by
  obtain ⟨f, rfl⟩ : ∃ f, fuel = f + 1 := ⟨fuel - 1, by omega⟩
  have hc := hg.clock w.nTick
  refine ⟨(HAL_SD_GetCardState hw
    (osKernelGetTickCount hw (osKernelGetTickCount hw w).2).2).2, ?_, ?_⟩
  · simp only [waitTransfer, osKernelGetTickCount, HAL_SD_GetCardState, sub32_u32_left,
      sub32_u32_right, hc, hg.ready, if_true]
  · simp [osKernelGetTickCount, HAL_SD_GetCardState]

/-- Under a well-behaved driver the initial readiness probe returns 0. -/
theorem check_wellBehaved {cfg : Config} {hw : Hw} (hg : WellBehaved cfg hw)
    {fuel : Nat} (hfuel : 1 ≤ fuel) (w : World) :
    ∃ w1, SD_check_status_with_timeout hw cfg.SD_TIMEOUT fuel w = some (0, w1) ∧
      w1.disk = w.disk ∧ w1.scratch = w.scratch ∧ w1.queue = w.queue ∧
      w1.SDQueueID = w.SDQueueID ∧ w1.Stat = w.Stat := by
  obtain ⟨w1, h1, h2⟩ := poll_wellBehaved hg hfuel w
  exact ⟨w1, by simp only [SD_check_status_with_timeout, h1], h2⟩

/-- A DMA read into the scratch buffer under a well-behaved driver. -/
theorem readScratch_wellBehaved {cfg : Config} {hw : Hw} (hg : WellBehaved cfg hw)
    (blk n : Nat) (buf : Mem) (w : World) (hq : QueueIdle w) :
    (HAL_SD_ReadBlocks_DMA hw Region.scratch blk n buf w).1 = HAL_Status.HAL_OK ∧
    (HAL_SD_ReadBlocks_DMA hw Region.scratch blk n buf w).2.1 = buf ∧
    (HAL_SD_ReadBlocks_DMA hw Region.scratch blk n buf w).2.2.SDQueueID = w.SDQueueID ∧
    (HAL_SD_ReadBlocks_DMA hw Region.scratch blk n buf w).2.2.queue = [READ_CPLT_MSG] ∧
    (HAL_SD_ReadBlocks_DMA hw Region.scratch blk n buf w).2.2.disk = w.disk ∧
    (HAL_SD_ReadBlocks_DMA hw Region.scratch blk n buf w).2.2.scratch =
      memcpy w.scratch 0 (diskData w.disk blk) 0 (n * BLOCKSIZE) := by
  obtain ⟨hid, hqe⟩ := hq
  obtain ⟨q, hq⟩ := Option.ne_none_iff_exists'.mp hid
  simp [HAL_SD_ReadBlocks_DMA, hg.accepts, hg.posts, raiseIrq, HAL_SD_RxCpltCallback,
    osMessageQueuePut, hq, hqe, QUEUE_SIZE, READ_CPLT_MSG]

/-- A DMA read into the caller's buffer under a well-behaved driver. -/
theorem readCaller_wellBehaved {cfg : Config} {hw : Hw} (hg : WellBehaved cfg hw)
    (addr blk n : Nat) (buf : Mem) (w : World) (hq : QueueIdle w) :
    (HAL_SD_ReadBlocks_DMA hw (Region.caller addr) blk n buf w).1 = HAL_Status.HAL_OK ∧
    (HAL_SD_ReadBlocks_DMA hw (Region.caller addr) blk n buf w).2.1 =
      memcpy buf 0 (diskData w.disk blk) 0 (n * BLOCKSIZE) ∧
    (HAL_SD_ReadBlocks_DMA hw (Region.caller addr) blk n buf w).2.2.SDQueueID
      = w.SDQueueID ∧
    (HAL_SD_ReadBlocks_DMA hw (Region.caller addr) blk n buf w).2.2.queue
      = [READ_CPLT_MSG] ∧
    (HAL_SD_ReadBlocks_DMA hw (Region.caller addr) blk n buf w).2.2.disk = w.disk := by
  obtain ⟨hid, hqe⟩ := hq
  obtain ⟨q, hq⟩ := Option.ne_none_iff_exists'.mp hid
  simp [HAL_SD_ReadBlocks_DMA, hg.accepts, hg.posts, raiseIrq, HAL_SD_RxCpltCallback,
    osMessageQueuePut, hq, hqe, QUEUE_SIZE, READ_CPLT_MSG]

/-- A DMA write under a well-behaved driver. -/
theorem writeDMA_wellBehaved {cfg : Config} {hw : Hw} (hg : WellBehaved cfg hw)
    (src : Region) (blk n : Nat) (buf : Mem) (w : World) (hq : QueueIdle w) :
    (HAL_SD_WriteBlocks_DMA hw src blk n buf w).1 = HAL_Status.HAL_OK ∧
    (HAL_SD_WriteBlocks_DMA hw src blk n buf w).2.SDQueueID = w.SDQueueID ∧
    (HAL_SD_WriteBlocks_DMA hw src blk n buf w).2.queue = [WRITE_CPLT_MSG] ∧
    (HAL_SD_WriteBlocks_DMA hw src blk n buf w).2.disk =
      diskAfterWrite w.disk
        (match src with
          | Region.caller _ => buf
          | Region.scratch => w.scratch) blk n := by
  obtain ⟨hid, hqe⟩ := hq
  obtain ⟨q, hq⟩ := Option.ne_none_iff_exists'.mp hid
  simp [HAL_SD_WriteBlocks_DMA, hg.accepts, hg.posts, raiseIrq, HAL_SD_TxCpltCallback,
    osMessageQueuePut, hq, hqe, QUEUE_SIZE, WRITE_CPLT_MSG]

/-- The wait for the event that a well-behaved driver has just posted. -/
theorem queueGet_posted (timeout event e : Nat) (w : World)
    (hid : w.SDQueueID ≠ none) (hqe : w.queue = [e]) :
    (osMessageQueueGet timeout event w).1 = osStatus.osOK ∧
    (osMessageQueueGet timeout event w).2.1 = e ∧
    QueueIdle (osMessageQueueGet timeout event w).2.2 ∧
    (osMessageQueueGet timeout event w).2.2.disk = w.disk ∧
    (osMessageQueueGet timeout event w).2.2.scratch = w.scratch := by
  obtain ⟨q, hq⟩ := Option.ne_none_iff_exists'.mp hid
  simp [osMessageQueueGet, hq, hqe, QueueIdle]

/-- The wait and the poll of a slow-path sub-request under a well-behaved
driver. -/
theorem slowWait_wellBehaved {cfg : Config} {hw : Hw} (hg : WellBehaved cfg hw)
    {fuel : Nat} (hfuel : 1 ≤ fuel) (expected event : Nat) (w : World)
    (hid : w.SDQueueID ≠ none) (hqe : w.queue = [expected]) :
    ∃ w1, slowWait cfg hw fuel expected event w = some (expected, w1) ∧
      QueueIdle w1 ∧ w1.disk = w.disk ∧ w1.scratch = w.scratch := by
  obtain ⟨h1, h2, h3, h4, h5⟩ := queueGet_posted cfg.SD_TIMEOUT event expected w hid hqe
  obtain ⟨w1, hw1, hd, hs, hq, hi, -⟩ :=
    poll_wellBehaved hg hfuel (osMessageQueueGet cfg.SD_TIMEOUT event w).2.2
  refine ⟨w1, ?_, ⟨?_, ?_⟩, ?_, ?_⟩
  · simp only [slowWait, h1, h2, and_self, if_true, hw1]
  · rw [hi]; exact h3.1
  · rw [hq]; exact h3.2
  · rw [hd, h4]
  · rw [hs, h5]

/-- The slow-path loop of `SD_DMA_write` under a well-behaved driver: it runs
to the end and has stored the caller's sectors one by one. -/
theorem write_slow_wellBehaved {cfg : Config} {hw : Hw} (hg : WellBehaved cfg hw)
    {fuel : Nat} (hfuel : 1 ≤ fuel) (buf : Mem) :
    ∀ (n i : Nat) (ret : Option HAL_Status) (event sector off : Nat) (w : World),
      QueueIdle w → sector + n ≤ 2 ^ 32 →
      ∃ w1, SD_DMA_write_slow cfg hw fuel buf n i ret event sector off w =
          some (i + n, (if n = 0 then ret else some HAL_Status.HAL_OK), w1) ∧
        QueueIdle w1 ∧
        ∀ sec o, o < BLOCKSIZE → w1.disk sec o =
          if sector ≤ sec ∧ sec < sector + n then
            buf (off + (sec - sector) * BLOCKSIZE + o)
          else w.disk sec o := by
  intro n
  induction n with
  | zero =>
    intro i ret event sector off w hq _
    refine ⟨w, by simp [SD_DMA_write_slow], hq, ?_⟩
    intro sec o _
    rw [if_neg (by omega)]
  | succ n ih =>
    intro i ret event sector off w hq hsec
    have hu : u32 sector = sector := u32_of_lt (by omega)
    -- the state in which the request is issued
    obtain ⟨wi, hwi, hwq, hwd, hws⟩ : ∃ wi : World,
        wi = (if cfg.ENABLE_SD_DMA_CACHE_MAINTENANCE then
            SCB_CleanDCache_by_Addr Region.scratch BLOCKSIZE
              { w with scratch := memcpy w.scratch 0 buf off BLOCKSIZE }
          else { w with scratch := memcpy w.scratch 0 buf off BLOCKSIZE }) ∧
        QueueIdle wi ∧ wi.disk = w.disk ∧
        wi.scratch = memcpy w.scratch 0 buf off BLOCKSIZE := by
      refine ⟨_, rfl, ?_⟩
      cases cfg.ENABLE_SD_DMA_CACHE_MAINTENANCE <;>
        simpa [SCB_CleanDCache_by_Addr, QueueIdle] using hq
    obtain ⟨d1, d2, d3, d4⟩ := writeDMA_wellBehaved hg Region.scratch sector 1 buf wi hwq
    obtain ⟨w2, hw2, hq2, hd2, -⟩ :=
      slowWait_wellBehaved hg hfuel WRITE_CPLT_MSG event
        (HAL_SD_WriteBlocks_DMA hw Region.scratch sector 1 buf wi).2
        (by rw [d2]; exact hwq.1) d3
    obtain ⟨w3, hw3, hq3, hd3⟩ :=
      ih (i + 1) (some HAL_Status.HAL_OK) WRITE_CPLT_MSG (sector + 1)
        (off + BLOCKSIZE) w2 hq2 (by omega)
    refine ⟨w3, ?_, hq3, ?_⟩
    · rw [SD_DMA_write_slow]
      simp only [hu, ← hwi, d1, if_true, hw2, hw3]
      simp; omega
    · intro sec o ho
      rw [hd3 sec o ho, hd2, d4, hws]
      simp only [BLOCKSIZE] at ho ⊢
      by_cases h1 : sector + 1 ≤ sec ∧ sec < sector + 1 + n
      · have h2 : sector ≤ sec ∧ sec < sector + (n + 1) := by omega
        rw [if_pos h1, if_pos h2]
        congr 1; omega
      · rw [if_neg h1]
        by_cases h3 : sec = sector
        · subst h3
          have h6 : 0 ≤ o ∧ o < 0 + 512 := by omega
          simp [diskAfterWrite, memcpy, h6, BLOCKSIZE]
        · have h4 : ¬ (sector ≤ sec ∧ sec < sector + 1) := by omega
          have h5 : ¬ (sector ≤ sec ∧ sec < sector + (n + 1)) := by omega
          rw [if_neg h5, hwd]
          simp only [diskAfterWrite, if_neg h4]

/-- The slow-path loop of `SD_DMA_read` under a well-behaved driver: it runs to
the end and has copied the sectors of the medium into the caller's buffer one
by one. -/
theorem read_slow_wellBehaved {cfg : Config} {hw : Hw} (hg : WellBehaved cfg hw)
    {fuel : Nat} (hfuel : 1 ≤ fuel) :
    ∀ (n i : Nat) (ret : Option HAL_Status) (event sector off : Nat) (buf : Mem)
      (w : World), QueueIdle w → sector + n ≤ 2 ^ 32 →
      ∃ buf1 w1, SD_DMA_read_slow cfg hw fuel n i ret event sector off buf w =
          some (i + n, (if n = 0 then ret else some HAL_Status.HAL_OK), buf1, w1) ∧
        QueueIdle w1 ∧ w1.disk = w.disk ∧
        ∀ j, buf1 j =
          if off ≤ j ∧ j < off + n * BLOCKSIZE then
            w.disk (sector + (j - off) / BLOCKSIZE) ((j - off) % BLOCKSIZE)
          else buf j := by
  intro n
  induction n with
  | zero =>
    intro i ret event sector off buf w hq _
    refine ⟨buf, w, by simp [SD_DMA_read_slow], hq, rfl, ?_⟩
    intro j
    rw [if_neg (by omega)]
  | succ n ih =>
    intro i ret event sector off buf w hq hsec
    have hu : u32 sector = sector := u32_of_lt (by omega)
    obtain ⟨d1, d2, d3, d4, d5, d6⟩ := readScratch_wellBehaved hg sector 1 buf w hq
    obtain ⟨w1, hw1, hq1, hd1, hs1⟩ :=
      slowWait_wellBehaved hg hfuel READ_CPLT_MSG event
        (HAL_SD_ReadBlocks_DMA hw Region.scratch sector 1 buf w).2.2
        (by rw [d3]; exact hq.1) d4
    -- the state after the cache maintenance
    obtain ⟨w2, hw2, hq2, hd2, hs2⟩ : ∃ w2 : World,
        w2 = (if cfg.ENABLE_SD_DMA_CACHE_MAINTENANCE then
            SCB_InvalidateDCache_by_Addr Region.scratch BLOCKSIZE w1 else w1) ∧
        QueueIdle w2 ∧ w2.disk = w1.disk ∧ w2.scratch = w1.scratch := by
      refine ⟨_, rfl, ?_⟩
      cases cfg.ENABLE_SD_DMA_CACHE_MAINTENANCE <;>
        simpa [SCB_InvalidateDCache_by_Addr, QueueIdle] using hq1
    obtain ⟨buf3, w3, hw3, hq3, hd3, hb3⟩ :=
      ih (i + 1) (some HAL_Status.HAL_OK) READ_CPLT_MSG (sector + 1) (off + BLOCKSIZE)
        (memcpy buf off w2.scratch 0 BLOCKSIZE) w2 hq2 (by omega)
    refine ⟨buf3, w3, ?_, hq3, ?_, ?_⟩
    · rw [SD_DMA_read_slow]
      simp only [hu, d1, d2, if_true, hw1, ← hw2, hw3]
      simp; omega
    · rw [hd3, hd2, hd1, d5]
    · intro j
      rw [hb3 j, hd2, hd1, d5, hs2, hs1, d6]
      simp only [BLOCKSIZE]
      by_cases h1 : off + 512 ≤ j ∧ j < off + 512 + n * 512
      · have h2 : off ≤ j ∧ j < off + (n + 1) * 512 := by omega
        have e1 : sector + 1 + (j - (off + 512)) / 512 = sector + (j - off) / 512 := by
          omega
        have e2 : (j - (off + 512)) % 512 = (j - off) % 512 := by omega
        rw [if_pos h1, if_pos h2, e1, e2]
      · rw [if_neg h1]
        by_cases h3 : off ≤ j ∧ j < off + 512
        · have h2 : off ≤ j ∧ j < off + (n + 1) * 512 := by omega
          have h4 : 0 ≤ 0 + (j - off) ∧ 0 + (j - off) < 0 + 1 * 512 := by omega
          have h5 : (0 + (j - off)) / 512 = 0 := by omega
          have h6 : (0 + (j - off)) % 512 = j - off := by omega
          have h7 : (j - off) / 512 = 0 := by omega
          have h8 : (j - off) % 512 = j - off := by omega
          rw [if_pos h2]
          have e3 : 0 + (0 + (j - off) - 0) = j - off := by omega
          simp only [memcpy, diskData, BLOCKSIZE, if_pos h3, if_pos h4, e3, h7, h8,
            Nat.add_zero]
        · have h2 : ¬ (off ≤ j ∧ j < off + (n + 1) * 512) := by omega
          rw [if_neg h2]
          simp only [memcpy, if_neg h3]

/-- Under a well-behaved driver, with the queue idle, `SD_DMA_write` succeeds
on either path and the medium then holds the caller's sectors. -/
theorem write_wellBehaved {cfg : Config} {hw : Hw} (hg : WellBehaved cfg hw)
    {fuel : Nat} (hfuel : 1 ≤ fuel) (addr : Nat) (data : Mem) (s count : Nat) (w : World)
    (hq : QueueIdle w) (hc1 : 1 ≤ count) (hc32 : count < 2 ^ 32)
    (hrange : s + count ≤ 2 ^ 32) :
    ∃ w1, SD_DMA_write cfg hw fuel addr data s count w = some (DRESULT.RES_OK, w1) ∧
      QueueIdle w1 ∧
      ∀ sec o, o < BLOCKSIZE → w1.disk sec o =
        if s ≤ sec ∧ sec < s + count then data ((sec - s) * BLOCKSIZE + o)
        else w.disk sec o := by
  have hc0 : count ≠ 0 := by omega
  obtain ⟨w0, hw0, hd0, -, hq0, hi0, -⟩ := check_wellBehaved hg hfuel w
  have hq0' : QueueIdle w0 := ⟨by rw [hi0]; exact hq.1, by rw [hq0]; exact hq.2⟩
  have hus : u32 s = s := u32_of_lt (by omega)
  have huc : u32 count = count := u32_of_lt hc32
  by_cases hal : aligned32 addr = true
  · -- fast path
    obtain ⟨wi, hwi, hwq, hwd⟩ : ∃ wi : World,
        wi = (if cfg.ENABLE_SD_DMA_CACHE_MAINTENANCE then
            SCB_CleanDCache_by_Addr (Region.caller addr) (u32 (count * BLOCKSIZE)) w0
          else w0) ∧ QueueIdle wi ∧ wi.disk = w0.disk := by
      refine ⟨_, rfl, ?_⟩
      cases cfg.ENABLE_SD_DMA_CACHE_MAINTENANCE <;>
        simpa [SCB_CleanDCache_by_Addr, QueueIdle] using hq0'
    obtain ⟨d1, d2, d3, d4⟩ :=
      writeDMA_wellBehaved hg (Region.caller addr) s count data wi hwq
    obtain ⟨g1, g2, g3, g4, -⟩ := queueGet_posted cfg.SD_TIMEOUT 0 WRITE_CPLT_MSG
      (HAL_SD_WriteBlocks_DMA hw (Region.caller addr) s count data wi).2
      (by rw [d2]; exact hwq.1) d3
    obtain ⟨w2, hw2, hd2, -, hq2, hi2, -⟩ := poll_wellBehaved hg hfuel
      (osMessageQueueGet cfg.SD_TIMEOUT 0
        (HAL_SD_WriteBlocks_DMA hw (Region.caller addr) s count data wi).2).2.2
    refine ⟨w2, ?_, ⟨by rw [hi2]; exact g3.1, by rw [hq2]; exact g3.2⟩, ?_⟩
    · simp only [SD_DMA_write, hw0, hal, if_true, SD_DMA_write_fast, hus, huc, ← hwi, d1,
        g1, g2, and_self, hw2]
      simp
    · intro sec o ho
      rw [hd2, g4, d4, hwd, hd0]
      simp only [diskAfterWrite, memcpy, BLOCKSIZE] at ho ⊢
      by_cases h1 : s ≤ sec ∧ sec < s + count
      · have h2 : 0 ≤ o ∧ o < 0 + 512 := by omega
        simp only [if_pos h1, if_pos h2, Nat.sub_zero]
      · simp only [if_neg h1]
  · -- slow path
    obtain ⟨w1, hw1, hq1, hd1⟩ :=
      write_slow_wellBehaved hg hfuel data count 0 none 0 s 0 w0 hq0' hrange
    refine ⟨w1, ?_, hq1, ?_⟩
    · simp only [SD_DMA_write, hw0, hal, hw1, hc0]
      simp
    · intro sec o ho
      rw [hd1 sec o ho, hd0, Nat.zero_add]

/-- Under a well-behaved driver, with the queue idle, `SD_DMA_read` succeeds on
either path and the caller's buffer then holds the sectors of the medium. -/
theorem read_wellBehaved {cfg : Config} {hw : Hw} (hg : WellBehaved cfg hw)
    {fuel : Nat} (hfuel : 1 ≤ fuel) (addr : Nat) (buf : Mem) (s count : Nat) (w : World)
    (hq : QueueIdle w) (hc1 : 1 ≤ count) (hc32 : count < 2 ^ 32)
    (hrange : s + count ≤ 2 ^ 32) :
    ∃ buf1 w1, SD_DMA_read cfg hw fuel addr buf s count w =
        some (DRESULT.RES_OK, buf1, w1) ∧
      QueueIdle w1 ∧ w1.disk = w.disk ∧
      ∀ j, buf1 j =
        if j < count * BLOCKSIZE then w.disk (s + j / BLOCKSIZE) (j % BLOCKSIZE)
        else buf j := by
  have hc0 : count ≠ 0 := by omega
  obtain ⟨w0, hw0, hd0, -, hq0, hi0, -⟩ := check_wellBehaved hg hfuel w
  have hq0' : QueueIdle w0 := ⟨by rw [hi0]; exact hq.1, by rw [hq0]; exact hq.2⟩
  have hus : u32 s = s := u32_of_lt (by omega)
  have huc : u32 count = count := u32_of_lt hc32
  by_cases hal : aligned32 addr = true
  · -- fast path
    obtain ⟨d1, d2, d3, d4, d5⟩ := readCaller_wellBehaved hg addr s count buf w0 hq0'
    obtain ⟨g1, g2, g3, g4, -⟩ := queueGet_posted cfg.SD_TIMEOUT 0 READ_CPLT_MSG
      (HAL_SD_ReadBlocks_DMA hw (Region.caller addr) s count buf w0).2.2
      (by rw [d3]; exact hq0'.1) d4
    obtain ⟨w2, hw2, hd2, -, hq2, hi2, -⟩ := poll_wellBehaved hg hfuel
      (osMessageQueueGet cfg.SD_TIMEOUT 0
        (HAL_SD_ReadBlocks_DMA hw (Region.caller addr) s count buf w0).2.2).2.2
    have hq2' : QueueIdle w2 := ⟨by rw [hi2]; exact g3.1, by rw [hq2]; exact g3.2⟩
    have hd2' : w2.disk = w.disk := by rw [hd2, g4, d5, hd0]
    refine ⟨memcpy buf 0 (diskData w0.disk s) 0 (count * BLOCKSIZE),
      (if cfg.ENABLE_SD_DMA_CACHE_MAINTENANCE then
        SCB_InvalidateDCache_by_Addr (Region.caller addr) (u32 (count * BLOCKSIZE)) w2
       else w2), ?_, ?_, ?_, ?_⟩
    · simp only [SD_DMA_read, hw0, hal, if_true, SD_DMA_read_fast, hus, huc, d1, d2,
        g1, g2, and_self, hw2]
      simp
    · cases cfg.ENABLE_SD_DMA_CACHE_MAINTENANCE <;>
        simpa [SCB_InvalidateDCache_by_Addr, QueueIdle] using hq2'
    · cases cfg.ENABLE_SD_DMA_CACHE_MAINTENANCE <;>
        simpa [SCB_InvalidateDCache_by_Addr] using hd2'
    · intro j
      simp only [memcpy, diskData, hd0, Nat.zero_add, Nat.sub_zero, Nat.zero_le, true_and]
  · -- slow path
    obtain ⟨buf1, w1, hw1, hq1, hd1, hb1⟩ :=
      read_slow_wellBehaved hg hfuel count 0 none 0 s 0 buf w0 hq0' hrange
    refine ⟨buf1, w1, ?_, hq1, by rw [hd1, hd0], ?_⟩
    · simp only [SD_DMA_read, hw0, hal, hw1, hc0]
      simp
    · intro j
      rw [hb1 j, hd0]
      simp only [Nat.zero_add, Nat.sub_zero, Nat.zero_le, true_and]

/-- C1: under a transport driver that accepts every DMA request, posts the
matching completion event and is transfer-ready (with the completion queue
allocated and idle), for every sector count `count ≥ 1` (a `UINT`), every start
sector `s` whose range lies in the 32-bit sector address space, and every
address of the write buffer and of the read buffer (aligned on 32 bytes or
not, independently), `SD_DMA_write` of `count * 512` bytes at `s` followed by
`SD_DMA_read` of `count` sectors at `s` both return `RES_OK`, and the read
buffer holds the written bytes. -/
theorem C1_write_read_roundtrip (cfg : Config) (hw : Hw) (fuel : Nat)
    (wAddr rAddr : Nat) (data buf0 : Mem) (s count : Nat) (w : World)
    (hg : WellBehaved cfg hw) (hfuel : 1 ≤ fuel) (hq : QueueIdle w)
    (hc1 : 1 ≤ count) (hc32 : count < 2 ^ 32) (hrange : s + count ≤ 2 ^ 32) :
    ∃ w1 buf1 w2,
      SD_DMA_write cfg hw fuel wAddr data s count w = some (DRESULT.RES_OK, w1) ∧
      SD_DMA_read cfg hw fuel rAddr buf0 s count w1 = some (DRESULT.RES_OK, buf1, w2) ∧
      ∀ j, j < count * BLOCKSIZE → buf1 j = data j := by
  obtain ⟨w1, hw1, hq1, hd1⟩ :=
    write_wellBehaved hg hfuel wAddr data s count w hq hc1 hc32 hrange
  obtain ⟨buf1, w2, hw2, -, -, hb⟩ :=
    read_wellBehaved hg hfuel rAddr buf0 s count w1 hq1 hc1 hc32 hrange
  refine ⟨w1, buf1, w2, hw1, hw2, ?_⟩
  intro j hj
  have hlt : j % BLOCKSIZE < BLOCKSIZE := Nat.mod_lt _ (by decide)
  rw [hb j, if_pos hj, hd1 _ _ hlt]
  simp only [BLOCKSIZE] at hj hlt ⊢
  have h1 : s ≤ s + j / 512 ∧ s + j / 512 < s + count := by omega
  have h2 : (s + j / 512 - s) * 512 + j % 512 = j := by omega
  rw [if_pos h1, h2]

/-- C1, at a concrete input: one sector at sector 100, written from a
32-byte-aligned buffer and read back into a misaligned one. -/
theorem C1_write_read_roundtrip_witness :
    ∃ w1 buf1 w2,
      SD_DMA_write templateConfig goodHw 1 32 (fun j => j % 256) 100 1
        (readyWorld (fun _ _ => 0)) = some (DRESULT.RES_OK, w1) ∧
      SD_DMA_read templateConfig goodHw 1 8 (fun _ => 0) 100 1 w1
        = some (DRESULT.RES_OK, buf1, w2) ∧
      ∀ j, j < 1 * BLOCKSIZE → buf1 j = (fun j => j % 256) j :=
  C1_write_read_roundtrip templateConfig goodHw 1 32 8 (fun j => j % 256) (fun _ => 0)
    100 1 (readyWorld (fun _ _ => 0)) goodHw_wellBehaved (by decide)
    ⟨by simp [readyWorld, World.boot], rfl⟩ (by decide) (by decide) (by decide)

/-- C2, the code at the failing input: with a card that accepts the request
and never raises the completion interrupt (so that the wait on the empty queue
times out), the misaligned slow path of `SD_DMA_read` and of `SD_DMA_write`
returns `RES_OK`, while the aligned fast path returns `RES_ERROR`. -/
theorem C2_slow_path_ignores_wait_timeout :
    (SD_DMA_read templateConfig silentHw 1 8 (fun _ => 0) 100 1
        (readyWorld (fun _ _ => 0))).map (fun r => r.1) = some DRESULT.RES_OK ∧
    (SD_DMA_write templateConfig silentHw 1 8 (fun _ => 0) 100 1
        (readyWorld (fun _ _ => 0))).map (fun r => r.1) = some DRESULT.RES_OK ∧
    (SD_DMA_read templateConfig silentHw 1 32 (fun _ => 0) 100 1
        (readyWorld (fun _ _ => 0))).map (fun r => r.1) = some DRESULT.RES_ERROR ∧
    (SD_DMA_write templateConfig silentHw 1 32 (fun _ => 0) 100 1
        (readyWorld (fun _ _ => 0))).map (fun r => r.1) = some DRESULT.RES_ERROR ∧
    (SD_DMA_read templateConfig silentHw 1 8 (fun _ => 0) 100 1
        (readyWorld (fun _ _ => 0))).map (fun r => r.2.2.trace) =
      some [Ev.getTick, Ev.getTick, Ev.getCardState, Ev.readDMA Region.scratch 100 1,
        Ev.queueGet 30000, Ev.invalidateDCache Region.scratch 512] := by
  refine ⟨?_, ?_, ?_, ?_, ?_⟩ <;> decide

/-! ## What the readiness probe can change -/

theorem ProbeOnly.refl (w : World) : ProbeOnly w w :=
  ⟨rfl, rfl, rfl, rfl, rfl, rfl, rfl, rfl, rfl, [], by simp, by simp⟩

theorem ProbeOnly.trans {a b c : World} (h1 : ProbeOnly a b) (h2 : ProbeOnly b c) :
    ProbeOnly a c := by
  obtain ⟨a1, a2, a3, a4, a5, a6, a7, a8, a9, e1, t1, p1⟩ := h1
  obtain ⟨b1, b2, b3, b4, b5, b6, b7, b8, b9, e2, t2, p2⟩ := h2
  refine ⟨b1.trans a1, b2.trans a2, b3.trans a3, b4.trans a4, b5.trans a5, b6.trans a6,
    b7.trans a7, b8.trans a8, b9.trans a9, e1 ++ e2, ?_, ?_⟩
  · rw [t2, t1, List.append_assoc]
  · intro e he
    rcases List.mem_append.mp he with h | h
    · exact p1 e h
    · exact p2 e h

theorem probeOnly_getTick (hw : Hw) (w : World) :
    ProbeOnly w (osKernelGetTickCount hw w).2 :=
  ⟨rfl, rfl, rfl, rfl, rfl, rfl, rfl, rfl, rfl, [Ev.getTick], rfl, by simp⟩

theorem probeOnly_getCardState (hw : Hw) (w : World) :
    ProbeOnly w (HAL_SD_GetCardState hw w).2 :=
  ⟨rfl, rfl, rfl, rfl, rfl, rfl, rfl, rfl, rfl, [Ev.getCardState], rfl, by simp⟩

/-- The busy-wait loop only reads the tick counter and samples the card. -/
theorem waitTransfer_probeOnly (hw : Hw) (timer timeout : Nat) :
    ∀ (fuel : Nat) (w : World) (b : Bool) (w1 : World),
      waitTransfer hw timer timeout fuel w = some (b, w1) → ProbeOnly w w1 := by
  intro fuel
  induction fuel with
  | zero => intro w b w1 h; simp [waitTransfer] at h
  | succ f ih =>
    intro w b w1 h
    rw [waitTransfer] at h
    simp only at h
    have ht := probeOnly_getTick hw w
    have hs := probeOnly_getCardState hw (osKernelGetTickCount hw w).2
    split at h
    · split at h
      · simp only [Option.some.injEq, Prod.mk.injEq] at h
        rw [← h.2]
        exact ht.trans hs
      · exact (ht.trans hs).trans (ih _ _ _ h)
    · simp only [Option.some.injEq, Prod.mk.injEq] at h
      rw [← h.2]
      exact ht

/-- The readiness probe only reads the tick counter and samples the card, and
returns 0 or -1. -/
theorem check_probeOnly (hw : Hw) (timeout fuel : Nat) (w : World) (r : Int) (w1 : World)
    (h : SD_check_status_with_timeout hw timeout fuel w = some (r, w1)) :
    ProbeOnly w w1 ∧ (r = 0 ∨ r = -1) := by
  simp only [SD_check_status_with_timeout] at h
  have ht := probeOnly_getTick hw w
  cases hwt : waitTransfer hw (osKernelGetTickCount hw w).1 timeout fuel
      (osKernelGetTickCount hw w).2 with
  | none => simp [hwt] at h
  | some p =>
    obtain ⟨b, w2⟩ := p
    have hp := waitTransfer_probeOnly hw _ _ _ _ _ _ hwt
    cases b <;> simp [hwt] at h <;> obtain ⟨h1, h2⟩ := h <;> subst h1 <;> subst h2
    · exact ⟨ht.trans hp, Or.inr rfl⟩
    · exact ⟨ht.trans hp, Or.inl rfl⟩

theorem countQueueGet_append (a b : List Ev) :
    countQueueGet (a ++ b) = countQueueGet a + countQueueGet b := by
  simp [countQueueGet]

theorem countDMA_append (a b : List Ev) : countDMA (a ++ b) = countDMA a + countDMA b := by
  simp [countDMA]

theorem countCardState_append (a b : List Ev) :
    countCardState (a ++ b) = countCardState a + countCardState b := by
  simp [countCardState]

/-- A step that only probes adds no queue wait and no DMA request to the
trace. -/
theorem ProbeOnly.counts {w w1 : World} (h : ProbeOnly w w1) :
    countQueueGet w1.trace = countQueueGet w.trace ∧
    countDMA w1.trace = countDMA w.trace := by
  obtain ⟨-, -, -, -, -, -, -, -, -, evs, ht, hp⟩ := h
  have h1 : countQueueGet evs = 0 := by
    simp only [countQueueGet, List.length_eq_zero, List.filter_eq_nil_iff]
    intro e he
    rcases hp e he with h | h <;> simp [h]
  have h2 : countDMA evs = 0 := by
    simp only [countDMA, List.length_eq_zero, List.filter_eq_nil_iff]
    intro e he
    rcases hp e he with h | h <;> simp [h]
  rw [ht, countQueueGet_append, countDMA_append, h1, h2]
  simp

/-- A rejected DMA read changes no memory and raises no interrupt. -/
theorem readDMA_rejected (hw : Hw) (dst : Region) (blk n : Nat) (buf : Mem) (w : World)
    (h : hw.issueAt w.nIssue ≠ HAL_Status.HAL_OK) :
    HAL_SD_ReadBlocks_DMA hw dst blk n buf w =
      (hw.issueAt w.nIssue, buf,
        { w with nIssue := w.nIssue + 1, trace := w.trace ++ [Ev.readDMA dst blk n] }) := by
  simp [HAL_SD_ReadBlocks_DMA, h]

/-- A rejected DMA write changes nothing on the medium and raises no
interrupt. -/
theorem writeDMA_rejected (hw : Hw) (src : Region) (blk n : Nat) (buf : Mem) (w : World)
    (h : hw.issueAt w.nIssue ≠ HAL_Status.HAL_OK) :
    HAL_SD_WriteBlocks_DMA hw src blk n buf w =
      (hw.issueAt w.nIssue,
        { w with nIssue := w.nIssue + 1, trace := w.trace ++ [Ev.writeDMA src blk n] }) := by
  simp [HAL_SD_WriteBlocks_DMA, h]

/-- The readiness probe returned `r`: the result without the final state. -/
theorem check_of_map {hw : Hw} {timeout fuel : Nat} {w : World} {r : Int}
    (h : (SD_check_status_with_timeout hw timeout fuel w).map Prod.fst = some r) :
    ∃ w0, SD_check_status_with_timeout hw timeout fuel w = some (r, w0) := by
  cases hc : SD_check_status_with_timeout hw timeout fuel w with
  | none => simp [hc] at h
  | some p =>
    obtain ⟨r1, w0⟩ := p
    simp [hc] at h
    exact ⟨w0, by rw [h]⟩

theorem read_fast_rejected (cfg : Config) (hw : Hw) (fuel addr : Nat) (buf : Mem)
    (s count : Nat) (w : World) (h : hw.issueAt w.nIssue ≠ HAL_Status.HAL_OK) :
    SD_DMA_read_fast cfg hw fuel addr buf s count w =
      some (DRESULT.RES_ERROR, buf,
        afterRejected (Ev.readDMA (Region.caller addr) (u32 s) (u32 count)) w) := by
  simp [SD_DMA_read_fast, readDMA_rejected _ _ _ _ _ _ h, h, afterRejected]

theorem read_slow_rejected (cfg : Config) (hw : Hw) (fuel n i : Nat)
    (ret : Option HAL_Status) (event s off : Nat) (buf : Mem) (w : World)
    (h : hw.issueAt w.nIssue ≠ HAL_Status.HAL_OK) :
    SD_DMA_read_slow cfg hw fuel (n + 1) i ret event s off buf w =
      some (i, some (hw.issueAt w.nIssue), buf,
        afterRejected (Ev.readDMA Region.scratch (u32 s) 1) w) := by
  simp [SD_DMA_read_slow, readDMA_rejected _ _ _ _ _ _ h, h, afterRejected]

theorem writeFastIssueState_frame (cfg : Config) (addr count : Nat) (w : World) :
    (writeFastIssueState cfg addr count w).nIssue = w.nIssue ∧
    countQueueGet (writeFastIssueState cfg addr count w).trace = countQueueGet w.trace ∧
    countDMA (writeFastIssueState cfg addr count w).trace = countDMA w.trace := by
  unfold writeFastIssueState
  cases cfg.ENABLE_SD_DMA_CACHE_MAINTENANCE <;>
    simp [SCB_CleanDCache_by_Addr, countQueueGet, countDMA]

theorem writeSlowIssueState_frame (cfg : Config) (buf : Mem) (off : Nat) (w : World) :
    (writeSlowIssueState cfg buf off w).nIssue = w.nIssue ∧
    countQueueGet (writeSlowIssueState cfg buf off w).trace = countQueueGet w.trace ∧
    countDMA (writeSlowIssueState cfg buf off w).trace = countDMA w.trace := by
  unfold writeSlowIssueState
  cases cfg.ENABLE_SD_DMA_CACHE_MAINTENANCE <;>
    simp [SCB_CleanDCache_by_Addr, countQueueGet, countDMA]

theorem write_fast_rejected (cfg : Config) (hw : Hw) (fuel addr : Nat) (buf : Mem)
    (s count : Nat) (w : World) (h : hw.issueAt w.nIssue ≠ HAL_Status.HAL_OK) :
    SD_DMA_write_fast cfg hw fuel addr buf s count w =
      some (DRESULT.RES_ERROR,
        afterRejected (Ev.writeDMA (Region.caller addr) (u32 s) (u32 count))
          (writeFastIssueState cfg addr count w)) := by
  unfold writeFastIssueState SD_DMA_write_fast
  cases cfg.ENABLE_SD_DMA_CACHE_MAINTENANCE <;>
    simp [HAL_SD_WriteBlocks_DMA, SCB_CleanDCache_by_Addr, h, afterRejected]

theorem write_slow_rejected (cfg : Config) (hw : Hw) (fuel : Nat) (buf : Mem) (n i : Nat)
    (ret : Option HAL_Status) (event s off : Nat) (w : World)
    (h : hw.issueAt w.nIssue ≠ HAL_Status.HAL_OK) :
    SD_DMA_write_slow cfg hw fuel buf (n + 1) i ret event s off w =
      some (i, some (hw.issueAt w.nIssue),
        afterRejected (Ev.writeDMA Region.scratch (u32 s) 1)
          (writeSlowIssueState cfg buf off w)) := by
  unfold writeSlowIssueState
  rw [SD_DMA_write_slow]
  cases cfg.ENABLE_SD_DMA_CACHE_MAINTENANCE <;>
    simp [HAL_SD_WriteBlocks_DMA, SCB_CleanDCache_by_Addr, h, afterRejected]

theorem afterRejected_counts (e : Ev) (w : World) :
    countQueueGet (afterRejected e w).trace = countQueueGet w.trace + countQueueGet [e] ∧
    countDMA (afterRejected e w).trace = countDMA w.trace + countDMA [e] := by
  simp [afterRejected, countQueueGet_append, countDMA_append]

/-- C3: for every `count ≥ 1` and every buffer address, when the initial
readiness probe has succeeded and the transport driver rejects the DMA request
that is issued next (on the slow path, the first sub-request), `SD_DMA_read`
and `SD_DMA_write` return `RES_ERROR` after exactly one DMA request and
without any wait on the completion queue; the read buffer is unchanged. -/
theorem C3_issue_failure_no_wait (cfg : Config) (hw : Hw) (fuel : Nat) (addr : Nat)
    (buf : Mem) (s count : Nat) (w : World) (hc1 : 1 ≤ count)
    (hprobe : (SD_check_status_with_timeout hw cfg.SD_TIMEOUT fuel w).map Prod.fst = some 0)
    (hfail : hw.issueAt w.nIssue ≠ HAL_Status.HAL_OK) :
    (∃ w1, SD_DMA_read cfg hw fuel addr buf s count w = some (DRESULT.RES_ERROR, buf, w1) ∧
      countQueueGet w1.trace = countQueueGet w.trace ∧
      countDMA w1.trace = countDMA w.trace + 1) ∧
    (∃ w1, SD_DMA_write cfg hw fuel addr buf s count w = some (DRESULT.RES_ERROR, w1) ∧
      countQueueGet w1.trace = countQueueGet w.trace ∧
      countDMA w1.trace = countDMA w.trace + 1) := by
  obtain ⟨w0, hw0⟩ := check_of_map hprobe
  obtain ⟨hp, -⟩ := check_probeOnly _ _ _ _ _ _ hw0
  obtain ⟨hq, hd⟩ := hp.counts
  have hi : w0.nIssue = w.nIssue := hp.2.2.2.2.2.1
  have hf : hw.issueAt w0.nIssue ≠ HAL_Status.HAL_OK := by rw [hi]; exact hfail
  obtain ⟨n, rfl⟩ : ∃ n, count = n + 1 := ⟨count - 1, by omega⟩
  constructor
  · by_cases hal : aligned32 addr = true
    · have e : SD_DMA_read cfg hw fuel addr buf s (n + 1) w = some (DRESULT.RES_ERROR, buf,
          afterRejected (Ev.readDMA (Region.caller addr) (u32 s) (u32 (n + 1))) w0) := by
        simp only [SD_DMA_read, hw0, hal, read_fast_rejected _ _ _ _ _ _ _ _ hf]
        simp
      refine ⟨_, e, ?_, ?_⟩
      · rw [(afterRejected_counts _ _).1, hq]; rfl
      · rw [(afterRejected_counts _ _).2, hd]; rfl
    · have e : SD_DMA_read cfg hw fuel addr buf s (n + 1) w = some (DRESULT.RES_ERROR, buf,
          afterRejected (Ev.readDMA Region.scratch (u32 s) 1) w0) := by
        simp only [SD_DMA_read, hw0, hal, read_slow_rejected _ _ _ _ _ _ _ _ _ _ _ hf]
        simp
      refine ⟨_, e, ?_, ?_⟩
      · rw [(afterRejected_counts _ _).1, hq]; rfl
      · rw [(afterRejected_counts _ _).2, hd]; rfl
  · by_cases hal : aligned32 addr = true
    · have e : SD_DMA_write cfg hw fuel addr buf s (n + 1) w = some (DRESULT.RES_ERROR,
          afterRejected (Ev.writeDMA (Region.caller addr) (u32 s) (u32 (n + 1)))
            (writeFastIssueState cfg addr (n + 1) w0)) := by
        simp only [SD_DMA_write, hw0, hal, write_fast_rejected _ _ _ _ _ _ _ _ hf]
        simp
      refine ⟨_, e, ?_, ?_⟩
      · rw [(afterRejected_counts _ _).1, (writeFastIssueState_frame _ _ _ _).2.1, hq]; rfl
      · rw [(afterRejected_counts _ _).2, (writeFastIssueState_frame _ _ _ _).2.2, hd]; rfl
    · have e : SD_DMA_write cfg hw fuel addr buf s (n + 1) w = some (DRESULT.RES_ERROR,
          afterRejected (Ev.writeDMA Region.scratch (u32 s) 1)
            (writeSlowIssueState cfg buf 0 w0)) := by
        simp only [SD_DMA_write, hw0, hal, write_slow_rejected _ _ _ _ _ _ _ _ _ _ _ hf]
        simp
      refine ⟨_, e, ?_, ?_⟩
      · rw [(afterRejected_counts _ _).1, (writeSlowIssueState_frame _ _ _ _).2.1, hq]; rfl
      · rw [(afterRejected_counts _ _).2, (writeSlowIssueState_frame _ _ _ _).2.2, hd]; rfl

/-- C3, at a concrete input: a card that rejects every request, two sectors,
a misaligned buffer. -/
theorem C3_issue_failure_no_wait_witness :
    (SD_check_status_with_timeout rejectingHw templateConfig.SD_TIMEOUT 1
        (readyWorld (fun _ _ => 0))).map Prod.fst = some 0 ∧
    rejectingHw.issueAt (readyWorld (fun _ _ => 0)).nIssue ≠ HAL_Status.HAL_OK ∧
    (∃ w1, SD_DMA_read templateConfig rejectingHw 1 8 (fun _ => 0) 100 2
        (readyWorld (fun _ _ => 0)) = some (DRESULT.RES_ERROR, (fun _ => 0), w1) ∧
      countQueueGet w1.trace = countQueueGet (readyWorld (fun _ _ => 0)).trace ∧
      countDMA w1.trace = countDMA (readyWorld (fun _ _ => 0)).trace + 1) ∧
    (∃ w1, SD_DMA_write templateConfig rejectingHw 1 8 (fun _ => 0) 100 2
        (readyWorld (fun _ _ => 0)) = some (DRESULT.RES_ERROR, w1) ∧
      countQueueGet w1.trace = countQueueGet (readyWorld (fun _ _ => 0)).trace ∧
      countDMA w1.trace = countDMA (readyWorld (fun _ _ => 0)).trace + 1) :=
  ⟨by decide, by decide,
    C3_issue_failure_no_wait templateConfig rejectingHw 1 8 (fun _ => 0) 100 2
      (readyWorld (fun _ _ => 0)) (by decide) (by decide) (by decide)⟩

/-- C4: when the initial readiness probe fails (`SD_check_status_with_timeout`
returns -1: no card-state sample read transfer-ready before the deadline),
`SD_DMA_read` and `SD_DMA_write` return `RES_ERROR` at once: the caller's
buffer and the scratch buffer are unchanged, and the calls made are tick
readings and card-state samples only, so no DMA request was issued and no wait
on the completion queue took place. -/
theorem C4_probe_failure_touches_nothing (cfg : Config) (hw : Hw) (fuel : Nat)
    (addr : Nat) (buf : Mem) (s count : Nat) (w : World)
    (hprobe : (SD_check_status_with_timeout hw cfg.SD_TIMEOUT fuel w).map Prod.fst
      = some (-1)) :
    (∃ w1, SD_DMA_read cfg hw fuel addr buf s count w = some (DRESULT.RES_ERROR, buf, w1) ∧
      ProbeOnly w w1 ∧ w1.scratch = w.scratch ∧
      countDMA w1.trace = countDMA w.trace ∧
      countQueueGet w1.trace = countQueueGet w.trace) ∧
    (∃ w1, SD_DMA_write cfg hw fuel addr buf s count w = some (DRESULT.RES_ERROR, w1) ∧
      ProbeOnly w w1 ∧ w1.scratch = w.scratch ∧
      countDMA w1.trace = countDMA w.trace ∧
      countQueueGet w1.trace = countQueueGet w.trace) := by
  obtain ⟨w0, hw0⟩ := check_of_map hprobe
  obtain ⟨hp, -⟩ := check_probeOnly _ _ _ _ _ _ hw0
  obtain ⟨hq, hd⟩ := hp.counts
  refine ⟨⟨w0, ?_, hp, hp.2.2.1, hd, hq⟩, ⟨w0, ?_, hp, hp.2.2.1, hd, hq⟩⟩
  · simp [SD_DMA_read, hw0]
  · simp [SD_DMA_write, hw0]

/-- C4, at a concrete input: a card that is never ready, with a tick counter
that reaches the deadline at its fourth reading. -/
theorem C4_probe_failure_touches_nothing_witness :
    (SD_check_status_with_timeout busyHw templateConfig.SD_TIMEOUT 5
        (readyWorld (fun _ _ => 0))).map Prod.fst = some (-1) ∧
    (∃ w1, SD_DMA_read templateConfig busyHw 5 32 (fun _ => 7) 100 2
        (readyWorld (fun _ _ => 0)) = some (DRESULT.RES_ERROR, (fun _ => 7), w1) ∧
      ProbeOnly (readyWorld (fun _ _ => 0)) w1 ∧
      w1.scratch = (readyWorld (fun _ _ => 0)).scratch ∧
      countDMA w1.trace = countDMA (readyWorld (fun _ _ => 0)).trace ∧
      countQueueGet w1.trace = countQueueGet (readyWorld (fun _ _ => 0)).trace) ∧
    (∃ w1, SD_DMA_write templateConfig busyHw 5 32 (fun _ => 7) 100 2
        (readyWorld (fun _ _ => 0)) = some (DRESULT.RES_ERROR, w1) ∧
      ProbeOnly (readyWorld (fun _ _ => 0)) w1 ∧
      w1.scratch = (readyWorld (fun _ _ => 0)).scratch ∧
      countDMA w1.trace = countDMA (readyWorld (fun _ _ => 0)).trace ∧
      countQueueGet w1.trace = countQueueGet (readyWorld (fun _ _ => 0)).trace) :=
  ⟨by decide,
    C4_probe_failure_touches_nothing templateConfig busyHw 5 32 (fun _ => 7) 100 2
      (readyWorld (fun _ _ => 0)) (by decide)⟩

/-! ## The transfer functions do not read the cached status -/

theorem getTick_setStat (hw : Hw) (x : Nat) (w : World) :
    osKernelGetTickCount hw (setStat x w) =
      ((osKernelGetTickCount hw w).1, setStat x (osKernelGetTickCount hw w).2) := rfl

theorem getCardState_setStat (hw : Hw) (x : Nat) (w : World) :
    HAL_SD_GetCardState hw (setStat x w) =
      ((HAL_SD_GetCardState hw w).1, setStat x (HAL_SD_GetCardState hw w).2) := rfl

theorem queuePut_setStat (m p t x : Nat) (w : World) :
    osMessageQueuePut m p t (setStat x w) =
      ((osMessageQueuePut m p t w).1, setStat x (osMessageQueuePut m p t w).2) := by
  unfold osMessageQueuePut setStat
  cases h : w.SDQueueID with
  | none => simp [h]
  | some q =>
    by_cases hl : w.queue.length < w.capacity <;> by_cases ht : t = 0 <;> simp [h, hl, ht]

theorem queueGet_setStat (t e x : Nat) (w : World) :
    osMessageQueueGet t e (setStat x w) =
      ((osMessageQueueGet t e w).1, (osMessageQueueGet t e w).2.1,
        setStat x (osMessageQueueGet t e w).2.2) := by
  unfold osMessageQueueGet setStat
  cases h : w.SDQueueID with
  | none => simp [h]
  | some q =>
    cases hq : w.queue with
    | nil => by_cases ht : t = 0 <;> simp [h, hq, ht]
    | cons a rest => simp [h, hq]

theorem raiseIrq_setStat (irq : Irq) (rx : Bool) (x : Nat) (w : World) :
    raiseIrq irq rx (setStat x w) = setStat x (raiseIrq irq rx w) := by
  cases irq <;> cases rx <;>
    simp [raiseIrq, HAL_SD_RxCpltCallback, HAL_SD_TxCpltCallback, queuePut_setStat]

theorem readDMA_setStat (hw : Hw) (dst : Region) (blk n : Nat) (buf : Mem) (x : Nat)
    (w : World) :
    HAL_SD_ReadBlocks_DMA hw dst blk n buf (setStat x w) =
      ((HAL_SD_ReadBlocks_DMA hw dst blk n buf w).1,
        (HAL_SD_ReadBlocks_DMA hw dst blk n buf w).2.1,
        setStat x (HAL_SD_ReadBlocks_DMA hw dst blk n buf w).2.2) := by
  unfold HAL_SD_ReadBlocks_DMA
  by_cases h : hw.issueAt w.nIssue = HAL_Status.HAL_OK
  · cases dst with
    | caller a =>
      have e := raiseIrq_setStat (hw.irqAt w.nIssue) true x
        { w with nIssue := w.nIssue + 1,
                 trace := w.trace ++ [Ev.readDMA (Region.caller a) blk n] }
      simp only [setStat] at e ⊢
      simp [h, e]
    | scratch =>
      have e := raiseIrq_setStat (hw.irqAt w.nIssue) true x
        { w with nIssue := w.nIssue + 1,
                 trace := w.trace ++ [Ev.readDMA Region.scratch blk n],
                 scratch := memcpy w.scratch 0 (diskData w.disk blk) 0 (n * BLOCKSIZE) }
      simp only [setStat] at e ⊢
      simp [h, e]
  · simp [setStat, h]

theorem writeDMA_setStat (hw : Hw) (src : Region) (blk n : Nat) (buf : Mem) (x : Nat)
    (w : World) :
    HAL_SD_WriteBlocks_DMA hw src blk n buf (setStat x w) =
      ((HAL_SD_WriteBlocks_DMA hw src blk n buf w).1,
        setStat x (HAL_SD_WriteBlocks_DMA hw src blk n buf w).2) := by
  unfold HAL_SD_WriteBlocks_DMA
  by_cases h : hw.issueAt w.nIssue = HAL_Status.HAL_OK
  · have e := raiseIrq_setStat (hw.irqAt w.nIssue) false x
      { w with nIssue := w.nIssue + 1,
               trace := w.trace ++ [Ev.writeDMA src blk n],
               disk := diskAfterWrite w.disk
                 (match src with
                   | Region.caller _ => buf
                   | Region.scratch => w.scratch) blk n }
    simp only [setStat] at e ⊢
    simp [h, e]
  · simp [setStat, h]

theorem waitTransfer_setStat (hw : Hw) (timer timeout x : Nat) :
    ∀ (fuel : Nat) (w : World),
      waitTransfer hw timer timeout fuel (setStat x w) =
        (waitTransfer hw timer timeout fuel w).map (fun r => (r.1, setStat x r.2)) := by
  intro fuel
  induction fuel with
  | zero => intro w; simp [waitTransfer]
  | succ f ih =>
    intro w
    rw [waitTransfer, waitTransfer]
    simp only [getTick_setStat, getCardState_setStat]
    split
    · split
      · simp
      · rw [ih]
    · simp

theorem check_setStat (hw : Hw) (timeout fuel x : Nat) (w : World) :
    SD_check_status_with_timeout hw timeout fuel (setStat x w) =
      (SD_check_status_with_timeout hw timeout fuel w).map
        (fun r => (r.1, setStat x r.2)) := by
  simp only [SD_check_status_with_timeout, getTick_setStat, waitTransfer_setStat]
  cases waitTransfer hw (osKernelGetTickCount hw w).1 timeout fuel
      (osKernelGetTickCount hw w).2 with
  | none => rfl
  | some p => obtain ⟨b, w1⟩ := p; cases b <;> rfl

theorem slowWait_setStat (cfg : Config) (hw : Hw) (fuel expected event x : Nat)
    (w : World) :
    slowWait cfg hw fuel expected event (setStat x w) =
      (slowWait cfg hw fuel expected event w).map (fun r => (r.1, setStat x r.2)) := by
  simp only [slowWait, queueGet_setStat, getTick_setStat, waitTransfer_setStat]
  split
  · cases waitTransfer hw
        (osKernelGetTickCount hw (osMessageQueueGet cfg.SD_TIMEOUT event w).2.2).1
        cfg.SD_TIMEOUT fuel
        (osKernelGetTickCount hw (osMessageQueueGet cfg.SD_TIMEOUT event w).2.2).2 with
    | none => rfl
    | some p => rfl
  · rfl

theorem invalidate_setStat (r : Region) (len x : Nat) (w : World) :
    SCB_InvalidateDCache_by_Addr r len (setStat x w) =
      setStat x (SCB_InvalidateDCache_by_Addr r len w) := rfl

theorem clean_setStat (r : Region) (len x : Nat) (w : World) :
    SCB_CleanDCache_by_Addr r len (setStat x w) =
      setStat x (SCB_CleanDCache_by_Addr r len w) := rfl

theorem read_fast_setStat (cfg : Config) (hw : Hw) (fuel addr : Nat) (buf : Mem)
    (s count x : Nat) (w : World) :
    SD_DMA_read_fast cfg hw fuel addr buf s count (setStat x w) =
      (SD_DMA_read_fast cfg hw fuel addr buf s count w).map
        (fun r => (r.1, r.2.1, setStat x r.2.2)) := by
  simp only [SD_DMA_read_fast, readDMA_setStat, queueGet_setStat, getTick_setStat,
    waitTransfer_setStat]
  split
  · split
    · cases waitTransfer hw _ cfg.SD_TIMEOUT fuel _ with
      | none => rfl
      | some p =>
        obtain ⟨b, w1⟩ := p
        cases b
        · rfl
        · cases cfg.ENABLE_SD_DMA_CACHE_MAINTENANCE <;> rfl
    · rfl
  · rfl

theorem read_slow_setStat (cfg : Config) (hw : Hw) (fuel x : Nat) :
    ∀ (n i : Nat) (ret : Option HAL_Status) (event s off : Nat) (buf : Mem) (w : World),
      SD_DMA_read_slow cfg hw fuel n i ret event s off buf (setStat x w) =
        (SD_DMA_read_slow cfg hw fuel n i ret event s off buf w).map
          (fun r => (r.1, r.2.1, r.2.2.1, setStat x r.2.2.2)) := by
  intro n
  induction n with
  | zero => intro i ret event s off buf w; simp [SD_DMA_read_slow]
  | succ n ih =>
    intro i ret event s off buf w
    rw [SD_DMA_read_slow, SD_DMA_read_slow]
    simp only [readDMA_setStat, slowWait_setStat]
    split
    · cases slowWait cfg hw fuel READ_CPLT_MSG event
          (HAL_SD_ReadBlocks_DMA hw Region.scratch (u32 s) 1 buf w).2.2 with
      | none => rfl
      | some p =>
        obtain ⟨e1, w1⟩ := p
        simp only [Option.map_some']
        cases cfg.ENABLE_SD_DMA_CACHE_MAINTENANCE
        · simpa using ih _ _ _ _ _ _ w1
        · simpa [invalidate_setStat] using
            ih _ _ _ _ _ _ (SCB_InvalidateDCache_by_Addr Region.scratch BLOCKSIZE w1)
    · rfl

theorem read_setStat (cfg : Config) (hw : Hw) (fuel addr : Nat) (buf : Mem)
    (s count x : Nat) (w : World) :
    SD_DMA_read cfg hw fuel addr buf s count (setStat x w) =
      (SD_DMA_read cfg hw fuel addr buf s count w).map
        (fun r => (r.1, r.2.1, setStat x r.2.2)) := by
  simp only [SD_DMA_read, check_setStat]
  cases SD_check_status_with_timeout hw cfg.SD_TIMEOUT fuel w with
  | none => rfl
  | some p =>
    obtain ⟨r, w1⟩ := p
    simp only [Option.map_some']
    split
    · rfl
    · split
      · exact read_fast_setStat _ _ _ _ _ _ _ _ _
      · rw [read_slow_setStat]
        cases SD_DMA_read_slow cfg hw fuel count 0 none 0 s 0 buf w1 with
        | none => rfl
        | some q =>
          obtain ⟨i, ret, b1, w2⟩ := q
          simp only [Option.map_some']
          split <;> rfl

theorem write_fast_setStat (cfg : Config) (hw : Hw) (fuel addr : Nat) (buf : Mem)
    (s count x : Nat) (w : World) :
    SD_DMA_write_fast cfg hw fuel addr buf s count (setStat x w) =
      (SD_DMA_write_fast cfg hw fuel addr buf s count w).map
        (fun r => (r.1, setStat x r.2)) := by
  unfold SD_DMA_write_fast
  cases cfg.ENABLE_SD_DMA_CACHE_MAINTENANCE <;>
  · simp only [clean_setStat, writeDMA_setStat, queueGet_setStat, getTick_setStat,
      waitTransfer_setStat, if_true, Bool.false_eq_true, if_false]
    split
    · split
      · cases waitTransfer hw _ cfg.SD_TIMEOUT fuel _ with
        | none => rfl
        | some p => obtain ⟨b, w1⟩ := p; cases b <;> rfl
      · rfl
    · rfl

theorem write_slow_setStat (cfg : Config) (hw : Hw) (fuel : Nat) (buf : Mem) (x : Nat) :
    ∀ (n i : Nat) (ret : Option HAL_Status) (event s off : Nat) (w : World),
      SD_DMA_write_slow cfg hw fuel buf n i ret event s off (setStat x w) =
        (SD_DMA_write_slow cfg hw fuel buf n i ret event s off w).map
          (fun r => (r.1, r.2.1, setStat x r.2.2)) := by
  intro n
  induction n with
  | zero => intro i ret event s off w; simp [SD_DMA_write_slow]
  | succ n ih =>
    intro i ret event s off w
    rw [SD_DMA_write_slow, SD_DMA_write_slow]
    have e0 : ({ setStat x w with scratch := memcpy (setStat x w).scratch 0 buf off BLOCKSIZE }
        : World) = setStat x { w with scratch := memcpy w.scratch 0 buf off BLOCKSIZE } := rfl
    cases cfg.ENABLE_SD_DMA_CACHE_MAINTENANCE <;>
    · simp only [e0, clean_setStat, writeDMA_setStat, slowWait_setStat, if_true,
        Bool.false_eq_true, if_false]
      split
      · cases slowWait cfg hw fuel WRITE_CPLT_MSG event _ with
        | none => rfl
        | some p =>
          obtain ⟨e1, w1⟩ := p
          simpa using ih _ _ _ _ _ w1
      · rfl

theorem write_setStat (cfg : Config) (hw : Hw) (fuel addr : Nat) (buf : Mem)
    (s count x : Nat) (w : World) :
    SD_DMA_write cfg hw fuel addr buf s count (setStat x w) =
      (SD_DMA_write cfg hw fuel addr buf s count w).map
        (fun r => (r.1, setStat x r.2)) := by
  simp only [SD_DMA_write, check_setStat]
  cases SD_check_status_with_timeout hw cfg.SD_TIMEOUT fuel w with
  | none => rfl
  | some p =>
    obtain ⟨r, w1⟩ := p
    simp only [Option.map_some']
    split
    · rfl
    · split
      · exact write_fast_setStat _ _ _ _ _ _ _ _ _
      · rw [write_slow_setStat]
        cases SD_DMA_write_slow cfg hw fuel buf count 0 none 0 s 0 w1 with
        | none => rfl
        | some q =>
          obtain ⟨i, ret, w2⟩ := q
          simp only [Option.map_some']
          split <;> rfl

/-- Results of `SD_DMA_read`: `RES_OK` or `RES_ERROR`. -/
theorem read_result (cfg : Config) (hw : Hw) (fuel addr : Nat) (buf : Mem)
    (s count : Nat) (w : World) (r : DRESULT × Mem × World)
    (h : SD_DMA_read cfg hw fuel addr buf s count w = some r) :
    r.1 = DRESULT.RES_OK ∨ r.1 = DRESULT.RES_ERROR := by
  simp only [SD_DMA_read, SD_DMA_read_fast] at h
  repeat' split at h
  all_goals first
    | (simp only [Option.some.injEq] at h; subst h; simp)
    | simp at h

/-- Results of `SD_DMA_write`: `RES_OK` or `RES_ERROR`. -/
theorem write_result (cfg : Config) (hw : Hw) (fuel addr : Nat) (buf : Mem)
    (s count : Nat) (w : World) (r : DRESULT × World)
    (h : SD_DMA_write cfg hw fuel addr buf s count w = some r) :
    r.1 = DRESULT.RES_OK ∨ r.1 = DRESULT.RES_ERROR := by
  simp only [SD_DMA_write, SD_DMA_write_fast] at h
  repeat' split at h
  all_goals first
    | (simp only [Option.some.injEq] at h; subst h; simp)
    | simp at h

/-- C5, as stated, fails: with `STA_NOINIT` set in `Stat` and a well-behaved
card, `SD_DMA_read` and `SD_DMA_write` return `RES_OK`, not `RES_NOTRDY`, and
the read has sampled the card state and issued a DMA request. -/
theorem C5_not_ready_is_not_checked :
    (setStat STA_NOINIT (readyWorld (fun _ _ => 0))).Stat &&& STA_NOINIT ≠ 0 ∧
    (SD_DMA_read templateConfig goodHw 1 32 (fun _ => 0) 100 1
        (setStat STA_NOINIT (readyWorld (fun _ _ => 0)))).map (fun r => r.1)
      = some DRESULT.RES_OK ∧
    (SD_DMA_write templateConfig goodHw 1 32 (fun _ => 0) 100 1
        (setStat STA_NOINIT (readyWorld (fun _ _ => 0)))).map (fun r => r.1)
      = some DRESULT.RES_OK ∧
    (SD_DMA_read templateConfig goodHw 1 32 (fun _ => 0) 100 1
        (setStat STA_NOINIT (readyWorld (fun _ _ => 0)))).map (fun r => r.2.2.trace)
      = some [Ev.getTick, Ev.getTick, Ev.getCardState,
          Ev.readDMA (Region.caller 32) 100 1, Ev.queuePut 1 0 0, Ev.queueGet 30000,
          Ev.getTick, Ev.getTick, Ev.getCardState,
          Ev.invalidateDCache (Region.caller 32) 512] := by
  refine ⟨?_, ?_, ?_, ?_⟩ <;> decide

/-- C5, amended: `SD_DMA_read` and `SD_DMA_write` do not consult the cached
status.  Whatever value `Stat` has, they make the same calls and return the
same result (and buffer contents) and leave `Stat` as it was; they never
return `RES_NOTRDY`. -/
theorem C5_transfers_ignore_cached_status (cfg : Config) (hw : Hw) (fuel addr : Nat)
    (buf : Mem) (s count x : Nat) (w : World) :
    SD_DMA_read cfg hw fuel addr buf s count (setStat x w) =
      (SD_DMA_read cfg hw fuel addr buf s count w).map
        (fun r => (r.1, r.2.1, setStat x r.2.2)) ∧
    SD_DMA_write cfg hw fuel addr buf s count (setStat x w) =
      (SD_DMA_write cfg hw fuel addr buf s count w).map
        (fun r => (r.1, setStat x r.2)) ∧
    (SD_DMA_read cfg hw fuel addr buf s count w).map (fun r => r.1)
      ≠ some DRESULT.RES_NOTRDY ∧
    (SD_DMA_write cfg hw fuel addr buf s count w).map (fun r => r.1)
      ≠ some DRESULT.RES_NOTRDY := by
  refine ⟨read_setStat _ _ _ _ _ _ _ _ _, write_setStat _ _ _ _ _ _ _ _ _, ?_, ?_⟩
  · cases h : SD_DMA_read cfg hw fuel addr buf s count w with
    | none => simp
    | some r =>
      rcases read_result _ _ _ _ _ _ _ _ r h with h1 | h1 <;> simp [h1]
  · cases h : SD_DMA_write cfg hw fuel addr buf s count w with
    | none => simp
    | some r =>
      rcases write_result _ _ _ _ _ _ _ _ r h with h1 | h1 <;> simp [h1]

/-- C6: when `Stat` has `STA_NOINIT` set, `SD_DMA_ioctl` and the polling
backend's `SD_ioctl` return `RES_NOTRDY` for every command code, store nothing
through the output parameter, and make no call at all (the world, trace
included, is unchanged), so the device information is not queried. -/
theorem C6_ioctl_not_ready (hw : Hw) (cmd : Nat) (w : World)
    (h : w.Stat &&& STA_NOINIT ≠ 0) :
    SD_DMA_ioctl hw cmd w = (DRESULT.RES_NOTRDY, OutParam.untouched, w) ∧
    SD_ioctl hw cmd w = (DRESULT.RES_NOTRDY, OutParam.untouched, w) := by
  simp [SD_DMA_ioctl, SD_ioctl, h]

/-- C6, at a concrete input: the driver at process start, `GET_SECTOR_COUNT`. -/
theorem C6_ioctl_not_ready_witness :
    (World.boot (fun _ _ => 0)).Stat &&& STA_NOINIT ≠ 0 ∧
    SD_DMA_ioctl goodHw GET_SECTOR_COUNT (World.boot (fun _ _ => 0)) =
      (DRESULT.RES_NOTRDY, OutParam.untouched, World.boot (fun _ _ => 0)) ∧
    SD_ioctl goodHw GET_SECTOR_COUNT (World.boot (fun _ _ => 0)) =
      (DRESULT.RES_NOTRDY, OutParam.untouched, World.boot (fun _ _ => 0)) :=
  ⟨by decide, C6_ioctl_not_ready goodHw GET_SECTOR_COUNT (World.boot (fun _ _ => 0))
    (by decide)⟩

/-- C7, as stated, fails: with `STA_NOINIT` set, the unrecognised command code
77 gets `RES_NOTRDY`, not `RES_PARERR`. -/
theorem C7_unknown_code_when_not_ready :
    77 ≠ CTRL_SYNC ∧ 77 ≠ GET_SECTOR_COUNT ∧ 77 ≠ GET_SECTOR_SIZE ∧
    77 ≠ GET_BLOCK_SIZE ∧
    (SD_DMA_ioctl goodHw 77 (World.boot (fun _ _ => 0))).1 = DRESULT.RES_NOTRDY ∧
    (SD_DMA_ioctl goodHw 77 (World.boot (fun _ _ => 0))).1 ≠ DRESULT.RES_PARERR := by
  decide

/-- C7, amended: for every command code other than `CTRL_SYNC`,
`GET_SECTOR_COUNT`, `GET_SECTOR_SIZE` and `GET_BLOCK_SIZE`, `SD_DMA_ioctl`
returns `RES_PARERR` when `STA_NOINIT` is clear in `Stat` and `RES_NOTRDY` when
it is set; in both cases it stores nothing and makes no call. -/
theorem C7_unknown_code (hw : Hw) (cmd : Nat) (w : World)
    (h0 : cmd ≠ CTRL_SYNC) (h1 : cmd ≠ GET_SECTOR_COUNT) (h2 : cmd ≠ GET_SECTOR_SIZE)
    (h3 : cmd ≠ GET_BLOCK_SIZE) :
    SD_DMA_ioctl hw cmd w =
      (if w.Stat &&& STA_NOINIT ≠ 0 then DRESULT.RES_NOTRDY else DRESULT.RES_PARERR,
        OutParam.untouched, w) := by
  by_cases h : w.Stat &&& STA_NOINIT ≠ 0 <;> simp [SD_DMA_ioctl, h, h0, h1, h2, h3]

/-- C7, amended, at a concrete input: code 77 on an initialized device. -/
theorem C7_unknown_code_witness :
    77 ≠ CTRL_SYNC ∧ 77 ≠ GET_SECTOR_COUNT ∧ 77 ≠ GET_SECTOR_SIZE ∧
    77 ≠ GET_BLOCK_SIZE ∧
    SD_DMA_ioctl goodHw 77 (readyWorld (fun _ _ => 0)) =
      (if (readyWorld (fun _ _ => 0)).Stat &&& STA_NOINIT ≠ 0 then DRESULT.RES_NOTRDY
        else DRESULT.RES_PARERR,
        OutParam.untouched, readyWorld (fun _ _ => 0)) :=
  ⟨by decide, by decide, by decide, by decide,
    C7_unknown_code goodHw 77 (readyWorld (fun _ _ => 0)) (by decide) (by decide)
      (by decide) (by decide)⟩

/-- C8, as stated, fails for the sector size: the driver's device information
gives a logical block size of 66048, `SD_DMA_ioctl(GET_SECTOR_SIZE)` returns
`RES_OK` and stores 512 through the 16-bit output. -/
theorem C8_sector_size_truncated :
    (readyWorld (fun _ _ => 0)).Stat &&& STA_NOINIT = 0 ∧
    (HAL_SD_GetCardInfo wideHw (readyWorld (fun _ _ => 0))).1.LogBlockSize = 66048 ∧
    (SD_DMA_ioctl wideHw GET_SECTOR_SIZE (readyWorld (fun _ _ => 0))).1 = DRESULT.RES_OK ∧
    (SD_DMA_ioctl wideHw GET_SECTOR_SIZE (readyWorld (fun _ _ => 0))).2.1
      = OutParam.word 512 ∧
    (SD_DMA_ioctl wideHw GET_SECTOR_SIZE (readyWorld (fun _ _ => 0))).2.1
      ≠ OutParam.word 66048 := by
  decide

/-- C8, amended: on an initialized device, `SD_DMA_ioctl(GET_SECTOR_COUNT)`
returns `RES_OK` and stores exactly the sector count that the device-info
query of that call returns, and `SD_DMA_ioctl(GET_SECTOR_SIZE)` returns
`RES_OK` and stores the sector size of that query reduced modulo `2^16`; a
second call reports the values of the next query, nothing is cached. -/
theorem C8_geometry_is_live (hw : Hw) (w : World) (h : w.Stat &&& STA_NOINIT = 0) :
    SD_DMA_ioctl hw GET_SECTOR_COUNT w =
      (DRESULT.RES_OK, OutParam.dword (HAL_SD_GetCardInfo hw w).1.LogBlockNbr,
        (HAL_SD_GetCardInfo hw w).2) ∧
    SD_DMA_ioctl hw GET_SECTOR_SIZE w =
      (DRESULT.RES_OK, OutParam.word ((HAL_SD_GetCardInfo hw w).1.LogBlockSize % 2 ^ 16),
        (HAL_SD_GetCardInfo hw w).2) ∧
    (HAL_SD_GetCardInfo hw w).1.LogBlockNbr = u32 (hw.cardInfoAt w.nInfo).LogBlockNbr ∧
    (HAL_SD_GetCardInfo hw w).1.LogBlockSize = u32 (hw.cardInfoAt w.nInfo).LogBlockSize ∧
    (SD_DMA_ioctl hw GET_SECTOR_COUNT (SD_DMA_ioctl hw GET_SECTOR_COUNT w).2.2).2.1 =
      OutParam.dword (u32 (hw.cardInfoAt (w.nInfo + 1)).LogBlockNbr) ∧
    (SD_DMA_ioctl hw GET_SECTOR_SIZE (SD_DMA_ioctl hw GET_SECTOR_SIZE w).2.2).2.1 =
      OutParam.word (u32 (hw.cardInfoAt (w.nInfo + 1)).LogBlockSize % 2 ^ 16) := by
  have hl : ∀ x, u32 x < 4294967296 := by intro x; unfold u32; omega
  simp [SD_DMA_ioctl, h, HAL_SD_GetCardInfo, GET_SECTOR_COUNT, GET_SECTOR_SIZE, CTRL_SYNC,
    DWORD_BITS, WORD_BITS, hl]

/-- C8, amended, at a concrete input: a device of 8192 sectors of 512 bytes. -/
theorem C8_geometry_is_live_witness :
    (readyWorld (fun _ _ => 0)).Stat &&& STA_NOINIT = 0 ∧
    SD_DMA_ioctl goodHw GET_SECTOR_COUNT (readyWorld (fun _ _ => 0)) =
      (DRESULT.RES_OK, OutParam.dword 8192,
        (HAL_SD_GetCardInfo goodHw (readyWorld (fun _ _ => 0))).2) ∧
    SD_DMA_ioctl goodHw GET_SECTOR_SIZE (readyWorld (fun _ _ => 0)) =
      (DRESULT.RES_OK, OutParam.word 512,
        (HAL_SD_GetCardInfo goodHw (readyWorld (fun _ _ => 0))).2) :=
  ⟨by decide,
    (C8_geometry_is_live goodHw (readyWorld (fun _ _ => 0)) (by decide)).1,
    (C8_geometry_is_live goodHw (readyWorld (fun _ _ => 0)) (by decide)).2.1⟩

/-- C9: on an initialized device, `SD_DMA_ioctl(GET_BLOCK_SIZE)` returns
`RES_OK` and stores, as a `DWORD`, the byte size `LogBlockSize` of the device
information queried during the call, integer-divided by the constant
`BLOCKSIZE = 512`.  (`LogBlockSize` is the field that the driver reads for the
erase-block size; it is also the one that `GET_SECTOR_SIZE` reports.) -/
theorem C9_block_size_in_sectors (hw : Hw) (w : World) (h : w.Stat &&& STA_NOINIT = 0) :
    SD_DMA_ioctl hw GET_BLOCK_SIZE w =
      (DRESULT.RES_OK,
        OutParam.dword (u32 (hw.cardInfoAt w.nInfo).LogBlockSize / 512),
        (HAL_SD_GetCardInfo hw w).2) ∧
    BLOCKSIZE = 512 ∧
    countCardInfo (SD_DMA_ioctl hw GET_BLOCK_SIZE w).2.2.trace = countCardInfo w.trace + 1 := by
  have hl : u32 (hw.cardInfoAt w.nInfo).LogBlockSize / 512 < 4294967296 := by
    unfold u32; omega
  simp [SD_DMA_ioctl, h, HAL_SD_GetCardInfo, GET_SECTOR_COUNT, GET_SECTOR_SIZE, CTRL_SYNC,
    GET_BLOCK_SIZE, DWORD_BITS, BLOCKSIZE, hl, countCardInfo]

/-- C9, at a concrete input: a logical block size of 66048 bytes gives 129. -/
theorem C9_block_size_in_sectors_witness :
    (readyWorld (fun _ _ => 0)).Stat &&& STA_NOINIT = 0 ∧
    SD_DMA_ioctl wideHw GET_BLOCK_SIZE (readyWorld (fun _ _ => 0)) =
      (DRESULT.RES_OK, OutParam.dword 129,
        (HAL_SD_GetCardInfo wideHw (readyWorld (fun _ _ => 0))).2) :=
  ⟨by decide, (C9_block_size_in_sectors wideHw (readyWorld (fun _ _ => 0)) (by decide)).1⟩

/-- C10: `SD_DMA_initialize` returns 0 if and only if the RTOS kernel is
running, the card state probed during the call is transfer-ready, and the
completion queue exists when the call returns (it was already allocated, or
the allocation of this call returned a handle); in every other case it returns
`STA_NOINIT`; the cached status `Stat` is the returned value. -/
theorem C10_initialize_result (cfg : Config) (hw : Hw) (w : World) :
    (( SD_DMA_initialize cfg hw w).1 = 0 ↔
      hw.kernelState = osKernelState.osKernelRunning ∧
      hw.cardStateAt w.nState = HAL_SD_CARD_TRANSFER ∧
      ( SD_DMA_initialize cfg hw w).2.SDQueueID ≠ none) ∧
    (( SD_DMA_initialize cfg hw w).1 = 0 ↔
      hw.kernelState = osKernelState.osKernelRunning ∧
      hw.cardStateAt w.nState = HAL_SD_CARD_TRANSFER ∧
      (w.SDQueueID ≠ none ∨ hw.queueNewAt w.nNew ≠ none)) ∧
    (( SD_DMA_initialize cfg hw w).1 = 0 ∨ ( SD_DMA_initialize cfg hw w).1 = STA_NOINIT) ∧
    ( SD_DMA_initialize cfg hw w).2.Stat = ( SD_DMA_initialize cfg hw w).1 := by
  unfold SD_DMA_initialize SD_check_status HAL_SD_GetCardState osMessageQueueNew
    sdmmc_sd_init STA_NOINIT
  by_cases hk : hw.kernelState = osKernelState.osKernelRunning
  · by_cases hc : hw.cardStateAt w.nState = HAL_SD_CARD_TRANSFER
    · cases hq : w.SDQueueID with
      | none =>
        cases hn : hw.queueNewAt w.nNew with
        | none => cases cfg.ENABLE_SD_INIT <;> simp [hk, hc, hq, hn, QUEUE_SIZE]
        | some q => cases cfg.ENABLE_SD_INIT <;> simp [hk, hc, hq, hn, QUEUE_SIZE]
      | some q => cases cfg.ENABLE_SD_INIT <;> simp [hk, hc, hq]
    · cases cfg.ENABLE_SD_INIT <;> simp [hk, hc]
  · simp [hk]

/-! ## The queue handle -/

theorem countQueueNew_append (a b : List Ev) :
    countQueueNew (a ++ b) = countQueueNew a + countQueueNew b := by
  simp [countQueueNew]

theorem HandleKept.keptRefl (w : World) : HandleKept w w := ⟨rfl, rfl, rfl, rfl⟩

theorem HandleKept.keptTrans {a b c : World} (h1 : HandleKept a b) (h2 : HandleKept b c) :
    HandleKept a c :=
  ⟨h2.1.trans h1.1, h2.2.1.trans h1.2.1, h2.2.2.1.trans h1.2.2.1,
    h2.2.2.2.trans h1.2.2.2⟩

theorem ProbeOnly.handleKept {w w1 : World} (h : ProbeOnly w w1) : HandleKept w w1 := by
  obtain ⟨-, h2, -, -, -, -, h7, -, h9, evs, ht, hp⟩ := h
  refine ⟨h2, h7, ?_, h9⟩
  have h1 : countQueueNew evs = 0 := by
    simp only [countQueueNew, List.length_eq_zero, List.filter_eq_nil_iff]
    intro e he
    rcases hp e he with h | h <;> simp [h]
  rw [ht, countQueueNew_append, h1]
  simp

theorem queuePut_handleKept (m p t : Nat) (w : World) :
    HandleKept w (osMessageQueuePut m p t w).2 := by
  unfold osMessageQueuePut HandleKept
  cases h : w.SDQueueID with
  | none => simp [h, countQueueNew]
  | some q =>
    by_cases hl : w.queue.length < w.capacity <;> by_cases ht : t = 0 <;>
      simp [h, hl, ht, countQueueNew]

theorem queueGet_handleKept (t e : Nat) (w : World) :
    HandleKept w (osMessageQueueGet t e w).2.2 := by
  unfold osMessageQueueGet HandleKept
  cases h : w.SDQueueID with
  | none => simp [h, countQueueNew]
  | some q =>
    cases hq : w.queue with
    | nil => by_cases ht : t = 0 <;> simp [h, hq, ht, countQueueNew]
    | cons a rest => simp [h, hq, countQueueNew]

theorem raiseIrq_handleKept (irq : Irq) (rx : Bool) (w : World) :
    HandleKept w (raiseIrq irq rx w) := by
  cases irq <;> cases rx <;>
    simp only [raiseIrq, HAL_SD_RxCpltCallback, HAL_SD_TxCpltCallback, if_true,
      Bool.false_eq_true, if_false] <;>
    first
      | exact HandleKept.keptRefl _
      | exact queuePut_handleKept _ _ _ _

theorem readDMA_handleKept (hw : Hw) (dst : Region) (blk n : Nat) (buf : Mem) (w : World) :
    HandleKept w (HAL_SD_ReadBlocks_DMA hw dst blk n buf w).2.2 := by
  unfold HAL_SD_ReadBlocks_DMA
  by_cases h : hw.issueAt w.nIssue = HAL_Status.HAL_OK
  · cases dst with
    | caller a =>
      simp only [h, if_true]
      refine HandleKept.keptTrans ?_ (raiseIrq_handleKept _ _ _)
      simp [HandleKept, countQueueNew]
    | scratch =>
      simp only [h, if_true]
      refine HandleKept.keptTrans ?_ (raiseIrq_handleKept _ _ _)
      simp [HandleKept, countQueueNew]
  · simp [h, HandleKept, countQueueNew]

theorem writeDMA_handleKept (hw : Hw) (src : Region) (blk n : Nat) (buf : Mem) (w : World) :
    HandleKept w (HAL_SD_WriteBlocks_DMA hw src blk n buf w).2 := by
  unfold HAL_SD_WriteBlocks_DMA
  by_cases h : hw.issueAt w.nIssue = HAL_Status.HAL_OK
  · simp only [h, if_true]
    refine HandleKept.keptTrans ?_ (raiseIrq_handleKept _ _ _)
    simp [HandleKept, countQueueNew]
  · simp [h, HandleKept, countQueueNew]

theorem invalidate_handleKept (r : Region) (len : Nat) (w : World) :
    HandleKept w (SCB_InvalidateDCache_by_Addr r len w) := by
  simp [HandleKept, SCB_InvalidateDCache_by_Addr, countQueueNew]

theorem clean_handleKept (r : Region) (len : Nat) (w : World) :
    HandleKept w (SCB_CleanDCache_by_Addr r len w) := by
  simp [HandleKept, SCB_CleanDCache_by_Addr, countQueueNew]

theorem getTick_handleKept (hw : Hw) (w : World) :
    HandleKept w (osKernelGetTickCount hw w).2 :=
  (probeOnly_getTick hw w).handleKept

theorem poll_handleKept (hw : Hw) (timeout fuel : Nat) (w : World) (b : Bool) (w1 : World)
    (h : waitTransfer hw (osKernelGetTickCount hw w).1 timeout fuel
      (osKernelGetTickCount hw w).2 = some (b, w1)) : HandleKept w w1 :=
  (getTick_handleKept hw w).keptTrans (waitTransfer_probeOnly _ _ _ _ _ _ _ h).handleKept

theorem slowWait_handleKept (cfg : Config) (hw : Hw) (fuel expected event : Nat)
    (w : World) (e1 : Nat) (w1 : World)
    (h : slowWait cfg hw fuel expected event w = some (e1, w1)) : HandleKept w w1 := by
  have hg := queueGet_handleKept cfg.SD_TIMEOUT event w
  simp only [slowWait] at h
  split at h
  · cases hp : waitTransfer hw
        (osKernelGetTickCount hw (osMessageQueueGet cfg.SD_TIMEOUT event w).2.2).1
        cfg.SD_TIMEOUT fuel
        (osKernelGetTickCount hw (osMessageQueueGet cfg.SD_TIMEOUT event w).2.2).2 with
    | none => simp [hp] at h
    | some p =>
      obtain ⟨b, w2⟩ := p
      simp only [hp, Option.some.injEq, Prod.mk.injEq] at h
      rw [← h.2]
      exact hg.keptTrans (poll_handleKept _ _ _ _ _ _ hp)
  · simp only [Option.some.injEq, Prod.mk.injEq] at h
    rw [← h.2]
    exact hg

theorem read_fast_handleKept (cfg : Config) (hw : Hw) (fuel addr : Nat) (buf : Mem)
    (s count : Nat) (w : World) (r : DRESULT × Mem × World)
    (h : SD_DMA_read_fast cfg hw fuel addr buf s count w = some r) :
    HandleKept w r.2.2 := by
  have hd := readDMA_handleKept hw (Region.caller addr) (u32 s) (u32 count) buf w
  have hg := queueGet_handleKept cfg.SD_TIMEOUT 0
    (HAL_SD_ReadBlocks_DMA hw (Region.caller addr) (u32 s) (u32 count) buf w).2.2
  simp only [SD_DMA_read_fast] at h
  split at h
  · split at h
    · cases hp : waitTransfer hw
          (osKernelGetTickCount hw (osMessageQueueGet cfg.SD_TIMEOUT 0
            (HAL_SD_ReadBlocks_DMA hw (Region.caller addr) (u32 s) (u32 count)
              buf w).2.2).2.2).1
          cfg.SD_TIMEOUT fuel
          (osKernelGetTickCount hw (osMessageQueueGet cfg.SD_TIMEOUT 0
            (HAL_SD_ReadBlocks_DMA hw (Region.caller addr) (u32 s) (u32 count)
              buf w).2.2).2.2).2 with
      | none => simp [hp] at h
      | some p =>
        obtain ⟨b, w2⟩ := p
        have hk := (hd.keptTrans hg).keptTrans (poll_handleKept _ _ _ _ _ _ hp)
        cases b
        · simp only [hp, Option.some.injEq] at h
          rw [← h]; exact hk
        · simp only [hp, Option.some.injEq] at h
          rw [← h]
          cases cfg.ENABLE_SD_DMA_CACHE_MAINTENANCE
          · exact hk
          · exact hk.keptTrans (invalidate_handleKept _ _ _)
    · simp only [Option.some.injEq] at h
      rw [← h]; exact hd.keptTrans hg
  · simp only [Option.some.injEq] at h
    rw [← h]; exact hd

theorem read_slow_handleKept (cfg : Config) (hw : Hw) (fuel : Nat) :
    ∀ (n i : Nat) (ret : Option HAL_Status) (event s off : Nat) (buf : Mem) (w : World)
      (r : Nat × Option HAL_Status × Mem × World),
      SD_DMA_read_slow cfg hw fuel n i ret event s off buf w = some r →
      HandleKept w r.2.2.2 := by
  intro n
  induction n with
  | zero =>
    intro i ret event s off buf w r h
    simp only [SD_DMA_read_slow, Option.some.injEq] at h
    rw [← h]; exact HandleKept.keptRefl w
  | succ n ih =>
    intro i ret event s off buf w r h
    have hd := readDMA_handleKept hw Region.scratch (u32 s) 1 buf w
    rw [SD_DMA_read_slow] at h
    simp only at h
    split at h
    · cases hs : slowWait cfg hw fuel READ_CPLT_MSG event
          (HAL_SD_ReadBlocks_DMA hw Region.scratch (u32 s) 1 buf w).2.2 with
      | none => simp [hs] at h
      | some p =>
        obtain ⟨e1, w1⟩ := p
        have hk := hd.keptTrans (slowWait_handleKept _ _ _ _ _ _ _ _ hs)
        simp only [hs] at h
        have h2 := ih _ _ _ _ _ _ _ _ h
        refine HandleKept.keptTrans ?_ h2
        cases cfg.ENABLE_SD_DMA_CACHE_MAINTENANCE
        · exact hk
        · exact hk.keptTrans (invalidate_handleKept _ _ _)
    · simp only [Option.some.injEq] at h
      rw [← h]; exact hd

theorem read_handleKept (cfg : Config) (hw : Hw) (fuel addr : Nat) (buf : Mem)
    (s count : Nat) (w : World) (r : DRESULT × Mem × World)
    (h : SD_DMA_read cfg hw fuel addr buf s count w = some r) : HandleKept w r.2.2 := by
  simp only [SD_DMA_read] at h
  cases hc : SD_check_status_with_timeout hw cfg.SD_TIMEOUT fuel w with
  | none => simp [hc] at h
  | some p =>
    obtain ⟨r0, w0⟩ := p
    have h0 := (check_probeOnly _ _ _ _ _ _ hc).1.handleKept
    simp only [hc] at h
    split at h
    · simp only [Option.some.injEq] at h
      rw [← h]; exact h0
    · split at h
      · exact h0.keptTrans (read_fast_handleKept _ _ _ _ _ _ _ _ _ h)
      · cases hs : SD_DMA_read_slow cfg hw fuel count 0 none 0 s 0 buf w0 with
        | none => simp [hs] at h
        | some q =>
          have h1 := read_slow_handleKept _ _ _ _ _ _ _ _ _ _ _ _ hs
          obtain ⟨i, ret, b1, w2⟩ := q
          simp only [hs] at h
          split at h <;>
          · simp only [Option.some.injEq] at h
            rw [← h]; exact h0.keptTrans h1

/-- The fast path of `SD_DMA_write`, from the state in which the request is
issued. -/
theorem write_fast_unfold (cfg : Config) (hw : Hw) (fuel addr : Nat) (buf : Mem)
    (s count : Nat) (w : World) :
    SD_DMA_write_fast cfg hw fuel addr buf s count w =
      if (HAL_SD_WriteBlocks_DMA hw (Region.caller addr) (u32 s) (u32 count) buf
          (writeFastIssueState cfg addr count w)).1 = HAL_Status.HAL_OK then
        if (osMessageQueueGet cfg.SD_TIMEOUT 0
              (HAL_SD_WriteBlocks_DMA hw (Region.caller addr) (u32 s) (u32 count) buf
                (writeFastIssueState cfg addr count w)).2).1 = osStatus.osOK ∧
            (osMessageQueueGet cfg.SD_TIMEOUT 0
              (HAL_SD_WriteBlocks_DMA hw (Region.caller addr) (u32 s) (u32 count) buf
                (writeFastIssueState cfg addr count w)).2).2.1 = WRITE_CPLT_MSG then
          match waitTransfer hw
              (osKernelGetTickCount hw (osMessageQueueGet cfg.SD_TIMEOUT 0
                (HAL_SD_WriteBlocks_DMA hw (Region.caller addr) (u32 s) (u32 count) buf
                  (writeFastIssueState cfg addr count w)).2).2.2).1
              cfg.SD_TIMEOUT fuel
              (osKernelGetTickCount hw (osMessageQueueGet cfg.SD_TIMEOUT 0
                (HAL_SD_WriteBlocks_DMA hw (Region.caller addr) (u32 s) (u32 count) buf
                  (writeFastIssueState cfg addr count w)).2).2.2).2 with
          | none => none
          | some (true, w1) => some (DRESULT.RES_OK, w1)
          | some (false, w1) => some (DRESULT.RES_ERROR, w1)
        else some (DRESULT.RES_ERROR,
          (osMessageQueueGet cfg.SD_TIMEOUT 0
            (HAL_SD_WriteBlocks_DMA hw (Region.caller addr) (u32 s) (u32 count) buf
              (writeFastIssueState cfg addr count w)).2).2.2)
      else some (DRESULT.RES_ERROR,
        (HAL_SD_WriteBlocks_DMA hw (Region.caller addr) (u32 s) (u32 count) buf
          (writeFastIssueState cfg addr count w)).2) := rfl

/-- One iteration of the slow-path loop of `SD_DMA_write`, from the state in
which the sub-request is issued. -/
theorem write_slow_unfold (cfg : Config) (hw : Hw) (fuel : Nat) (buf : Mem) (n i : Nat)
    (ret : Option HAL_Status) (event s off : Nat) (w : World) :
    SD_DMA_write_slow cfg hw fuel buf (n + 1) i ret event s off w =
      if (HAL_SD_WriteBlocks_DMA hw Region.scratch (u32 s) 1 buf
          (writeSlowIssueState cfg buf off w)).1 = HAL_Status.HAL_OK then
        match slowWait cfg hw fuel WRITE_CPLT_MSG event
            (HAL_SD_WriteBlocks_DMA hw Region.scratch (u32 s) 1 buf
              (writeSlowIssueState cfg buf off w)).2 with
        | none => none
        | some (event1, w2) =>
          SD_DMA_write_slow cfg hw fuel buf n (i + 1)
            (some (HAL_SD_WriteBlocks_DMA hw Region.scratch (u32 s) 1 buf
              (writeSlowIssueState cfg buf off w)).1) event1 (s + 1) (off + BLOCKSIZE) w2
      else some (i,
        some (HAL_SD_WriteBlocks_DMA hw Region.scratch (u32 s) 1 buf
          (writeSlowIssueState cfg buf off w)).1,
        (HAL_SD_WriteBlocks_DMA hw Region.scratch (u32 s) 1 buf
          (writeSlowIssueState cfg buf off w)).2) := by
  rw [SD_DMA_write_slow]
  rfl

theorem writeFastIssueState_handleKept (cfg : Config) (addr count : Nat) (w : World) :
    HandleKept w (writeFastIssueState cfg addr count w) := by
  unfold writeFastIssueState
  cases cfg.ENABLE_SD_DMA_CACHE_MAINTENANCE
  · exact HandleKept.keptRefl w
  · exact clean_handleKept _ _ _

theorem writeSlowIssueState_handleKept (cfg : Config) (buf : Mem) (off : Nat) (w : World) :
    HandleKept w (writeSlowIssueState cfg buf off w) := by
  unfold writeSlowIssueState
  cases cfg.ENABLE_SD_DMA_CACHE_MAINTENANCE
  · exact ⟨rfl, rfl, rfl, rfl⟩
  · exact HandleKept.keptTrans ⟨rfl, rfl, rfl, rfl⟩ (clean_handleKept _ _ _)

theorem write_fast_handleKept (cfg : Config) (hw : Hw) (fuel addr : Nat) (buf : Mem)
    (s count : Nat) (w : World) (r : DRESULT × World)
    (h : SD_DMA_write_fast cfg hw fuel addr buf s count w = some r) :
    HandleKept w r.2 := by
  have hc := writeFastIssueState_handleKept cfg addr count w
  have hd := writeDMA_handleKept hw (Region.caller addr) (u32 s) (u32 count) buf
    (writeFastIssueState cfg addr count w)
  have hg := queueGet_handleKept cfg.SD_TIMEOUT 0
    (HAL_SD_WriteBlocks_DMA hw (Region.caller addr) (u32 s) (u32 count) buf
      (writeFastIssueState cfg addr count w)).2
  rw [write_fast_unfold] at h
  split at h
  · split at h
    · cases hp : waitTransfer hw
          (osKernelGetTickCount hw (osMessageQueueGet cfg.SD_TIMEOUT 0
            (HAL_SD_WriteBlocks_DMA hw (Region.caller addr) (u32 s) (u32 count) buf
              (writeFastIssueState cfg addr count w)).2).2.2).1
          cfg.SD_TIMEOUT fuel
          (osKernelGetTickCount hw (osMessageQueueGet cfg.SD_TIMEOUT 0
            (HAL_SD_WriteBlocks_DMA hw (Region.caller addr) (u32 s) (u32 count) buf
              (writeFastIssueState cfg addr count w)).2).2.2).2 with
      | none => simp [hp] at h
      | some p =>
        obtain ⟨b, w2⟩ := p
        have hk := ((hc.keptTrans hd).keptTrans hg).keptTrans (poll_handleKept _ _ _ _ _ _ hp)
        cases b <;>
        · simp only [hp, Option.some.injEq] at h
          rw [← h]; exact hk
    · simp only [Option.some.injEq] at h
      rw [← h]; exact (hc.keptTrans hd).keptTrans hg
  · simp only [Option.some.injEq] at h
    rw [← h]; exact hc.keptTrans hd

theorem write_slow_handleKept (cfg : Config) (hw : Hw) (fuel : Nat) (buf : Mem) :
    ∀ (n i : Nat) (ret : Option HAL_Status) (event s off : Nat) (w : World)
      (r : Nat × Option HAL_Status × World),
      SD_DMA_write_slow cfg hw fuel buf n i ret event s off w = some r →
      HandleKept w r.2.2 := by
  intro n
  induction n with
  | zero =>
    intro i ret event s off w r h
    simp only [SD_DMA_write_slow, Option.some.injEq] at h
    rw [← h]; exact HandleKept.keptRefl w
  | succ n ih =>
    intro i ret event s off w r h
    have hc := writeSlowIssueState_handleKept cfg buf off w
    have hd := writeDMA_handleKept hw Region.scratch (u32 s) 1 buf
      (writeSlowIssueState cfg buf off w)
    rw [write_slow_unfold] at h
    split at h
    · cases hs : slowWait cfg hw fuel WRITE_CPLT_MSG event
          (HAL_SD_WriteBlocks_DMA hw Region.scratch (u32 s) 1 buf
            (writeSlowIssueState cfg buf off w)).2 with
      | none => simp [hs] at h
      | some p =>
        obtain ⟨e1, w1⟩ := p
        have hk := (hc.keptTrans hd).keptTrans (slowWait_handleKept _ _ _ _ _ _ _ _ hs)
        simp only [hs] at h
        exact hk.keptTrans (ih _ _ _ _ _ _ _ h)
    · simp only [Option.some.injEq] at h
      rw [← h]; exact hc.keptTrans hd

theorem write_handleKept (cfg : Config) (hw : Hw) (fuel addr : Nat) (buf : Mem)
    (s count : Nat) (w : World) (r : DRESULT × World)
    (h : SD_DMA_write cfg hw fuel addr buf s count w = some r) : HandleKept w r.2 := by
  simp only [SD_DMA_write] at h
  cases hc : SD_check_status_with_timeout hw cfg.SD_TIMEOUT fuel w with
  | none => simp [hc] at h
  | some p =>
    obtain ⟨r0, w0⟩ := p
    have h0 := (check_probeOnly _ _ _ _ _ _ hc).1.handleKept
    simp only [hc] at h
    split at h
    · simp only [Option.some.injEq] at h
      rw [← h]; exact h0
    · split at h
      · exact h0.keptTrans (write_fast_handleKept _ _ _ _ _ _ _ _ _ h)
      · cases hs : SD_DMA_write_slow cfg hw fuel buf count 0 none 0 s 0 w0 with
        | none => simp [hs] at h
        | some q =>
          have h1 := write_slow_handleKept _ _ _ _ _ _ _ _ _ _ _ _ hs
          obtain ⟨i, ret, w2⟩ := q
          simp only [hs] at h
          split at h <;>
          · simp only [Option.some.injEq] at h
            rw [← h]; exact h0.keptTrans h1

theorem status_handleKept (hw : Hw) (w : World) : HandleKept w (SD_DMA_status hw w).2 := by
  unfold SD_DMA_status SD_check_status HAL_SD_GetCardState HandleKept
  by_cases hc : hw.cardStateAt w.nState = HAL_SD_CARD_TRANSFER <;>
    simp [hc, countQueueNew]

theorem ioctl_handleKept (hw : Hw) (cmd : Nat) (w : World) :
    HandleKept w (SD_DMA_ioctl hw cmd w).2.2 := by
  unfold SD_DMA_ioctl HAL_SD_GetCardInfo HandleKept
  split_ifs <;> simp [countQueueNew]

/-- What `SD_DMA_initialize` does to the queue handle: it calls
`osMessageQueueNew` exactly when the kernel runs, the card is ready and the
handle is `NULL`, and then stores what that call returned; otherwise the
handle is kept and no queue is created. -/
theorem initialize_handle (cfg : Config) (hw : Hw) (w : World) :
    (hw.kernelState = osKernelState.osKernelRunning ∧
      hw.cardStateAt w.nState = HAL_SD_CARD_TRANSFER ∧ w.SDQueueID = none ∧
      ( SD_DMA_initialize cfg hw w).2.SDQueueID = hw.queueNewAt w.nNew ∧
      ( SD_DMA_initialize cfg hw w).2.nNew = w.nNew + 1) ∨
    HandleKept w ( SD_DMA_initialize cfg hw w).2 := by
  unfold SD_DMA_initialize SD_check_status HAL_SD_GetCardState osMessageQueueNew
    sdmmc_sd_init STA_NOINIT HandleKept
  by_cases hk : hw.kernelState = osKernelState.osKernelRunning
  · by_cases hc : hw.cardStateAt w.nState = HAL_SD_CARD_TRANSFER
    · cases hq : w.SDQueueID with
      | none =>
        cases hn : hw.queueNewAt w.nNew with
        | none => cases cfg.ENABLE_SD_INIT <;> simp [hk, hc, hq, hn, QUEUE_SIZE]
        | some q => cases cfg.ENABLE_SD_INIT <;> simp [hk, hc, hq, hn, QUEUE_SIZE]
      | some q => cases cfg.ENABLE_SD_INIT <;> simp [hk, hc, hq, countQueueNew]
    · cases cfg.ENABLE_SD_INIT <;> simp [hk, hc, countQueueNew]
  · simp [hk, countQueueNew]

theorem AllocatedOnce.of_handleKept {hw : Hw} {w w1 : World} (h : AllocatedOnce hw w)
    (hk : HandleKept w w1) : AllocatedOnce hw w1 := by
  unfold AllocatedOnce at h ⊢
  rw [hk.1, hk.2.1]
  exact h

theorem initialize_allocatedOnce (cfg : Config) (hw : Hw) (w : World)
    (h : AllocatedOnce hw w) : AllocatedOnce hw ( SD_DMA_initialize cfg hw w).2 := by
  rcases initialize_handle cfg hw w with ⟨-, -, hq, h1, h2⟩ | hk
  · rcases h with ⟨-, hall⟩ | ⟨k0, -, h3, h4, -⟩
    · cases hn : hw.queueNewAt w.nNew with
      | none =>
        refine Or.inl ⟨by rw [h1, hn], ?_⟩
        intro k hk
        rw [h2] at hk
        rcases Nat.lt_succ_iff_lt_or_eq.mp hk with h5 | h5
        · exact hall k h5
        · rw [h5]; exact hn
      | some q =>
        exact Or.inr ⟨w.nNew, h2, h1, by rw [hn]; simp, hall⟩
    · rw [hq] at h3
      exact absurd h3.symm h4
  · exact h.of_handleKept hk

/-- An entry point other than `SD_DMA_initialize` keeps the handle; every entry
point keeps it once it is not `NULL`, and keeps the allocation history. -/
theorem runOp_handle (cfg : Config) (hw : Hw) (fuel : Nat) (op : Op) (w w1 : World)
    (h : runOp cfg hw fuel op w = some w1) :
    (w.SDQueueID ≠ none → HandleKept w w1) ∧ (AllocatedOnce hw w → AllocatedOnce hw w1) := by
  have key : ∀ {v : World}, HandleKept w v →
      (w.SDQueueID ≠ none → HandleKept w v) ∧ (AllocatedOnce hw w → AllocatedOnce hw v) :=
    fun hk => ⟨fun _ => hk, fun ha => ha.of_handleKept hk⟩
  cases op with
  | init =>
    simp only [runOp, Option.some.injEq] at h
    subst h
    refine ⟨?_, initialize_allocatedOnce cfg hw w⟩
    intro hq
    rcases initialize_handle cfg hw w with ⟨-, -, h0, -, -⟩ | hk
    · exact absurd h0 hq
    · exact hk
  | status =>
    simp only [runOp, Option.some.injEq] at h
    subst h
    exact key (status_handleKept hw w)
  | read a b s c =>
    simp only [runOp, Option.map_eq_some'] at h
    obtain ⟨r, hr, rfl⟩ := h
    exact key (read_handleKept _ _ _ _ _ _ _ _ _ hr)
  | write a b s c =>
    simp only [runOp, Option.map_eq_some'] at h
    obtain ⟨r, hr, rfl⟩ := h
    exact key (write_handleKept _ _ _ _ _ _ _ _ _ hr)
  | ioctl cmd =>
    simp only [runOp, Option.some.injEq] at h
    subst h
    exact key (ioctl_handleKept hw cmd w)
  | rxCplt =>
    simp only [runOp, Option.some.injEq] at h
    subst h
    exact key (queuePut_handleKept _ _ _ _)
  | txCplt =>
    simp only [runOp, Option.some.injEq] at h
    subst h
    exact key (queuePut_handleKept _ _ _ _)

theorem runOps_handle (cfg : Config) (hw : Hw) (fuel : Nat) :
    ∀ (ops : List Op) (w w1 : World), runOps cfg hw fuel ops w = some w1 →
      (w.SDQueueID ≠ none → HandleKept w w1) ∧
      (AllocatedOnce hw w → AllocatedOnce hw w1) := by
  intro ops
  induction ops with
  | nil =>
    intro w w1 h
    simp only [runOps, Option.some.injEq] at h
    subst h
    exact ⟨fun _ => HandleKept.keptRefl w, fun ha => ha⟩
  | cons op ops ih =>
    intro w w1 h
    rw [runOps] at h
    cases ho : runOp cfg hw fuel op w with
    | none => simp [ho] at h
    | some w2 =>
      simp only [ho] at h
      obtain ⟨a1, a2⟩ := runOp_handle cfg hw fuel op w w2 ho
      obtain ⟨b1, b2⟩ := ih w2 w1 h
      refine ⟨?_, fun ha => b2 (a2 ha)⟩
      intro hq
      have hk := a1 hq
      exact hk.keptTrans (b1 (by rw [hk.1]; exact hq))

/-- C11: over any sequence of calls of the driver's entry points
(`SD_DMA_initialize` interleaved with status, read, write, ioctl and the
completion callbacks) that returns, the completion queue is allocated at most
once: once `SDQueueID` is not `NULL` no later call changes the handle or
calls `osMessageQueueNew`; and from process start on, every
`osMessageQueueNew` returned `NULL` except the last one, whose handle
`SDQueueID` holds. -/
theorem C11_queue_allocated_once (cfg : Config) (hw : Hw) (fuel : Nat) (ops : List Op)
    (w : World) (hrun : (runOps cfg hw fuel ops w).isSome = true) :
    ∃ w1, runOps cfg hw fuel ops w = some w1 ∧
      (w.SDQueueID ≠ none →
        w1.SDQueueID = w.SDQueueID ∧ w1.nNew = w.nNew ∧
        countQueueNew w1.trace = countQueueNew w.trace) ∧
      (AllocatedOnce hw w → AllocatedOnce hw w1) ∧
      AllocatedOnce hw (World.boot w.disk) := by
  obtain ⟨w1, h1⟩ := Option.isSome_iff_exists.mp hrun
  obtain ⟨a, b⟩ := runOps_handle cfg hw fuel ops w w1 h1
  refine ⟨w1, h1, fun hq => ⟨(a hq).1, (a hq).2.1, (a hq).2.2.1⟩, b, Or.inl ⟨rfl, ?_⟩⟩
  intro k hk
  simp [World.boot] at hk

/-- C11, at a concrete input: from the state that the first
`SD_DMA_initialize` after process start leaves, initialize twice, read, query
the status, receive a completion callback and initialize again. -/
theorem C11_queue_allocated_once_witness :
    (runOps templateConfig goodHw 2
      [Op.init, Op.init, Op.read 8 (fun _ => 0) 100 2, Op.status, Op.rxCplt, Op.init]
      ( SD_DMA_initialize templateConfig goodHw (World.boot (fun _ _ => 0))).2).isSome
      = true ∧
    ( SD_DMA_initialize templateConfig goodHw (World.boot (fun _ _ => 0))).2.SDQueueID
      ≠ none ∧
    AllocatedOnce goodHw
      ( SD_DMA_initialize templateConfig goodHw (World.boot (fun _ _ => 0))).2 ∧
    ∃ w1, runOps templateConfig goodHw 2
        [Op.init, Op.init, Op.read 8 (fun _ => 0) 100 2, Op.status, Op.rxCplt, Op.init]
        ( SD_DMA_initialize templateConfig goodHw (World.boot (fun _ _ => 0))).2
        = some w1 ∧
      (( SD_DMA_initialize templateConfig goodHw (World.boot (fun _ _ => 0))).2.SDQueueID
          ≠ none →
        w1.SDQueueID =
          ( SD_DMA_initialize templateConfig goodHw (World.boot (fun _ _ => 0))).2.SDQueueID ∧
        w1.nNew =
          ( SD_DMA_initialize templateConfig goodHw (World.boot (fun _ _ => 0))).2.nNew ∧
        countQueueNew w1.trace = countQueueNew
          ( SD_DMA_initialize templateConfig goodHw (World.boot (fun _ _ => 0))).2.trace) ∧
      (AllocatedOnce goodHw
          ( SD_DMA_initialize templateConfig goodHw (World.boot (fun _ _ => 0))).2 →
        AllocatedOnce goodHw w1) ∧
      AllocatedOnce goodHw (World.boot
        ( SD_DMA_initialize templateConfig goodHw (World.boot (fun _ _ => 0))).2.disk) :=
  ⟨by decide, by decide,
    initialize_allocatedOnce templateConfig goodHw (World.boot (fun _ _ => 0))
      (Or.inl ⟨rfl, fun k hk => absurd hk (Nat.not_lt_zero k)⟩),
    C11_queue_allocated_once templateConfig goodHw 2
      [Op.init, Op.init, Op.read 8 (fun _ => 0) 100 2, Op.status, Op.rxCplt, Op.init]
      ( SD_DMA_initialize templateConfig goodHw (World.boot (fun _ _ => 0))).2
      (by decide)⟩

/-- C12: `SD_DMA_status` probes the hardware at every call.  It returns 0
exactly when the card state sampled during the call is transfer-ready and
`STA_NOINIT` exactly when it is not, whatever the cached status was (also
right after an `SD_DMA_initialize`, whatever that call returned); apart from
the bookkeeping of the one sample taken, the only change of state is the
cached status, which becomes the returned value. -/
theorem C12_status_reprobes (cfg : Config) (hw : Hw) (w : World) (x : Nat) :
    (SD_DMA_status hw w).1 =
      (if hw.cardStateAt w.nState = HAL_SD_CARD_TRANSFER then 0 else STA_NOINIT) ∧
    ((SD_DMA_status hw w).1 = 0 ↔ hw.cardStateAt w.nState = HAL_SD_CARD_TRANSFER) ∧
    ((SD_DMA_status hw w).1 = STA_NOINIT ↔ hw.cardStateAt w.nState ≠ HAL_SD_CARD_TRANSFER) ∧
    (SD_DMA_status hw w).2 =
      { (HAL_SD_GetCardState hw w).2 with Stat := (SD_DMA_status hw w).1 } ∧
    SD_DMA_status hw (setStat x w) = SD_DMA_status hw w ∧
    (SD_DMA_status hw ( SD_DMA_initialize cfg hw w).2).1 =
      (if hw.cardStateAt ( SD_DMA_initialize cfg hw w).2.nState = HAL_SD_CARD_TRANSFER
        then 0 else STA_NOINIT) ∧
    countCardState (SD_DMA_status hw w).2.trace = countCardState w.trace + 1 := by
  have key : ∀ v : World, (SD_DMA_status hw v).1 =
      (if hw.cardStateAt v.nState = HAL_SD_CARD_TRANSFER then 0 else STA_NOINIT) := by
    intro v
    unfold SD_DMA_status SD_check_status HAL_SD_GetCardState STA_NOINIT
    by_cases hc : hw.cardStateAt v.nState = HAL_SD_CARD_TRANSFER <;> simp [hc]
  refine ⟨key w, ?_, ?_, ?_, ?_, key _, ?_⟩
  · rw [key w]
    by_cases hc : hw.cardStateAt w.nState = HAL_SD_CARD_TRANSFER <;> simp [hc, STA_NOINIT]
  · rw [key w]
    by_cases hc : hw.cardStateAt w.nState = HAL_SD_CARD_TRANSFER <;> simp [hc, STA_NOINIT]
  · unfold SD_DMA_status SD_check_status HAL_SD_GetCardState STA_NOINIT
    by_cases hc : hw.cardStateAt w.nState = HAL_SD_CARD_TRANSFER <;> simp [hc]
  · unfold SD_DMA_status SD_check_status HAL_SD_GetCardState STA_NOINIT setStat
    by_cases hc : hw.cardStateAt w.nState = HAL_SD_CARD_TRANSFER <;> simp [hc]
  · unfold SD_DMA_status SD_check_status HAL_SD_GetCardState STA_NOINIT
    by_cases hc : hw.cardStateAt w.nState = HAL_SD_CARD_TRANSFER <;>
      simp [hc, countCardState]

/-- C13, as stated, fails: at process start (before any `SD_DMA_initialize`),
with a card that already reports transfer-ready, `SD_DMA_status` returns 0,
not `STA_NOINIT`. -/
theorem C13_status_before_initialize_ready :
    (World.boot (fun _ _ => 0)).Stat = STA_NOINIT ∧
    goodHw.cardStateAt (World.boot (fun _ _ => 0)).nState = HAL_SD_CARD_TRANSFER ∧
    (SD_DMA_status goodHw (World.boot (fun _ _ => 0))).1 = 0 ∧
    (SD_DMA_status goodHw (World.boot (fun _ _ => 0))).1 ≠ STA_NOINIT := by
  decide

/-- C13, amended: at process start the cached status is `STA_NOINIT`, and
`SD_DMA_status` called before any `SD_DMA_initialize` returns `STA_NOINIT`
exactly when the card state that it samples is not transfer-ready; it returns
0 when the hardware already reports transfer-ready. -/
theorem C13_status_before_initialize (hw : Hw) (disk : Nat → Mem) :
    (World.boot disk).Stat = STA_NOINIT ∧
    ((SD_DMA_status hw (World.boot disk)).1 = STA_NOINIT ↔
      hw.cardStateAt 0 ≠ HAL_SD_CARD_TRANSFER) ∧
    ((SD_DMA_status hw (World.boot disk)).1 = 0 ↔
      hw.cardStateAt 0 = HAL_SD_CARD_TRANSFER) := by
  unfold SD_DMA_status SD_check_status HAL_SD_GetCardState World.boot
  by_cases hc : hw.cardStateAt 0 = HAL_SD_CARD_TRANSFER <;> simp [hc, STA_NOINIT]

/-! ## The calls of a read under a well-behaved driver -/

theorem aligned32_iff (addr : Nat) : aligned32 addr = true ↔ addr % 32 = 0 := by
  have h : addr % 2 ^ 32 &&& 2 ^ 5 - 1 = addr % 2 ^ 32 % 2 ^ 5 :=
    Nat.and_pow_two_sub_one_eq_mod _ 5
  have h2 : addr % 2 ^ 32 % 2 ^ 5 = addr % 32 := by omega
  rw [h2] at h
  simp only [aligned32, u32, beq_iff_eq]
  norm_num at h ⊢
  rw [h]

theorem pollDone_frame (hw : Hw) (w : World) :
    (pollDone hw w).SDQueueID = w.SDQueueID ∧ (pollDone hw w).queue = w.queue ∧
    (pollDone hw w).disk = w.disk ∧ (pollDone hw w).scratch = w.scratch ∧
    (pollDone hw w).nIssue = w.nIssue ∧
    (pollDone hw w).trace = w.trace ++ pollEvents := by
  simp [pollDone, osKernelGetTickCount, HAL_SD_GetCardState, pollEvents]

/-- Under a well-behaved driver the poll ends in `pollDone`. -/
theorem poll_wellBehaved_eq {cfg : Config} {hw : Hw} (hg : WellBehaved cfg hw)
    {fuel : Nat} (hfuel : 1 ≤ fuel) (w : World) :
    waitTransfer hw (osKernelGetTickCount hw w).1 cfg.SD_TIMEOUT fuel
      (osKernelGetTickCount hw w).2 = some (true, pollDone hw w) := by
  obtain ⟨f, rfl⟩ : ∃ f, fuel = f + 1 := ⟨fuel - 1, by omega⟩
  have hc := hg.clock w.nTick
  simp only [waitTransfer, osKernelGetTickCount, HAL_SD_GetCardState, sub32_u32_left,
    sub32_u32_right, hc, hg.ready, if_true, pollDone]

theorem check_wellBehaved_eq {cfg : Config} {hw : Hw} (hg : WellBehaved cfg hw)
    {fuel : Nat} (hfuel : 1 ≤ fuel) (w : World) :
    SD_check_status_with_timeout hw cfg.SD_TIMEOUT fuel w = some (0, pollDone hw w) := by
  simp only [SD_check_status_with_timeout, poll_wellBehaved_eq hg hfuel]

theorem readDMA_wellBehaved_trace {cfg : Config} {hw : Hw} (hg : WellBehaved cfg hw)
    (dst : Region) (blk n : Nat) (buf : Mem) (w : World) (hq : QueueIdle w) :
    (HAL_SD_ReadBlocks_DMA hw dst blk n buf w).2.2.trace =
      w.trace ++ [Ev.readDMA dst blk n, Ev.queuePut READ_CPLT_MSG 0 0] := by
  obtain ⟨hid, hqe⟩ := hq
  obtain ⟨q, hq⟩ := Option.ne_none_iff_exists'.mp hid
  cases dst <;>
    simp [HAL_SD_ReadBlocks_DMA, hg.accepts, hg.posts, raiseIrq, HAL_SD_RxCpltCallback,
      osMessageQueuePut, hq, hqe, QUEUE_SIZE]

theorem queueGet_trace (timeout event : Nat) (w : World) :
    (osMessageQueueGet timeout event w).2.2.trace = w.trace ++ [Ev.queueGet timeout] := by
  unfold osMessageQueueGet
  cases h : w.SDQueueID with
  | none => simp [h]
  | some q =>
    cases hq : w.queue with
    | nil => by_cases ht : timeout = 0 <;> simp [h, hq, ht]
    | cons a rest => simp [h, hq]

/-- The wait and the poll of a slow-path sub-request under a well-behaved
driver, with the calls made. -/
theorem slowWait_wellBehaved_trace {cfg : Config} {hw : Hw} (hg : WellBehaved cfg hw)
    {fuel : Nat} (hfuel : 1 ≤ fuel) (expected event : Nat) (w : World)
    (hid : w.SDQueueID ≠ none) (hqe : w.queue = [expected]) :
    ∃ w1, slowWait cfg hw fuel expected event w = some (expected, w1) ∧
      QueueIdle w1 ∧ w1.disk = w.disk ∧ w1.scratch = w.scratch ∧
      w1.trace = w.trace ++ [Ev.queueGet cfg.SD_TIMEOUT] ++ pollEvents := by
  obtain ⟨h1, h2, h3, h4, h5⟩ := queueGet_posted cfg.SD_TIMEOUT event expected w hid hqe
  obtain ⟨f1, f2, f3, f4, -, f6⟩ :=
    pollDone_frame hw (osMessageQueueGet cfg.SD_TIMEOUT event w).2.2
  refine ⟨pollDone hw (osMessageQueueGet cfg.SD_TIMEOUT event w).2.2, ?_, ⟨?_, ?_⟩, ?_, ?_, ?_⟩
  · simp only [slowWait, h1, h2, and_self, if_true, poll_wellBehaved_eq hg hfuel]
  · rw [f1]; exact h3.1
  · rw [f2]; exact h3.2
  · rw [f3, h4]
  · rw [f4, h5]
  · rw [f6, queueGet_trace]

/-- The calls of the slow-path loop of `SD_DMA_read` under a well-behaved
driver. -/
theorem read_slow_trace {cfg : Config} {hw : Hw} (hg : WellBehaved cfg hw)
    {fuel : Nat} (hfuel : 1 ≤ fuel) :
    ∀ (n i : Nat) (ret : Option HAL_Status) (event sector off : Nat) (buf : Mem)
      (w : World), QueueIdle w → sector + n ≤ 2 ^ 32 →
      ∃ r, SD_DMA_read_slow cfg hw fuel n i ret event sector off buf w = some r ∧
        r.2.2.2.trace = w.trace ++ slowReadEvents cfg sector n := by
  intro n
  induction n with
  | zero =>
    intro i ret event sector off buf w _ _
    exact ⟨(i, ret, buf, w), by simp [SD_DMA_read_slow], by simp [slowReadEvents]⟩
  | succ n ih =>
    intro i ret event sector off buf w hq hsec
    have hu : u32 sector = sector := u32_of_lt (by omega)
    obtain ⟨d1, d2, d3, d4, -, -⟩ := readScratch_wellBehaved hg sector 1 buf w hq
    have dt := readDMA_wellBehaved_trace hg Region.scratch sector 1 buf w hq
    obtain ⟨w1, hw1, hq1, -, -, ht1⟩ :=
      slowWait_wellBehaved_trace hg hfuel READ_CPLT_MSG event
        (HAL_SD_ReadBlocks_DMA hw Region.scratch sector 1 buf w).2.2
        (by rw [d3]; exact hq.1) d4
    obtain ⟨w2, hw2, hq2, ht2⟩ : ∃ w2 : World,
        w2 = (if cfg.ENABLE_SD_DMA_CACHE_MAINTENANCE then
            SCB_InvalidateDCache_by_Addr Region.scratch BLOCKSIZE w1 else w1) ∧
        QueueIdle w2 ∧
        w2.trace = w.trace ++ readRequestEvents cfg Region.scratch sector 1 BLOCKSIZE := by
      refine ⟨_, rfl, ?_, ?_⟩
      · cases cfg.ENABLE_SD_DMA_CACHE_MAINTENANCE <;>
          simpa [SCB_InvalidateDCache_by_Addr, QueueIdle] using hq1
      · cases hcm : cfg.ENABLE_SD_DMA_CACHE_MAINTENANCE <;>
          simp [SCB_InvalidateDCache_by_Addr, ht1, dt, readRequestEvents, hcm]
    obtain ⟨r, hr, htr⟩ :=
      ih (i + 1) (some HAL_Status.HAL_OK) READ_CPLT_MSG (sector + 1) (off + BLOCKSIZE)
        (memcpy buf off w2.scratch 0 BLOCKSIZE) w2 hq2 (by omega)
    refine ⟨r, ?_, ?_⟩
    · rw [SD_DMA_read_slow]
      simp only [hu, d1, d2, if_true, hw1, ← hw2, hr]
    · rw [htr, ht2, slowReadEvents, List.append_assoc]

/-- The calls of `SD_DMA_read` on the slow path under a well-behaved driver. -/
theorem read_trace_slow {cfg : Config} {hw : Hw} (hg : WellBehaved cfg hw)
    {fuel : Nat} (hfuel : 1 ≤ fuel) (addr : Nat) (buf : Mem) (s count : Nat) (w : World)
    (hq : QueueIdle w) (hrange : s + count ≤ 2 ^ 32) (hal : aligned32 addr = false) :
    ∃ r, SD_DMA_read cfg hw fuel addr buf s count w = some r ∧
      r.2.2.trace = w.trace ++ pollEvents ++ slowReadEvents cfg s count := by
  obtain ⟨f1, f2, -, -, -, f6⟩ := pollDone_frame hw w
  have hq0 : QueueIdle (pollDone hw w) := ⟨by rw [f1]; exact hq.1, by rw [f2]; exact hq.2⟩
  obtain ⟨r, hr, htr⟩ :=
    read_slow_trace hg hfuel count 0 none 0 s 0 buf (pollDone hw w) hq0 hrange
  obtain ⟨i, ret, b1, w2⟩ := r
  rw [f6] at htr
  by_cases hfin : i = count ∧ ret = some HAL_Status.HAL_OK
  · exact ⟨(DRESULT.RES_OK, b1, w2),
      by simp [SD_DMA_read, check_wellBehaved_eq hg hfuel, hal, hr, hfin], htr⟩
  · exact ⟨(DRESULT.RES_ERROR, b1, w2),
      by simp [SD_DMA_read, check_wellBehaved_eq hg hfuel, hal, hr, hfin], htr⟩

/-- The calls of `SD_DMA_read` on the fast path under a well-behaved driver. -/
theorem read_trace_fast {cfg : Config} {hw : Hw} (hg : WellBehaved cfg hw)
    {fuel : Nat} (hfuel : 1 ≤ fuel) (addr : Nat) (buf : Mem) (s count : Nat) (w : World)
    (hq : QueueIdle w) (hal : aligned32 addr = true) :
    ∃ r, SD_DMA_read cfg hw fuel addr buf s count w = some r ∧
      r.2.2.trace = w.trace ++ pollEvents ++
        readRequestEvents cfg (Region.caller addr) (u32 s) (u32 count)
          (u32 (count * BLOCKSIZE)) := by
  obtain ⟨f1, f2, -, -, -, f6⟩ := pollDone_frame hw w
  have hq0 : QueueIdle (pollDone hw w) := ⟨by rw [f1]; exact hq.1, by rw [f2]; exact hq.2⟩
  obtain ⟨d1, d2, d3, d4, -⟩ :=
    readCaller_wellBehaved hg addr (u32 s) (u32 count) buf (pollDone hw w) hq0
  have dt := readDMA_wellBehaved_trace hg (Region.caller addr) (u32 s) (u32 count) buf
    (pollDone hw w) hq0
  obtain ⟨g1, g2, -, -, -⟩ := queueGet_posted cfg.SD_TIMEOUT 0 READ_CPLT_MSG
    (HAL_SD_ReadBlocks_DMA hw (Region.caller addr) (u32 s) (u32 count) buf
      (pollDone hw w)).2.2
    (by rw [d3]; exact hq0.1) d4
  have gt := queueGet_trace cfg.SD_TIMEOUT 0
    (HAL_SD_ReadBlocks_DMA hw (Region.caller addr) (u32 s) (u32 count) buf
      (pollDone hw w)).2.2
  obtain ⟨-, -, -, -, -, p6⟩ := pollDone_frame hw
    (osMessageQueueGet cfg.SD_TIMEOUT 0
      (HAL_SD_ReadBlocks_DMA hw (Region.caller addr) (u32 s) (u32 count) buf
        (pollDone hw w)).2.2).2.2
  refine ⟨(DRESULT.RES_OK,
    (HAL_SD_ReadBlocks_DMA hw (Region.caller addr) (u32 s) (u32 count) buf
      (pollDone hw w)).2.1,
    if cfg.ENABLE_SD_DMA_CACHE_MAINTENANCE then
      SCB_InvalidateDCache_by_Addr (Region.caller addr) (u32 (count * BLOCKSIZE))
        (pollDone hw (osMessageQueueGet cfg.SD_TIMEOUT 0
          (HAL_SD_ReadBlocks_DMA hw (Region.caller addr) (u32 s) (u32 count) buf
            (pollDone hw w)).2.2).2.2)
    else
      pollDone hw (osMessageQueueGet cfg.SD_TIMEOUT 0
        (HAL_SD_ReadBlocks_DMA hw (Region.caller addr) (u32 s) (u32 count) buf
          (pollDone hw w)).2.2).2.2), ?_, ?_⟩
  · simp only [SD_DMA_read, check_wellBehaved_eq hg hfuel, hal, if_true, SD_DMA_read_fast,
      d1, g1, g2, and_self, poll_wellBehaved_eq hg hfuel]
    simp
  · cases hcm : cfg.ENABLE_SD_DMA_CACHE_MAINTENANCE <;>
      simp [SCB_InvalidateDCache_by_Addr, p6, gt, dt, f6, readRequestEvents, hcm]

theorem dmaEvents_append (a b : List Ev) : dmaEvents (a ++ b) = dmaEvents a ++ dmaEvents b := by
  simp [dmaEvents]

theorem readRequestEvents_counts (cfg : Config) (dst : Region) (blk n len : Nat) :
    dmaEvents (readRequestEvents cfg dst blk n len) = [Ev.readDMA dst blk n] ∧
    countQueueGet (readRequestEvents cfg dst blk n len) = 1 ∧
    countCardState (readRequestEvents cfg dst blk n len) = 1 := by
  cases hcm : cfg.ENABLE_SD_DMA_CACHE_MAINTENANCE <;>
    simp [readRequestEvents, pollEvents, dmaEvents, countQueueGet, countCardState, hcm]

theorem slowReadEvents_counts (cfg : Config) :
    ∀ (n s : Nat),
      dmaEvents (slowReadEvents cfg s n) =
        (List.range n).map (fun i => Ev.readDMA Region.scratch (s + i) 1) ∧
      countQueueGet (slowReadEvents cfg s n) = n ∧
      countCardState (slowReadEvents cfg s n) = n := by
  intro n
  induction n with
  | zero => intro s; simp [slowReadEvents, dmaEvents, countQueueGet, countCardState]
  | succ n ih =>
    intro s
    obtain ⟨a1, a2, a3⟩ := readRequestEvents_counts cfg Region.scratch s 1 BLOCKSIZE
    obtain ⟨b1, b2, b3⟩ := ih (s + 1)
    refine ⟨?_, ?_, ?_⟩
    · rw [slowReadEvents, dmaEvents_append, a1, b1, List.range_succ_eq_map]
      simp only [List.map_cons, List.map_map, Nat.add_zero, List.singleton_append,
        List.cons.injEq, true_and]
      apply List.map_congr_left
      intro i _
      simp only [Function.comp_apply, Nat.succ_eq_add_one]
      congr 1
      omega
    · rw [slowReadEvents, countQueueGet_append, a2, b2]; omega
    · rw [slowReadEvents, countCardState_append, a3, b3]; omega

/-- C14: for `SD_DMA_read` of `count ≥ 1` sectors at sector `s` against a
well-behaved driver, from the same state, into two caller buffers with any
contents `bufS0` and `bufF0`: with a buffer address that is not a multiple of
32 the calls made after the initial readiness probe are `count` times a
single-sector DMA read into the scratch buffer (sectors `s`, `s + 1`, ...,
`s + count - 1`), each followed by one wait on the completion queue and one
readiness poll; with an address that is a multiple of 32 they are one DMA read
of `count` sectors into the caller's buffer followed by one wait and one poll;
both calls return `RES_OK`; after either call the first `count * BLOCKSIZE`
bytes of the caller's buffer are the bytes of the sectors `s`, ...,
`s + count - 1` of the medium and the bytes beyond are as before the call; so
the two buffers hold identical bytes over the transferred region, and
identical bytes everywhere when they started with identical contents. -/
theorem C14_slow_and_fast_read_agree (cfg : Config) (hw : Hw) (fuel : Nat)
    (addrS addrF : Nat) (bufS0 bufF0 : Mem) (s count : Nat) (w : World)
    (hg : WellBehaved cfg hw) (hfuel : 1 ≤ fuel) (hq : QueueIdle w)
    (hc1 : 1 ≤ count) (hc32 : count < 2 ^ 32) (hrange : s + count ≤ 2 ^ 32)
    (hS : addrS % 32 ≠ 0) (hF : addrF % 32 = 0) :
    ∃ bufS wS bufF wF,
      SD_DMA_read cfg hw fuel addrS bufS0 s count w = some (DRESULT.RES_OK, bufS, wS) ∧
      SD_DMA_read cfg hw fuel addrF bufF0 s count w = some (DRESULT.RES_OK, bufF, wF) ∧
      wS.trace = w.trace ++ pollEvents ++ slowReadEvents cfg s count ∧
      wF.trace = w.trace ++ pollEvents ++
        readRequestEvents cfg (Region.caller addrF) s count (u32 (count * BLOCKSIZE)) ∧
      dmaEvents (slowReadEvents cfg s count) =
        (List.range count).map (fun i => Ev.readDMA Region.scratch (s + i) 1) ∧
      countQueueGet (slowReadEvents cfg s count) = count ∧
      countCardState (slowReadEvents cfg s count) = count ∧
      dmaEvents (readRequestEvents cfg (Region.caller addrF) s count
        (u32 (count * BLOCKSIZE))) = [Ev.readDMA (Region.caller addrF) s count] ∧
      countQueueGet (readRequestEvents cfg (Region.caller addrF) s count
        (u32 (count * BLOCKSIZE))) = 1 ∧
      countCardState (readRequestEvents cfg (Region.caller addrF) s count
        (u32 (count * BLOCKSIZE))) = 1 ∧
      (∀ j, j < count * BLOCKSIZE →
        bufS j = w.disk (s + j / BLOCKSIZE) (j % BLOCKSIZE) ∧
        bufF j = w.disk (s + j / BLOCKSIZE) (j % BLOCKSIZE)) ∧
      (∀ j, count * BLOCKSIZE ≤ j → bufS j = bufS0 j ∧ bufF j = bufF0 j) ∧
      (∀ j, j < count * BLOCKSIZE → bufS j = bufF j) ∧
      ((∀ j, bufS0 j = bufF0 j) → ∀ j, bufS j = bufF j) ∧
      wS.disk = w.disk ∧ wF.disk = w.disk := by
  have halS : aligned32 addrS = false := by
    cases h : aligned32 addrS
    · rfl
    · exact absurd ((aligned32_iff addrS).mp h) hS
  have halF : aligned32 addrF = true := (aligned32_iff addrF).mpr hF
  have hus : u32 s = s := u32_of_lt (by omega)
  have huc : u32 count = count := u32_of_lt hc32
  obtain ⟨bufS, wS, hrS, -, hdS, hbS⟩ :=
    read_wellBehaved hg hfuel addrS bufS0 s count w hq hc1 hc32 hrange
  obtain ⟨bufF, wF, hrF, -, hdF, hbF⟩ :=
    read_wellBehaved hg hfuel addrF bufF0 s count w hq hc1 hc32 hrange
  obtain ⟨rS, hS1, hS2⟩ := read_trace_slow hg hfuel addrS bufS0 s count w hq hrange halS
  obtain ⟨rF, hF1, hF2⟩ := read_trace_fast hg hfuel addrF bufF0 s count w hq halF
  rw [hrS, Option.some.injEq] at hS1
  rw [hrF, Option.some.injEq] at hF1
  subst hS1
  subst hF1
  rw [hus, huc] at hF2
  obtain ⟨c1, c2, c3⟩ := slowReadEvents_counts cfg count s
  obtain ⟨e1, e2, e3⟩ := readRequestEvents_counts cfg (Region.caller addrF) s count
    (u32 (count * BLOCKSIZE))
  refine ⟨bufS, wS, bufF, wF, hrS, hrF, hS2, hF2, c1, c2, c3, e1, e2, e3, ?_, ?_, ?_, ?_,
    hdS, hdF⟩
  · intro j hj
    rw [hbS j, hbF j, if_pos hj, if_pos hj]
    exact ⟨rfl, rfl⟩
  · intro j hj
    have hn : ¬ j < count * BLOCKSIZE := by omega
    rw [hbS j, hbF j, if_neg hn, if_neg hn]
    exact ⟨rfl, rfl⟩
  · intro j hj
    rw [hbS j, hbF j, if_pos hj, if_pos hj]
  · intro h0 j
    rw [hbS j, hbF j, h0 j]

/-- C14, at the input of the specification: sector 100, four sectors, an
8-byte-aligned buffer (address 8) filled with zeros against a 32-byte-aligned
one (address 32) filled with 255, on the card of 8192 sectors of 512 bytes
whose byte `o` of sector `sec` is `(sec + o) % 256`. -/
theorem C14_slow_and_fast_read_agree_witness :
    ∃ bufS wS bufF wF,
      SD_DMA_read templateConfig goodHw 1 8 (fun _ => 0) 100 4
        (readyWorld (fun sec o => (sec + o) % 256)) = some (DRESULT.RES_OK, bufS, wS) ∧
      SD_DMA_read templateConfig goodHw 1 32 (fun _ => 255) 100 4
        (readyWorld (fun sec o => (sec + o) % 256)) = some (DRESULT.RES_OK, bufF, wF) ∧
      wS.trace = (readyWorld (fun sec o => (sec + o) % 256)).trace ++ pollEvents ++
        slowReadEvents templateConfig 100 4 ∧
      wF.trace = (readyWorld (fun sec o => (sec + o) % 256)).trace ++ pollEvents ++
        readRequestEvents templateConfig (Region.caller 32) 100 4 (u32 (4 * BLOCKSIZE)) ∧
      dmaEvents (slowReadEvents templateConfig 100 4) =
        (List.range 4).map (fun i => Ev.readDMA Region.scratch (100 + i) 1) ∧
      countQueueGet (slowReadEvents templateConfig 100 4) = 4 ∧
      countCardState (slowReadEvents templateConfig 100 4) = 4 ∧
      dmaEvents (readRequestEvents templateConfig (Region.caller 32) 100 4
        (u32 (4 * BLOCKSIZE))) = [Ev.readDMA (Region.caller 32) 100 4] ∧
      countQueueGet (readRequestEvents templateConfig (Region.caller 32) 100 4
        (u32 (4 * BLOCKSIZE))) = 1 ∧
      countCardState (readRequestEvents templateConfig (Region.caller 32) 100 4
        (u32 (4 * BLOCKSIZE))) = 1 ∧
      (∀ j, j < 4 * BLOCKSIZE →
        bufS j = (readyWorld (fun sec o => (sec + o) % 256)).disk
          (100 + j / BLOCKSIZE) (j % BLOCKSIZE) ∧
        bufF j = (readyWorld (fun sec o => (sec + o) % 256)).disk
          (100 + j / BLOCKSIZE) (j % BLOCKSIZE)) ∧
      (∀ j, 4 * BLOCKSIZE ≤ j → bufS j = (fun _ => 0) j ∧ bufF j = (fun _ => 255) j) ∧
      (∀ j, j < 4 * BLOCKSIZE → bufS j = bufF j) ∧
      ((∀ j, (fun _ => 0 : Mem) j = (fun _ => 255 : Mem) j) → ∀ j, bufS j = bufF j) ∧
      wS.disk = (readyWorld (fun sec o => (sec + o) % 256)).disk ∧
      wF.disk = (readyWorld (fun sec o => (sec + o) % 256)).disk :=
  C14_slow_and_fast_read_agree templateConfig goodHw 1 8 32 (fun _ => 0) (fun _ => 255) 100 4
    (readyWorld (fun sec o => (sec + o) % 256)) goodHw_wellBehaved (by decide)
    ⟨by simp [readyWorld, World.boot], rfl⟩ (by decide) (by decide) (by decide)
    (by decide) (by decide)

/-! ## The readiness poll -/

/-- The elapsed-time test is exact across a wrap of the 32-bit tick counter:
for true tick values `b ≤ a` less than `2^32` apart, the wrapping difference
of their 32-bit readings is `a - b`. -/
theorem sub32_exact (a b : Nat) (hab : b ≤ a) (hlt : a - b < 2 ^ 32) :
    sub32 a b = a - b := by
  unfold sub32 u32
  omega

/-- Outcome of the busy-wait loop when the `K`-th tick reading from the loop's
start is past the deadline: the loop ends within `K + 1` evaluations of its
condition, at the first iteration `k` that is past the deadline (result
`false`, `k` samples taken) or whose sample reads transfer-ready (result
`true`, `k + 1` samples taken). -/
theorem waitTransfer_outcome (hw : Hw) (timer timeout : Nat) :
    ∀ (K fuel : Nat) (w : World),
      ¬ (sub32 (hw.tickAt (w.nTick + K)) timer < u32 timeout) → K < fuel →
      ∃ b w1 k, waitTransfer hw timer timeout fuel w = some (b, w1) ∧ k ≤ K ∧
        (∀ j, j < k → sub32 (hw.tickAt (w.nTick + j)) timer < u32 timeout ∧
          hw.cardStateAt (w.nState + j) ≠ HAL_SD_CARD_TRANSFER) ∧
        w1.nTick = w.nTick + k + 1 ∧
        ((b = true ∧ sub32 (hw.tickAt (w.nTick + k)) timer < u32 timeout ∧
            hw.cardStateAt (w.nState + k) = HAL_SD_CARD_TRANSFER ∧
            w1.nState = w.nState + k + 1) ∨
          (b = false ∧ ¬ (sub32 (hw.tickAt (w.nTick + k)) timer < u32 timeout) ∧
            w1.nState = w.nState + k)) := by
  intro K
  induction K with
  | zero =>
    intro fuel w hK hf
    obtain ⟨f, rfl⟩ : ∃ f, fuel = f + 1 := ⟨fuel - 1, by omega⟩
    rw [Nat.add_zero] at hK
    refine ⟨false, (osKernelGetTickCount hw w).2, 0, ?_, le_refl 0, ?_, ?_, Or.inr ⟨rfl, ?_, ?_⟩⟩
    · simp [waitTransfer, osKernelGetTickCount, sub32_u32_left, hK]
    · intro j hj; omega
    · simp [osKernelGetTickCount]
    · simpa using hK
    · simp [osKernelGetTickCount]
  | succ K ih =>
    intro fuel w hK hf
    obtain ⟨f, rfl⟩ : ∃ f, fuel = f + 1 := ⟨fuel - 1, by omega⟩
    by_cases h0 : sub32 (hw.tickAt w.nTick) timer < u32 timeout
    · by_cases hr : hw.cardStateAt w.nState = HAL_SD_CARD_TRANSFER
      · refine ⟨true, (HAL_SD_GetCardState hw (osKernelGetTickCount hw w).2).2, 0, ?_,
          Nat.zero_le _, ?_, ?_, Or.inl ⟨rfl, ?_, ?_, ?_⟩⟩
        · simp [waitTransfer, osKernelGetTickCount, HAL_SD_GetCardState, sub32_u32_left,
            h0, hr]
        · intro j hj; omega
        · simp [osKernelGetTickCount, HAL_SD_GetCardState]
        · simpa using h0
        · simpa using hr
        · simp [osKernelGetTickCount, HAL_SD_GetCardState]
      · obtain ⟨b, w1, k, e, hk, hall, ht, hcase⟩ :=
          ih f (HAL_SD_GetCardState hw (osKernelGetTickCount hw w).2).2
            (by
              have : (HAL_SD_GetCardState hw (osKernelGetTickCount hw w).2).2.nTick + K
                  = w.nTick + (K + 1) := by
                simp [osKernelGetTickCount, HAL_SD_GetCardState]; omega
              rw [this]; exact hK)
            (by omega)
        have e1 : (HAL_SD_GetCardState hw (osKernelGetTickCount hw w).2).2.nTick
            = w.nTick + 1 := by simp [osKernelGetTickCount, HAL_SD_GetCardState]
        have e2 : (HAL_SD_GetCardState hw (osKernelGetTickCount hw w).2).2.nState
            = w.nState + 1 := by simp [osKernelGetTickCount, HAL_SD_GetCardState]
        rw [e1, e2] at hall hcase
        rw [e1] at ht
        have a1 : ∀ x, w.nTick + 1 + x = w.nTick + (x + 1) := by intro x; omega
        have a2 : ∀ x, w.nState + 1 + x = w.nState + (x + 1) := by intro x; omega
        refine ⟨b, w1, k + 1, ?_, by omega, ?_, by omega, ?_⟩
        · rw [waitTransfer]
          simp only [osKernelGetTickCount, HAL_SD_GetCardState, sub32_u32_left, h0, hr,
            if_true, if_false]
          simpa [osKernelGetTickCount, HAL_SD_GetCardState] using e
        · intro j hj
          cases j with
          | zero => exact ⟨by simpa using h0, by simpa using hr⟩
          | succ j =>
            have := hall j (by omega)
            rw [a1, a2] at this
            exact this
        · rcases hcase with ⟨hb, h1, h2, h3⟩ | ⟨hb, h1, h3⟩
          · rw [a1] at h1
            rw [a2] at h2
            exact Or.inl ⟨hb, h1, h2, by omega⟩
          · rw [a1] at h1
            exact Or.inr ⟨hb, h1, by omega⟩
    · refine ⟨false, (osKernelGetTickCount hw w).2, 0, ?_, Nat.zero_le _, ?_, ?_,
        Or.inr ⟨rfl, ?_, ?_⟩⟩
      · simp [waitTransfer, osKernelGetTickCount, sub32_u32_left, h0]
      · intro j hj; omega
      · simp [osKernelGetTickCount]
      · simpa using h0
      · simp [osKernelGetTickCount]

/-- C18: `SD_check_status_with_timeout(timeout)`, when some tick reading of
its loop is `timeout` ticks or more after the start (reading number `K` of the
loop, with fuel for it), terminates.  It returns 0 exactly when some card-state
sample taken while every loop condition up to it held,
`(now - start) mod 2^32 < timeout`, reads transfer-ready, and then it returns
at the first such sample; it returns -1 otherwise, at the first tick reading
past the deadline; with `timeout = 0` it takes no sample.  The elapsed-time
test compares the true elapsed time also when the 32-bit counter has wrapped
between the two readings. -/
theorem C18_check_status_with_timeout (hw : Hw) (timeout fuel K : Nat) (w : World)
    (hK : ¬ withinDeadline hw timeout w.nTick K) (hfuel : K < fuel) :
    ∃ r w1, SD_check_status_with_timeout hw timeout fuel w = some (r, w1) ∧
      (r = 0 ↔ ∃ k, (∀ j, j ≤ k → withinDeadline hw timeout w.nTick j) ∧
        sampleReady hw w.nState k) ∧
      (r = -1 ↔ ¬ ∃ k, (∀ j, j ≤ k → withinDeadline hw timeout w.nTick j) ∧
        sampleReady hw w.nState k) ∧
      (∃ k, k ≤ K ∧
        (∀ j, j < k → withinDeadline hw timeout w.nTick j ∧ ¬ sampleReady hw w.nState j) ∧
        ((r = 0 ∧ withinDeadline hw timeout w.nTick k ∧ sampleReady hw w.nState k ∧
            w1.nState = w.nState + (k + 1)) ∨
          (r = -1 ∧ ¬ withinDeadline hw timeout w.nTick k ∧
            w1.nState = w.nState + k))) ∧
      (u32 timeout = 0 → r = -1 ∧ w1.nState = w.nState) ∧
      (∀ n0 k, hw.tickAt n0 ≤ hw.tickAt (n0 + 1 + k) →
        hw.tickAt (n0 + 1 + k) - hw.tickAt n0 < 2 ^ 32 →
        (withinDeadline hw timeout n0 k ↔
          hw.tickAt (n0 + 1 + k) - hw.tickAt n0 < u32 timeout)) := by
  have hwrap : ∀ n0 k, hw.tickAt n0 ≤ hw.tickAt (n0 + 1 + k) →
      hw.tickAt (n0 + 1 + k) - hw.tickAt n0 < 2 ^ 32 →
      (withinDeadline hw timeout n0 k ↔
        hw.tickAt (n0 + 1 + k) - hw.tickAt n0 < u32 timeout) := by
    intro n0 k h1 h2
    unfold withinDeadline
    rw [sub32_exact _ _ h1 h2]
  have e1 : (osKernelGetTickCount hw w).2.nTick = w.nTick + 1 := by
    simp [osKernelGetTickCount]
  have e2 : (osKernelGetTickCount hw w).2.nState = w.nState := by
    simp [osKernelGetTickCount]
  have e3 : (osKernelGetTickCount hw w).1 = u32 (hw.tickAt w.nTick) := rfl
  obtain ⟨b, w1, k, e, hk, hall, -, hcase⟩ :=
    waitTransfer_outcome hw (osKernelGetTickCount hw w).1 timeout K fuel
      (osKernelGetTickCount hw w).2
      (by rw [e1, e3, sub32_u32_right]; exact hK) hfuel
  rw [e1, e2, e3] at hall hcase
  simp only [sub32_u32_right] at hall hcase
  have hall' : ∀ j, j < k →
      withinDeadline hw timeout w.nTick j ∧ ¬ sampleReady hw w.nState j := hall
  rcases hcase with ⟨hb, h1, h2, h3⟩ | ⟨hb, h1, h3⟩
  · -- a sample read transfer-ready
    subst hb
    have hex : ∃ k, (∀ j, j ≤ k → withinDeadline hw timeout w.nTick j) ∧
        sampleReady hw w.nState k := by
      refine ⟨k, ?_, h2⟩
      intro j hj
      rcases Nat.lt_or_eq_of_le hj with h | h
      · exact (hall' j h).1
      · rw [h]; exact h1
    refine ⟨0, w1, by simp only [SD_check_status_with_timeout, e], ?_, ?_, ?_, ?_, hwrap⟩
    · exact ⟨fun _ => hex, fun _ => rfl⟩
    · exact ⟨fun h => absurd h (by decide), fun h => absurd hex h⟩
    · exact ⟨k, hk, hall', Or.inl ⟨rfl, h1, h2, by omega⟩⟩
    · intro h0
      have : sub32 (hw.tickAt (w.nTick + 1 + k)) (hw.tickAt w.nTick) < 0 := by
        rw [← h0]; exact h1
      omega
  · -- the deadline elapsed first
    subst hb
    have hnex : ¬ ∃ k, (∀ j, j ≤ k → withinDeadline hw timeout w.nTick j) ∧
        sampleReady hw w.nState k := by
      rintro ⟨k', hw', hr'⟩
      rcases Nat.lt_or_ge k' k with h | h
      · exact (hall' k' h).2 hr'
      · exact h1 (hw' k h)
    refine ⟨-1, w1, by simp only [SD_check_status_with_timeout, e], ?_, ?_, ?_, ?_, hwrap⟩
    · exact ⟨fun h => absurd h (by decide), fun h => absurd h hnex⟩
    · exact ⟨fun _ => hnex, fun _ => rfl⟩
    · exact ⟨k, hk, hall', Or.inr ⟨rfl, h1, h3⟩⟩
    · intro h0
      refine ⟨rfl, ?_⟩
      cases k with
      | zero => simpa using h3
      | succ k' =>
        have := (hall' 0 (by omega)).1
        unfold withinDeadline at this
        rw [h0] at this
        omega

/-- C18, at a concrete input: a card that is never ready and a tick counter
that advances by 10000 per reading, with the timeout 30000: the third reading
of the loop is past the deadline. -/
theorem C18_check_status_with_timeout_witness :
    ¬ withinDeadline busyHw 30000 (readyWorld (fun _ _ => 0)).nTick 2 ∧
    ∃ r w1, SD_check_status_with_timeout busyHw 30000 5 (readyWorld (fun _ _ => 0))
        = some (r, w1) ∧
      (r = -1 ↔ ¬ ∃ k,
        (∀ j, j ≤ k → withinDeadline busyHw 30000 (readyWorld (fun _ _ => 0)).nTick j) ∧
        sampleReady busyHw (readyWorld (fun _ _ => 0)).nState k) :=
  ⟨by unfold withinDeadline; decide,
    (C18_check_status_with_timeout busyHw 30000 5 2 (readyWorld (fun _ _ => 0))
      (by unfold withinDeadline; decide) (by decide)).imp
      fun _ h => h.imp fun _ h2 => ⟨h2.1, h2.2.2.1⟩⟩

/-! ## The fast path -/

/-- The wait on the completion queue delivers an event exactly when the queue
exists and holds one. -/
theorem queueGet_ok_iff (timeout event : Nat) (w : World) :
    (osMessageQueueGet timeout event w).1 = osStatus.osOK ↔
      w.SDQueueID ≠ none ∧ w.queue ≠ [] := by
  unfold osMessageQueueGet
  cases h : w.SDQueueID with
  | none => simp [h]
  | some q =>
    cases hq : w.queue with
    | nil => by_cases ht : timeout = 0 <;> simp [h, hq, ht]
    | cons a rest => simp [h, hq]

/-- The result of the fast path of `SD_DMA_read` in terms of its three steps. -/
theorem read_fast_result (cfg : Config) (hw : Hw) (fuel addr : Nat) (buf : Mem)
    (s count : Nat) (w : World) :
    ((SD_DMA_read_fast cfg hw fuel addr buf s count w).map (fun r => r.1)
        = some DRESULT.RES_OK ↔
      (fastReadIssue hw addr buf s count w).1 = HAL_Status.HAL_OK ∧
      (fastReadWait cfg hw addr buf s count w).1 = osStatus.osOK ∧
      (fastReadWait cfg hw addr buf s count w).2.1 = READ_CPLT_MSG ∧
      (fastReadPoll cfg hw fuel addr buf s count w).map (fun r => r.1) = some true) ∧
    ((SD_DMA_read_fast cfg hw fuel addr buf s count w).map (fun r => r.1)
        = some DRESULT.RES_ERROR ↔
      (fastReadIssue hw addr buf s count w).1 ≠ HAL_Status.HAL_OK ∨
      (fastReadWait cfg hw addr buf s count w).1 ≠ osStatus.osOK ∨
      (fastReadWait cfg hw addr buf s count w).2.1 ≠ READ_CPLT_MSG ∨
      (fastReadPoll cfg hw fuel addr buf s count w).map (fun r => r.1) = some false) := by
  unfold SD_DMA_read_fast fastReadPoll fastReadWait fastReadIssue
  by_cases h1 : (HAL_SD_ReadBlocks_DMA hw (Region.caller addr) (u32 s) (u32 count)
      buf w).1 = HAL_Status.HAL_OK
  · by_cases h2 : (osMessageQueueGet cfg.SD_TIMEOUT 0
        (HAL_SD_ReadBlocks_DMA hw (Region.caller addr) (u32 s) (u32 count)
          buf w).2.2).1 = osStatus.osOK
    · by_cases h3 : (osMessageQueueGet cfg.SD_TIMEOUT 0
          (HAL_SD_ReadBlocks_DMA hw (Region.caller addr) (u32 s) (u32 count)
            buf w).2.2).2.1 = READ_CPLT_MSG
      · cases hp : waitTransfer hw
            (osKernelGetTickCount hw (osMessageQueueGet cfg.SD_TIMEOUT 0
              (HAL_SD_ReadBlocks_DMA hw (Region.caller addr) (u32 s) (u32 count)
                buf w).2.2).2.2).1
            cfg.SD_TIMEOUT fuel
            (osKernelGetTickCount hw (osMessageQueueGet cfg.SD_TIMEOUT 0
              (HAL_SD_ReadBlocks_DMA hw (Region.caller addr) (u32 s) (u32 count)
                buf w).2.2).2.2).2 with
        | none => simp [h1, h2, h3, hp]
        | some p =>
          obtain ⟨b, w1⟩ := p
          cases b <;> simp [h1, h2, h3, hp]
      · simp [h1, h2, h3]
    · simp [h1, h2]
  · simp [h1]

/-- The result of the fast path of `SD_DMA_write` in terms of its three
steps. -/
theorem write_fast_result (cfg : Config) (hw : Hw) (fuel addr : Nat) (buf : Mem)
    (s count : Nat) (w : World) :
    ((SD_DMA_write_fast cfg hw fuel addr buf s count w).map (fun r => r.1)
        = some DRESULT.RES_OK ↔
      (fastWriteIssue cfg hw addr buf s count w).1 = HAL_Status.HAL_OK ∧
      (fastWriteWait cfg hw addr buf s count w).1 = osStatus.osOK ∧
      (fastWriteWait cfg hw addr buf s count w).2.1 = WRITE_CPLT_MSG ∧
      (fastWritePoll cfg hw fuel addr buf s count w).map (fun r => r.1) = some true) ∧
    ((SD_DMA_write_fast cfg hw fuel addr buf s count w).map (fun r => r.1)
        = some DRESULT.RES_ERROR ↔
      (fastWriteIssue cfg hw addr buf s count w).1 ≠ HAL_Status.HAL_OK ∨
      (fastWriteWait cfg hw addr buf s count w).1 ≠ osStatus.osOK ∨
      (fastWriteWait cfg hw addr buf s count w).2.1 ≠ WRITE_CPLT_MSG ∨
      (fastWritePoll cfg hw fuel addr buf s count w).map (fun r => r.1) = some false) := by
  rw [write_fast_unfold]
  unfold fastWritePoll fastWriteWait fastWriteIssue
  by_cases h1 : (HAL_SD_WriteBlocks_DMA hw (Region.caller addr) (u32 s) (u32 count) buf
      (writeFastIssueState cfg addr count w)).1 = HAL_Status.HAL_OK
  · by_cases h2 : (osMessageQueueGet cfg.SD_TIMEOUT 0
        (HAL_SD_WriteBlocks_DMA hw (Region.caller addr) (u32 s) (u32 count) buf
          (writeFastIssueState cfg addr count w)).2).1 = osStatus.osOK
    · by_cases h3 : (osMessageQueueGet cfg.SD_TIMEOUT 0
          (HAL_SD_WriteBlocks_DMA hw (Region.caller addr) (u32 s) (u32 count) buf
            (writeFastIssueState cfg addr count w)).2).2.1 = WRITE_CPLT_MSG
      · cases hp : waitTransfer hw
            (osKernelGetTickCount hw (osMessageQueueGet cfg.SD_TIMEOUT 0
              (HAL_SD_WriteBlocks_DMA hw (Region.caller addr) (u32 s) (u32 count) buf
                (writeFastIssueState cfg addr count w)).2).2.2).1
            cfg.SD_TIMEOUT fuel
            (osKernelGetTickCount hw (osMessageQueueGet cfg.SD_TIMEOUT 0
              (HAL_SD_WriteBlocks_DMA hw (Region.caller addr) (u32 s) (u32 count) buf
                (writeFastIssueState cfg addr count w)).2).2.2).2 with
        | none => simp [h1, h2, h3, hp]
        | some p =>
          obtain ⟨b, w1⟩ := p
          cases b <;> simp [h1, h2, h3, hp]
      · simp [h1, h2, h3]
    · simp [h1, h2]
  · simp [h1]

/-- C15: on the aligned fast path, after a successful initial probe (which
leaves the state `w0`), `SD_DMA_read` returns `RES_OK` if and only if the DMA
issue returned `HAL_OK`, the wait on the completion queue delivered an event
(`osOK`), that event is `READ_CPLT_MSG`, and the readiness poll that follows
observed transfer-ready before its deadline; it returns `RES_ERROR` if and only
if one of the four fails (rejected issue, wait timeout, mismatched event, poll
timeout).  The same holds for `SD_DMA_write` with `WRITE_CPLT_MSG`.  The issue
status is the one the transport driver gives to that request. -/
theorem C15_fast_path_result (cfg : Config) (hw : Hw) (fuel addr : Nat) (buf : Mem)
    (s count : Nat) (w w0 : World) (hal : addr % 32 = 0)
    (hprobe : SD_check_status_with_timeout hw cfg.SD_TIMEOUT fuel w = some (0, w0)) :
    ((SD_DMA_read cfg hw fuel addr buf s count w).map (fun r => r.1)
        = some DRESULT.RES_OK ↔
      (fastReadIssue hw addr buf s count w0).1 = HAL_Status.HAL_OK ∧
      (fastReadWait cfg hw addr buf s count w0).1 = osStatus.osOK ∧
      (fastReadWait cfg hw addr buf s count w0).2.1 = READ_CPLT_MSG ∧
      (fastReadPoll cfg hw fuel addr buf s count w0).map (fun r => r.1) = some true) ∧
    ((SD_DMA_read cfg hw fuel addr buf s count w).map (fun r => r.1)
        = some DRESULT.RES_ERROR ↔
      (fastReadIssue hw addr buf s count w0).1 ≠ HAL_Status.HAL_OK ∨
      (fastReadWait cfg hw addr buf s count w0).1 ≠ osStatus.osOK ∨
      (fastReadWait cfg hw addr buf s count w0).2.1 ≠ READ_CPLT_MSG ∨
      (fastReadPoll cfg hw fuel addr buf s count w0).map (fun r => r.1) = some false) ∧
    ((SD_DMA_write cfg hw fuel addr buf s count w).map (fun r => r.1)
        = some DRESULT.RES_OK ↔
      (fastWriteIssue cfg hw addr buf s count w0).1 = HAL_Status.HAL_OK ∧
      (fastWriteWait cfg hw addr buf s count w0).1 = osStatus.osOK ∧
      (fastWriteWait cfg hw addr buf s count w0).2.1 = WRITE_CPLT_MSG ∧
      (fastWritePoll cfg hw fuel addr buf s count w0).map (fun r => r.1) = some true) ∧
    ((SD_DMA_write cfg hw fuel addr buf s count w).map (fun r => r.1)
        = some DRESULT.RES_ERROR ↔
      (fastWriteIssue cfg hw addr buf s count w0).1 ≠ HAL_Status.HAL_OK ∨
      (fastWriteWait cfg hw addr buf s count w0).1 ≠ osStatus.osOK ∨
      (fastWriteWait cfg hw addr buf s count w0).2.1 ≠ WRITE_CPLT_MSG ∨
      (fastWritePoll cfg hw fuel addr buf s count w0).map (fun r => r.1) = some false) ∧
    (fastReadIssue hw addr buf s count w0).1 = hw.issueAt w0.nIssue ∧
    (fastWriteIssue cfg hw addr buf s count w0).1 = hw.issueAt w0.nIssue := by
  have halr : aligned32 addr = true := (aligned32_iff addr).mpr hal
  have er : SD_DMA_read cfg hw fuel addr buf s count w =
      SD_DMA_read_fast cfg hw fuel addr buf s count w0 := by
    simp [SD_DMA_read, hprobe, halr]
  have ew : SD_DMA_write cfg hw fuel addr buf s count w =
      SD_DMA_write_fast cfg hw fuel addr buf s count w0 := by
    simp [SD_DMA_write, hprobe, halr]
  obtain ⟨r1, r2⟩ := read_fast_result cfg hw fuel addr buf s count w0
  obtain ⟨w1, w2⟩ := write_fast_result cfg hw fuel addr buf s count w0
  rw [er, ew]
  refine ⟨r1, r2, w1, w2, ?_, ?_⟩
  · unfold fastReadIssue HAL_SD_ReadBlocks_DMA
    by_cases h : hw.issueAt w0.nIssue = HAL_Status.HAL_OK <;> simp [h]
  · have hn := (writeFastIssueState_frame cfg addr count w0).1
    unfold fastWriteIssue HAL_SD_WriteBlocks_DMA
    rw [hn]
    by_cases h : hw.issueAt w0.nIssue = HAL_Status.HAL_OK <;> simp [h]

/-- C15, at a concrete input: a card that accepts the request and raises the
completion interrupt of the other direction; the read on the fast path
returns `RES_ERROR` because the event is not `READ_CPLT_MSG`. -/
theorem C15_fast_path_result_witness :
    32 % 32 = 0 ∧
    SD_check_status_with_timeout { goodHw with irqAt := fun _ => Irq.crossed }
      templateConfig.SD_TIMEOUT 1 (readyWorld (fun _ _ => 0)) =
      some (0, pollDone { goodHw with irqAt := fun _ => Irq.crossed }
        (readyWorld (fun _ _ => 0))) ∧
    (fastReadWait templateConfig { goodHw with irqAt := fun _ => Irq.crossed } 32
      (fun _ => 0) 100 2
      (pollDone { goodHw with irqAt := fun _ => Irq.crossed }
        (readyWorld (fun _ _ => 0)))).2.1 ≠ READ_CPLT_MSG ∧
    (SD_DMA_read templateConfig { goodHw with irqAt := fun _ => Irq.crossed } 1 32
      (fun _ => 0) 100 2 (readyWorld (fun _ _ => 0))).map (fun r => r.1)
      = some DRESULT.RES_ERROR :=
  ⟨rfl, rfl, by decide,
    (C15_fast_path_result templateConfig { goodHw with irqAt := fun _ => Irq.crossed } 1 32
      (fun _ => 0) 100 2 (readyWorld (fun _ _ => 0))
      (pollDone { goodHw with irqAt := fun _ => Irq.crossed } (readyWorld (fun _ _ => 0)))
      rfl rfl).2.1.mpr (Or.inr (Or.inr (Or.inl (by decide))))⟩

/-! ## The slow path when the driver rejects a sub-request -/

theorem Quiet.quietRefl (w : World) : Quiet w w := ⟨rfl, rfl, rfl, rfl⟩

theorem Quiet.quietTrans {a b c : World} (h1 : Quiet a b) (h2 : Quiet b c) : Quiet a c :=
  ⟨h2.1.trans h1.1, h2.2.1.trans h1.2.1, h2.2.2.1.trans h1.2.2.1, h2.2.2.2.trans h1.2.2.2⟩

theorem ProbeOnly.quiet {w w1 : World} (h : ProbeOnly w w1) : Quiet w w1 := by
  obtain ⟨-, -, h3, -, h5, h6, -, -, -, evs, ht, hp⟩ := h
  refine ⟨h5, h3, h6, ?_⟩
  have h1 : dmaEvents evs = [] := by
    simp only [dmaEvents, List.filter_eq_nil_iff]
    intro e he
    rcases hp e he with h | h <;> simp [h]
  rw [ht, dmaEvents_append, h1, List.append_nil]

theorem queuePut_quiet (m p t : Nat) (w : World) :
    Quiet w (osMessageQueuePut m p t w).2 := by
  unfold osMessageQueuePut Quiet
  cases h : w.SDQueueID with
  | none => simp [h, dmaEvents]
  | some q =>
    by_cases hl : w.queue.length < w.capacity <;> by_cases ht : t = 0 <;>
      simp [h, hl, ht, dmaEvents]

theorem queueGet_quiet (t e : Nat) (w : World) : Quiet w (osMessageQueueGet t e w).2.2 := by
  unfold osMessageQueueGet Quiet
  cases h : w.SDQueueID with
  | none => simp [h, dmaEvents]
  | some q =>
    cases hq : w.queue with
    | nil => by_cases ht : t = 0 <;> simp [h, hq, ht, dmaEvents]
    | cons a rest => simp [h, hq, dmaEvents]

theorem raiseIrq_quiet (irq : Irq) (rx : Bool) (w : World) : Quiet w (raiseIrq irq rx w) := by
  cases irq <;> cases rx <;>
    simp only [raiseIrq, HAL_SD_RxCpltCallback, HAL_SD_TxCpltCallback, if_true,
      Bool.false_eq_true, if_false] <;>
    first
      | exact Quiet.quietRefl _
      | exact queuePut_quiet _ _ _ _

theorem invalidate_quiet (r : Region) (len : Nat) (w : World) :
    Quiet w (SCB_InvalidateDCache_by_Addr r len w) := by
  simp [Quiet, SCB_InvalidateDCache_by_Addr, dmaEvents]

/-- With a tick source that passes every deadline within the fuel, the
readiness poll terminates. -/
theorem poll_terminates {hw : Hw} {timeout fuel : Nat} (hclk : ClockAdvances hw timeout fuel)
    (w : World) :
    ∃ b w1, waitTransfer hw (osKernelGetTickCount hw w).1 timeout fuel
        (osKernelGetTickCount hw w).2 = some (b, w1) ∧ ProbeOnly w w1 := by
  obtain ⟨K, hK, hnot⟩ := hclk w.nTick
  have e1 : (osKernelGetTickCount hw w).2.nTick = w.nTick + 1 := by
    simp [osKernelGetTickCount]
  have e3 : (osKernelGetTickCount hw w).1 = u32 (hw.tickAt w.nTick) := rfl
  obtain ⟨b, w1, k, e, -⟩ :=
    waitTransfer_outcome hw (osKernelGetTickCount hw w).1 timeout K fuel
      (osKernelGetTickCount hw w).2
      (by rw [e1, e3, sub32_u32_right]; exact hnot) hK
  exact ⟨b, w1, e, (probeOnly_getTick hw w).trans (waitTransfer_probeOnly _ _ _ _ _ _ _ e)⟩

/-- With such a tick source the wait and the poll of a slow-path sub-request
terminate, whatever the queue holds, and touch neither medium nor scratch
buffer. -/
theorem slowWait_terminates {cfg : Config} {hw : Hw} {fuel : Nat}
    (hclk : ClockAdvances hw cfg.SD_TIMEOUT fuel) (expected event : Nat) (w : World) :
    ∃ e1 w1, slowWait cfg hw fuel expected event w = some (e1, w1) ∧ Quiet w w1 := by
  have hg := queueGet_quiet cfg.SD_TIMEOUT event w
  by_cases hc : (osMessageQueueGet cfg.SD_TIMEOUT event w).1 = osStatus.osOK ∧
      (osMessageQueueGet cfg.SD_TIMEOUT event w).2.1 = expected
  · obtain ⟨b, w1, e, hp⟩ := poll_terminates hclk (osMessageQueueGet cfg.SD_TIMEOUT event w).2.2
    exact ⟨(osMessageQueueGet cfg.SD_TIMEOUT event w).2.1, w1,
      by simp only [slowWait, hc, and_self, if_true, e], hg.quietTrans hp.quiet⟩
  · exact ⟨(osMessageQueueGet cfg.SD_TIMEOUT event w).2.1,
      (osMessageQueueGet cfg.SD_TIMEOUT event w).2.2,
      by simp only [slowWait, hc, if_false], hg⟩

/-- An accepted DMA read into the scratch buffer, whatever interrupt
follows. -/
theorem readScratch_accepted (hw : Hw) (blk n : Nat) (buf : Mem) (w : World)
    (h : hw.issueAt w.nIssue = HAL_Status.HAL_OK) :
    (HAL_SD_ReadBlocks_DMA hw Region.scratch blk n buf w).1 = HAL_Status.HAL_OK ∧
    (HAL_SD_ReadBlocks_DMA hw Region.scratch blk n buf w).2.1 = buf ∧
    (HAL_SD_ReadBlocks_DMA hw Region.scratch blk n buf w).2.2.disk = w.disk ∧
    (HAL_SD_ReadBlocks_DMA hw Region.scratch blk n buf w).2.2.scratch =
      memcpy w.scratch 0 (diskData w.disk blk) 0 (n * BLOCKSIZE) ∧
    (HAL_SD_ReadBlocks_DMA hw Region.scratch blk n buf w).2.2.nIssue = w.nIssue + 1 ∧
    dmaEvents (HAL_SD_ReadBlocks_DMA hw Region.scratch blk n buf w).2.2.trace =
      dmaEvents w.trace ++ [Ev.readDMA Region.scratch blk n] := by
  obtain ⟨q1, q2, q3, q4⟩ := raiseIrq_quiet (hw.irqAt w.nIssue) true
    { w with nIssue := w.nIssue + 1,
             trace := w.trace ++ [Ev.readDMA Region.scratch blk n],
             scratch := memcpy w.scratch 0 (diskData w.disk blk) 0 (n * BLOCKSIZE) }
  simp only [HAL_SD_ReadBlocks_DMA, h, if_true]
  refine ⟨trivial, trivial, q1, q2, q3, ?_⟩
  rw [q4]
  simp [dmaEvents]

/-- An accepted DMA write from the scratch buffer, whatever interrupt
follows. -/
theorem writeScratch_accepted (hw : Hw) (blk n : Nat) (buf : Mem) (w : World)
    (h : hw.issueAt w.nIssue = HAL_Status.HAL_OK) :
    (HAL_SD_WriteBlocks_DMA hw Region.scratch blk n buf w).1 = HAL_Status.HAL_OK ∧
    (HAL_SD_WriteBlocks_DMA hw Region.scratch blk n buf w).2.disk =
      diskAfterWrite w.disk w.scratch blk n ∧
    (HAL_SD_WriteBlocks_DMA hw Region.scratch blk n buf w).2.nIssue = w.nIssue + 1 ∧
    dmaEvents (HAL_SD_WriteBlocks_DMA hw Region.scratch blk n buf w).2.trace =
      dmaEvents w.trace ++ [Ev.writeDMA Region.scratch blk n] := by
  obtain ⟨q1, -, q3, q4⟩ := raiseIrq_quiet (hw.irqAt w.nIssue) false
    { w with nIssue := w.nIssue + 1,
             trace := w.trace ++ [Ev.writeDMA Region.scratch blk n],
             disk := diskAfterWrite w.disk w.scratch blk n }
  simp only [HAL_SD_WriteBlocks_DMA, h, if_true]
  refine ⟨trivial, q1, q3, ?_⟩
  rw [q4]
  simp [dmaEvents]

theorem range_succ_map_shift (f : Nat → Ev) (k : Nat) :
    (List.range (k + 1)).map f = f 0 :: (List.range k).map (fun j => f (j + 1)) := by
  rw [List.range_succ_eq_map]
  simp only [List.map_cons, List.map_map]
  rfl

/-- The slow-path loop of `SD_DMA_read` when its `k`-th sub-request from here
is the first that the driver rejects: it stops there with `i` advanced by `k`,
after `k + 1` requests, with `k` sectors in the caller's buffer. -/
theorem read_slow_first_rejected {cfg : Config} {hw : Hw} {fuel : Nat}
    (hclk : ClockAdvances hw cfg.SD_TIMEOUT fuel) :
    ∀ (k n i : Nat) (ret : Option HAL_Status) (event sector off : Nat) (buf : Mem)
      (w : World), k < n →
      (∀ j, j < k → hw.issueAt (w.nIssue + j) = HAL_Status.HAL_OK) →
      hw.issueAt (w.nIssue + k) ≠ HAL_Status.HAL_OK → sector + k < 2 ^ 32 →
      ∃ ret1 buf1 w1,
        SD_DMA_read_slow cfg hw fuel n i ret event sector off buf w =
          some (i + k, ret1, buf1, w1) ∧
        w1.disk = w.disk ∧
        dmaEvents w1.trace = dmaEvents w.trace ++
          (List.range (k + 1)).map (fun j => Ev.readDMA Region.scratch (sector + j) 1) ∧
        ∀ j, buf1 j =
          if off ≤ j ∧ j < off + k * BLOCKSIZE then
            w.disk (sector + (j - off) / BLOCKSIZE) ((j - off) % BLOCKSIZE)
          else buf j := by
  intro k
  induction k with
  | zero =>
    intro n i ret event sector off buf w hn _ hrej hsec
    obtain ⟨m, rfl⟩ : ∃ m, n = m + 1 := ⟨n - 1, by omega⟩
    have hu : u32 sector = sector := u32_of_lt (by omega)
    rw [Nat.add_zero] at hrej
    refine ⟨some (hw.issueAt w.nIssue), buf,
      afterRejected (Ev.readDMA Region.scratch sector 1) w, ?_, rfl, ?_, ?_⟩
    · rw [read_slow_rejected _ _ _ _ _ _ _ _ _ _ _ hrej, hu]
      rfl
    · simp [afterRejected, dmaEvents, List.range_succ]
    · intro j
      rw [if_neg (by omega)]
  | succ k ih =>
    intro n i ret event sector off buf w hn hacc hrej hsec
    obtain ⟨m, rfl⟩ : ∃ m, n = m + 1 := ⟨n - 1, by omega⟩
    have hu : u32 sector = sector := u32_of_lt (by omega)
    have h0 : hw.issueAt w.nIssue = HAL_Status.HAL_OK := by
      have := hacc 0 (by omega)
      rwa [Nat.add_zero] at this
    have hshift := range_succ_map_shift
      (fun j => Ev.readDMA Region.scratch (sector + j) 1) (k + 1)
    obtain ⟨d1, d2, d3, d4, d5, d6⟩ := readScratch_accepted hw sector 1 buf w h0
    obtain ⟨e1, w1, hw1, q1, q2, q3, q4⟩ := slowWait_terminates hclk READ_CPLT_MSG event
      (HAL_SD_ReadBlocks_DMA hw Region.scratch sector 1 buf w).2.2
    obtain ⟨w2, hw2, r1, r2, r3, r4⟩ : ∃ w2 : World,
        w2 = (if cfg.ENABLE_SD_DMA_CACHE_MAINTENANCE then
            SCB_InvalidateDCache_by_Addr Region.scratch BLOCKSIZE w1 else w1) ∧
        Quiet w1 w2 := by
      refine ⟨_, rfl, ?_⟩
      cases cfg.ENABLE_SD_DMA_CACHE_MAINTENANCE
      · exact Quiet.quietRefl w1
      · exact invalidate_quiet _ _ _
    have hn2 : w2.nIssue = w.nIssue + 1 := by rw [r3, q3, d5]
    obtain ⟨ret3, buf3, w3, hw3, hd3, ht3, hb3⟩ :=
      ih m (i + 1) (some HAL_Status.HAL_OK) e1 (sector + 1) (off + BLOCKSIZE)
        (memcpy buf off w2.scratch 0 BLOCKSIZE) w2 (by omega)
        (by
          intro j hj
          have := hacc (j + 1) (by omega)
          rw [hn2]
          rwa [show w.nIssue + 1 + j = w.nIssue + (j + 1) by omega])
        (by
          rw [hn2]
          rwa [show w.nIssue + 1 + k = w.nIssue + (k + 1) by omega])
        (by omega)
    refine ⟨ret3, buf3, w3, ?_, ?_, ?_, ?_⟩
    · rw [SD_DMA_read_slow]
      simp only [hu, d1, d2, if_true, hw1, ← hw2, hw3]
      simp; omega
    · rw [hd3, r1, q1, d3]
    · rw [ht3, r4, q4, d6, hshift, List.append_assoc]
      simp only [List.singleton_append, Nat.add_zero]
      congr 2
      apply List.map_congr_left
      intro j _
      congr 1
      omega
    · intro j
      rw [hb3 j, r1, q1, d3, r2, q2, d4]
      simp only [BLOCKSIZE]
      by_cases h1 : off + 512 ≤ j ∧ j < off + 512 + k * 512
      · have h2 : off ≤ j ∧ j < off + (k + 1) * 512 := by omega
        have a1 : sector + 1 + (j - (off + 512)) / 512 = sector + (j - off) / 512 := by
          omega
        have a2 : (j - (off + 512)) % 512 = (j - off) % 512 := by omega
        rw [if_pos h1, if_pos h2, a1, a2]
      · rw [if_neg h1]
        by_cases h3 : off ≤ j ∧ j < off + 512
        · have h2 : off ≤ j ∧ j < off + (k + 1) * 512 := by omega
          have h4 : 0 ≤ 0 + (j - off) ∧ 0 + (j - off) < 0 + 1 * 512 := by omega
          have h7 : (j - off) / 512 = 0 := by omega
          have h8 : (j - off) % 512 = j - off := by omega
          have a3 : 0 + (0 + (j - off) - 0) = j - off := by omega
          rw [if_pos h2]
          simp only [memcpy, diskData, BLOCKSIZE, if_pos h3, if_pos h4, a3, h7, h8,
            Nat.add_zero]
        · have h2 : ¬ (off ≤ j ∧ j < off + (k + 1) * 512) := by omega
          rw [if_neg h2]
          simp only [memcpy, if_neg h3]

theorem writeSlowIssueState_quiet (cfg : Config) (buf : Mem) (off : Nat) (w : World) :
    (writeSlowIssueState cfg buf off w).disk = w.disk ∧
    (writeSlowIssueState cfg buf off w).scratch = memcpy w.scratch 0 buf off BLOCKSIZE ∧
    (writeSlowIssueState cfg buf off w).nIssue = w.nIssue ∧
    dmaEvents (writeSlowIssueState cfg buf off w).trace = dmaEvents w.trace := by
  unfold writeSlowIssueState
  cases cfg.ENABLE_SD_DMA_CACHE_MAINTENANCE <;>
    simp [SCB_CleanDCache_by_Addr, dmaEvents]

/-- The slow-path loop of `SD_DMA_write` when its `k`-th sub-request from here
is the first that the driver rejects: it stops there with `i` advanced by `k`,
after `k + 1` requests, with `k` sectors on the medium. -/
theorem write_slow_first_rejected {cfg : Config} {hw : Hw} {fuel : Nat}
    (hclk : ClockAdvances hw cfg.SD_TIMEOUT fuel) (buf : Mem) :
    ∀ (k n i : Nat) (ret : Option HAL_Status) (event sector off : Nat) (w : World),
      k < n →
      (∀ j, j < k → hw.issueAt (w.nIssue + j) = HAL_Status.HAL_OK) →
      hw.issueAt (w.nIssue + k) ≠ HAL_Status.HAL_OK → sector + k < 2 ^ 32 →
      ∃ ret1 w1,
        SD_DMA_write_slow cfg hw fuel buf n i ret event sector off w =
          some (i + k, ret1, w1) ∧
        dmaEvents w1.trace = dmaEvents w.trace ++
          (List.range (k + 1)).map (fun j => Ev.writeDMA Region.scratch (sector + j) 1) ∧
        ∀ sec o, o < BLOCKSIZE → w1.disk sec o =
          if sector ≤ sec ∧ sec < sector + k then
            buf (off + (sec - sector) * BLOCKSIZE + o)
          else w.disk sec o := by
  intro k
  induction k with
  | zero =>
    intro n i ret event sector off w hn _ hrej hsec
    obtain ⟨m, rfl⟩ : ∃ m, n = m + 1 := ⟨n - 1, by omega⟩
    have hu : u32 sector = sector := u32_of_lt (by omega)
    rw [Nat.add_zero] at hrej
    obtain ⟨s1, -, -, s4⟩ := writeSlowIssueState_quiet cfg buf off w
    refine ⟨some (hw.issueAt w.nIssue),
      afterRejected (Ev.writeDMA Region.scratch sector 1) (writeSlowIssueState cfg buf off w),
      ?_, ?_, ?_⟩
    · rw [write_slow_rejected _ _ _ _ _ _ _ _ _ _ _ hrej, hu]
      rfl
    · have e : (afterRejected (Ev.writeDMA Region.scratch sector 1)
          (writeSlowIssueState cfg buf off w)).trace =
          (writeSlowIssueState cfg buf off w).trace ++
            [Ev.writeDMA Region.scratch sector 1] := rfl
      rw [e, dmaEvents_append, s4]
      simp [dmaEvents, List.range_succ]
    · intro sec o _
      rw [if_neg (by omega)]
      simp [afterRejected, s1]
  | succ k ih =>
    intro n i ret event sector off w hn hacc hrej hsec
    obtain ⟨m, rfl⟩ : ∃ m, n = m + 1 := ⟨n - 1, by omega⟩
    have hu : u32 sector = sector := u32_of_lt (by omega)
    obtain ⟨s1, s2, s3, s4⟩ := writeSlowIssueState_quiet cfg buf off w
    have h0 : hw.issueAt (writeSlowIssueState cfg buf off w).nIssue = HAL_Status.HAL_OK := by
      have := hacc 0 (by omega)
      rw [s3]
      rwa [Nat.add_zero] at this
    have hshift := range_succ_map_shift
      (fun j => Ev.writeDMA Region.scratch (sector + j) 1) (k + 1)
    obtain ⟨d1, d2, d3, d4⟩ :=
      writeScratch_accepted hw sector 1 buf (writeSlowIssueState cfg buf off w) h0
    obtain ⟨e1, w2, hw2, q1, -, q3, q4⟩ := slowWait_terminates hclk WRITE_CPLT_MSG event
      (HAL_SD_WriteBlocks_DMA hw Region.scratch sector 1 buf
        (writeSlowIssueState cfg buf off w)).2
    have hn2 : w2.nIssue = w.nIssue + 1 := by rw [q3, d3, s3]
    obtain ⟨ret3, w3, hw3, ht3, hd3⟩ :=
      ih m (i + 1) (some HAL_Status.HAL_OK) e1 (sector + 1) (off + BLOCKSIZE) w2 (by omega)
        (by
          intro j hj
          have := hacc (j + 1) (by omega)
          rw [hn2]
          rwa [show w.nIssue + 1 + j = w.nIssue + (j + 1) by omega])
        (by
          rw [hn2]
          rwa [show w.nIssue + 1 + k = w.nIssue + (k + 1) by omega])
        (by omega)
    refine ⟨ret3, w3, ?_, ?_, ?_⟩
    · rw [write_slow_unfold]
      simp only [hu, d1, if_true, hw2, hw3]
      simp; omega
    · rw [ht3, q4, d4, s4, hshift, List.append_assoc]
      simp only [List.singleton_append, Nat.add_zero]
      congr 2
      apply List.map_congr_left
      intro j _
      congr 1
      omega
    · intro sec o ho
      rw [hd3 sec o ho, q1, d2, s1, s2]
      simp only [BLOCKSIZE] at ho ⊢
      by_cases h1 : sector + 1 ≤ sec ∧ sec < sector + 1 + k
      · have h2 : sector ≤ sec ∧ sec < sector + (k + 1) := by omega
        rw [if_pos h1, if_pos h2]
        congr 1; omega
      · rw [if_neg h1]
        by_cases h3 : sec = sector
        · subst h3
          have h6 : 0 ≤ o ∧ o < 0 + 512 := by omega
          simp [diskAfterWrite, memcpy, h6, BLOCKSIZE]
        · have h4 : ¬ (sector ≤ sec ∧ sec < sector + 1) := by omega
          have h5 : ¬ (sector ≤ sec ∧ sec < sector + (k + 1)) := by omega
          rw [if_neg h5]
          simp only [diskAfterWrite, if_neg h4]

theorem countDMA_eq_length (tr : List Ev) : countDMA tr = (dmaEvents tr).length := rfl

theorem failAtHw_clockAdvances (k : Nat) : ClockAdvances (failAtHw k) 30000 5 := by
  intro n0
  refine ⟨2, by decide, ?_⟩
  simp only [withinDeadline, failAtHw, sub32, u32]
  omega

/-- C17: on the slow path, after a successful initial probe and with a tick
source that passes every deadline, if sub-request `k` (`k < count`) is the
first whose DMA issue the transport driver rejects, `SD_DMA_read` and
`SD_DMA_write` return `RES_ERROR` after exactly `k + 1` DMA requests, for the
sectors `s .. s + k`, and the `k` sectors already transferred stay applied: for
a write the sectors `s .. s + k - 1` of the medium hold the caller's first
`k * 512` bytes and the other sectors are as before; for a read the first
`k * 512` bytes of the caller's buffer hold the sectors `s .. s + k - 1` and the
rest of the buffer is untouched. -/
theorem C17_first_rejected_subrequest (cfg : Config) (hw : Hw) (fuel addr : Nat) (buf : Mem)
    (s count k : Nat) (w w0 : World) (hS : addr % 32 ≠ 0)
    (hprobe : SD_check_status_with_timeout hw cfg.SD_TIMEOUT fuel w = some (0, w0))
    (hclk : ClockAdvances hw cfg.SD_TIMEOUT fuel)
    (hk : k < count) (hrange : s + count ≤ 2 ^ 32)
    (hacc : ∀ j, j < k → hw.issueAt (w.nIssue + j) = HAL_Status.HAL_OK)
    (hrej : hw.issueAt (w.nIssue + k) ≠ HAL_Status.HAL_OK) :
    (∃ buf1 w1,
      SD_DMA_read cfg hw fuel addr buf s count w = some (DRESULT.RES_ERROR, buf1, w1) ∧
      dmaEvents w1.trace = dmaEvents w.trace ++
        (List.range (k + 1)).map (fun j => Ev.readDMA Region.scratch (s + j) 1) ∧
      countDMA w1.trace = countDMA w.trace + (k + 1) ∧
      w1.disk = w.disk ∧
      ∀ j, buf1 j =
        if j < k * BLOCKSIZE then w.disk (s + j / BLOCKSIZE) (j % BLOCKSIZE) else buf j) ∧
    (∃ w1,
      SD_DMA_write cfg hw fuel addr buf s count w = some (DRESULT.RES_ERROR, w1) ∧
      dmaEvents w1.trace = dmaEvents w.trace ++
        (List.range (k + 1)).map (fun j => Ev.writeDMA Region.scratch (s + j) 1) ∧
      countDMA w1.trace = countDMA w.trace + (k + 1) ∧
      ∀ sec o, o < BLOCKSIZE → w1.disk sec o =
        if s ≤ sec ∧ sec < s + k then buf ((sec - s) * BLOCKSIZE + o)
        else w.disk sec o) := by
  have hal : aligned32 addr = false := by
    cases h : aligned32 addr
    · rfl
    · exact absurd ((aligned32_iff addr).mp h) hS
  obtain ⟨hp, -⟩ := check_probeOnly _ _ _ _ _ _ hprobe
  obtain ⟨p1, -, p3, p4⟩ := hp.quiet
  have hne : k ≠ count := by omega
  constructor
  · obtain ⟨ret1, buf1, w1, e, hd, ht, hb⟩ :=
      read_slow_first_rejected hclk k count 0 none 0 s 0 buf w0 hk
        (by intro j hj; rw [p3]; exact hacc j hj) (by rw [p3]; exact hrej) (by omega)
    refine ⟨buf1, w1, ?_, ?_, ?_, ?_, ?_⟩
    · simp [SD_DMA_read, hprobe, hal, e, hne]
    · rw [ht, p4]
    · rw [countDMA_eq_length, countDMA_eq_length, ht, p4]
      simp
    · rw [hd, p1]
    · intro j
      rw [hb j, p1]
      simp only [Nat.zero_add, Nat.sub_zero, Nat.zero_le, true_and]
  · obtain ⟨ret1, w1, e, ht, hd⟩ :=
      write_slow_first_rejected hclk buf k count 0 none 0 s 0 w0 hk
        (by intro j hj; rw [p3]; exact hacc j hj) (by rw [p3]; exact hrej) (by omega)
    refine ⟨w1, ?_, ?_, ?_, ?_⟩
    · simp [SD_DMA_write, hprobe, hal, e, hne]
    · rw [ht, p4]
    · rw [countDMA_eq_length, countDMA_eq_length, ht, p4]
      simp
    · intro sec o ho
      rw [hd sec o ho, p1, Nat.zero_add]

/-- C17, at a concrete input: four sectors from sector 100 with a buffer at
address 8, on a card that accepts two requests and rejects the third
(`k = 2`). -/
theorem C17_first_rejected_subrequest_witness :
    8 % 32 ≠ 0 ∧
    SD_check_status_with_timeout (failAtHw 2) templateConfig.SD_TIMEOUT 5
      (readyWorld (fun sec o => (sec + o) % 256)) =
      some (0, pollDone (failAtHw 2) (readyWorld (fun sec o => (sec + o) % 256))) ∧
    (failAtHw 2).issueAt ((readyWorld (fun sec o => (sec + o) % 256)).nIssue + 2)
      ≠ HAL_Status.HAL_OK ∧
    (∃ buf1 w1,
      SD_DMA_read templateConfig (failAtHw 2) 5 8 (fun _ => 7) 100 4
        (readyWorld (fun sec o => (sec + o) % 256)) = some (DRESULT.RES_ERROR, buf1, w1) ∧
      dmaEvents w1.trace = dmaEvents (readyWorld (fun sec o => (sec + o) % 256)).trace ++
        (List.range (2 + 1)).map (fun j => Ev.readDMA Region.scratch (100 + j) 1) ∧
      countDMA w1.trace = countDMA (readyWorld (fun sec o => (sec + o) % 256)).trace
        + (2 + 1) ∧
      w1.disk = (readyWorld (fun sec o => (sec + o) % 256)).disk ∧
      ∀ j, buf1 j =
        if j < 2 * BLOCKSIZE then
          (readyWorld (fun sec o => (sec + o) % 256)).disk (100 + j / BLOCKSIZE)
            (j % BLOCKSIZE)
        else (fun _ => 7) j) :=
  ⟨by decide, rfl, by decide,
    (C17_first_rejected_subrequest templateConfig (failAtHw 2) 5 8 (fun _ => 7) 100 4 2
      (readyWorld (fun sec o => (sec + o) % 256))
      (pollDone (failAtHw 2) (readyWorld (fun sec o => (sec + o) % 256)))
      (by decide) rfl (failAtHw_clockAdvances 2) (by decide) (by decide)
      (by
        intro j hj
        have h : j < 2 := hj
        simp [failAtHw, readyWorld, World.boot, h])
      (by decide)).1⟩

/-- C16, the code at the failing input: with a card that accepts every request
and never raises a completion interrupt, the misaligned slow path of
`SD_DMA_read` and of `SD_DMA_write` for two sectors waits in vain for the first
sub-request (no event was ever posted), nevertheless issues the second
sub-request, and returns `RES_OK`. -/
theorem C16_slow_path_continues_after_failed_wait :
    (SD_DMA_read templateConfig silentHw 1 8 (fun _ => 0) 100 2
        (readyWorld (fun _ _ => 0))).map (fun r => (r.1, r.2.2.trace)) =
      some (DRESULT.RES_OK,
        [Ev.getTick, Ev.getTick, Ev.getCardState,
          Ev.readDMA Region.scratch 100 1, Ev.queueGet 30000,
          Ev.invalidateDCache Region.scratch 512,
          Ev.readDMA Region.scratch 101 1, Ev.queueGet 30000,
          Ev.invalidateDCache Region.scratch 512]) ∧
    (SD_DMA_write templateConfig silentHw 1 8 (fun _ => 0) 100 2
        (readyWorld (fun _ _ => 0))).map (fun r => (r.1, r.2.trace)) =
      some (DRESULT.RES_OK,
        [Ev.getTick, Ev.getTick, Ev.getCardState,
          Ev.cleanDCache Region.scratch 512,
          Ev.writeDMA Region.scratch 100 1, Ev.queueGet 30000,
          Ev.cleanDCache Region.scratch 512,
          Ev.writeDMA Region.scratch 101 1, Ev.queueGet 30000]) ∧
    (osMessageQueueGet 30000 0 (readyWorld (fun _ _ => 0))).1 = osStatus.osErrorTimeout := by
  refine ⟨?_, ?_, ?_⟩ <;> decide

/-! ## The SRAM disk -/

theorem SRAMDISK_read_loop_spec (mem : Mem) :
    ∀ (n pMem b : Nat) (buf : Mem) (j : Nat),
      SRAMDISK_read_loop mem n pMem b buf j =
        if b ≤ j ∧ j < b + n then mem (pMem + (j - b)) else buf j := by
  intro n
  induction n with
  | zero =>
    intro pMem b buf j
    rw [SRAMDISK_read_loop, if_neg (by omega)]
  | succ n ih =>
    intro pMem b buf j
    rw [SRAMDISK_read_loop, ih]
    by_cases h1 : b + 1 ≤ j ∧ j < b + 1 + n
    · have h2 : b ≤ j ∧ j < b + (n + 1) := by omega
      rw [if_pos h1, if_pos h2]
      congr 1; omega
    · rw [if_neg h1]
      by_cases h3 : j = b
      · subst h3
        have h4 : j ≤ j ∧ j < j + (n + 1) := by omega
        rw [if_pos rfl, if_pos h4, Nat.sub_self, Nat.add_zero]
      · have h4 : ¬ (b ≤ j ∧ j < b + (n + 1)) := by omega
        rw [if_neg h3, if_neg h4]

theorem SRAMDISK_write_loop_spec (buf : Mem) :
    ∀ (n pMem b : Nat) (mem : Mem) (a : Nat),
      SRAMDISK_write_loop buf n pMem b mem a =
        if pMem ≤ a ∧ a < pMem + n then buf (b + (a - pMem)) else mem a := by
  intro n
  induction n with
  | zero =>
    intro pMem b mem a
    rw [SRAMDISK_write_loop, if_neg (by omega)]
  | succ n ih =>
    intro pMem b mem a
    rw [SRAMDISK_write_loop, ih]
    by_cases h1 : pMem + 1 ≤ a ∧ a < pMem + 1 + n
    · have h2 : pMem ≤ a ∧ a < pMem + (n + 1) := by omega
      rw [if_pos h1, if_pos h2]
      congr 1; omega
    · rw [if_neg h1]
      by_cases h3 : a = pMem
      · subst h3
        have h4 : a ≤ a ∧ a < a + (n + 1) := by omega
        rw [if_pos rfl, if_pos h4, Nat.sub_self, Nat.add_zero]
      · have h4 : ¬ (pMem ≤ a ∧ a < pMem + (n + 1)) := by omega
        rw [if_neg h3, if_neg h4]

/-- C19: for every start sector `s` and `count` with
`(s + count) * BLOCK_SIZE ≤ SRAM_DISK_SIZE` and every data block,
`SRAMDISK_write(data, s, count)` followed by `SRAMDISK_read(buf, s, count)`
both return `RES_OK` and the first `count * BLOCK_SIZE` bytes of `buf` are
those of `data`; the write changes only the bytes of the disk's sectors
`s .. s + count - 1`, and the read leaves the rest of `buf` unchanged. -/
theorem C19_sram_write_read_roundtrip (mem data buf : Mem) (s count : Nat)
    (hfit : (s + count) * BLOCK_SIZE ≤ SRAM_DISK_SIZE) :
    (SRAMDISK_write mem data s count).1 = DRESULT.RES_OK ∧
    (SRAMDISK_read (SRAMDISK_write mem data s count).2 buf s count).1 = DRESULT.RES_OK ∧
    (∀ j, j < count * BLOCK_SIZE →
      (SRAMDISK_read (SRAMDISK_write mem data s count).2 buf s count).2 j = data j) ∧
    (∀ j, count * BLOCK_SIZE ≤ j →
      (SRAMDISK_read (SRAMDISK_write mem data s count).2 buf s count).2 j = buf j) ∧
    (∀ a, ¬ (SRAM_DISK_BASE_ADDR + s * BLOCK_SIZE ≤ a ∧
        a < SRAM_DISK_BASE_ADDR + (s + count) * BLOCK_SIZE) →
      (SRAMDISK_write mem data s count).2 a = mem a) := by
  simp only [BLOCK_SIZE, SRAM_DISK_SIZE, SRAM_DISK_BASE_ADDR] at hfit ⊢
  have h1 : u32 (512 * count) = 512 * count := u32_of_lt (by omega)
  have h2 : u32 (603979776 + s * 512) = 603979776 + s * 512 := u32_of_lt (by omega)
  refine ⟨rfl, rfl, ?_, ?_, ?_⟩
  · intro j hj
    simp only [SRAMDISK_read, SRAMDISK_write, BLOCK_SIZE, SRAM_DISK_BASE_ADDR, h1, h2,
      SRAMDISK_read_loop_spec, SRAMDISK_write_loop_spec]
    rw [if_pos (by omega), if_pos (by omega)]
    congr 1; omega
  · intro j hj
    simp only [SRAMDISK_read, BLOCK_SIZE, SRAM_DISK_BASE_ADDR, h1, h2,
      SRAMDISK_read_loop_spec]
    rw [if_neg (by omega)]
  · intro a ha
    simp only [SRAMDISK_write, BLOCK_SIZE, SRAM_DISK_BASE_ADDR, h1, h2,
      SRAMDISK_write_loop_spec]
    rw [if_neg (by omega)]

/-- C19, at a concrete input: two sectors at sector 62, the last two of the
disk. -/
theorem C19_sram_write_read_roundtrip_witness :
    (62 + 2) * BLOCK_SIZE ≤ SRAM_DISK_SIZE ∧
    (SRAMDISK_write (fun _ => 0) (fun j => j % 251) 62 2).1 = DRESULT.RES_OK ∧
    (SRAMDISK_read (SRAMDISK_write (fun _ => 0) (fun j => j % 251) 62 2).2
      (fun _ => 9) 62 2).1 = DRESULT.RES_OK ∧
    (∀ j, j < 2 * BLOCK_SIZE →
      (SRAMDISK_read (SRAMDISK_write (fun _ => 0) (fun j => j % 251) 62 2).2
        (fun _ => 9) 62 2).2 j = (fun j => j % 251) j) :=
  ⟨by decide,
    (C19_sram_write_read_roundtrip (fun _ => 0) (fun j => j % 251) (fun _ => 9) 62 2
      (by decide)).1,
    (C19_sram_write_read_roundtrip (fun _ => 0) (fun j => j % 251) (fun _ => 9) 62 2
      (by decide)).2.1,
    (C19_sram_write_read_roundtrip (fun _ => 0) (fun j => j % 251) (fun _ => 9) 62 2
      (by decide)).2.2.1⟩

/-! ## The completion callbacks and the completion queue -/

/-- The queue and the trace after a post of the callbacks. -/
theorem queuePut_effect (m p t : Nat) (v : World) :
    (osMessageQueuePut m p t v).2 =
      { v with
        queue := if v.SDQueueID ≠ none ∧ v.queue.length < v.capacity
          then v.queue ++ [m % 2 ^ 16] else v.queue
        trace := v.trace ++ [Ev.queuePut m p t] } := by
  unfold osMessageQueuePut
  cases h : v.SDQueueID with
  | none => simp [h]
  | some q =>
    by_cases hl : v.queue.length < v.capacity <;> by_cases ht : t = 0 <;> simp [h, hl, ht]

/-- The queue that `SD_DMA_initialize` creates: when the handle was `NULL`
before the call and is not after it, the queue has `QUEUE_SIZE` slots and is
empty. -/
theorem initialize_queue (cfg : Config) (hw : Hw) (w : World) (hnone : w.SDQueueID = none)
    (hsome : ( SD_DMA_initialize cfg hw w).2.SDQueueID ≠ none) :
    (( SD_DMA_initialize cfg hw w).2.capacity : Nat) = QUEUE_SIZE ∧
    ( SD_DMA_initialize cfg hw w).2.queue = [] := by
  revert hsome
  unfold SD_DMA_initialize SD_check_status HAL_SD_GetCardState osMessageQueueNew
    sdmmc_sd_init STA_NOINIT
  by_cases hk : hw.kernelState = osKernelState.osKernelRunning
  · by_cases hc : hw.cardStateAt w.nState = HAL_SD_CARD_TRANSFER
    · cases hn : hw.queueNewAt w.nNew with
      | none => cases cfg.ENABLE_SD_INIT <;> simp [hk, hc, hnone, hn, QUEUE_SIZE]
      | some q => cases cfg.ENABLE_SD_INIT <;> simp [hk, hc, hnone, hn, QUEUE_SIZE]
    · cases cfg.ENABLE_SD_INIT <;> simp [hk, hc, hnone]
  · simp [hk, hnone]

/-- One call of an entry point keeps the property that an existing queue has
`QUEUE_SIZE` slots. -/
theorem runOp_capacity (cfg : Config) (hw : Hw) (fuel : Nat) (op : Op) (w w1 : World)
    (h : runOp cfg hw fuel op w = some w1)
    (hw0 : w.SDQueueID ≠ none → (w.capacity : Nat) = QUEUE_SIZE) :
    w1.SDQueueID ≠ none → (w1.capacity : Nat) = QUEUE_SIZE := by
  have key : ∀ {v : World}, HandleKept w v →
      v.SDQueueID ≠ none → (v.capacity : Nat) = QUEUE_SIZE := by
    intro v hk hv
    rw [hk.2.2.2]
    exact hw0 (by rw [← hk.1]; exact hv)
  cases op with
  | init =>
    simp only [runOp, Option.some.injEq] at h
    subst h
    intro hv
    rcases initialize_handle cfg hw w with ⟨-, -, h0, -, -⟩ | hk
    · exact (initialize_queue cfg hw w h0 hv).1
    · exact key hk hv
  | status =>
    simp only [runOp, Option.some.injEq] at h
    subst h
    exact key (status_handleKept hw w)
  | read a b s c =>
    simp only [runOp, Option.map_eq_some'] at h
    obtain ⟨r, hr, rfl⟩ := h
    exact key (read_handleKept _ _ _ _ _ _ _ _ _ hr)
  | write a b s c =>
    simp only [runOp, Option.map_eq_some'] at h
    obtain ⟨r, hr, rfl⟩ := h
    exact key (write_handleKept _ _ _ _ _ _ _ _ _ hr)
  | ioctl cmd =>
    simp only [runOp, Option.some.injEq] at h
    subst h
    exact key (ioctl_handleKept hw cmd w)
  | rxCplt =>
    simp only [runOp, Option.some.injEq] at h
    subst h
    exact key (queuePut_handleKept _ _ _ _)
  | txCplt =>
    simp only [runOp, Option.some.injEq] at h
    subst h
    exact key (queuePut_handleKept _ _ _ _)

/-- Over any sequence of calls of the entry points, an existing queue has
`QUEUE_SIZE` slots if that held at the start. -/
theorem runOps_capacity (cfg : Config) (hw : Hw) (fuel : Nat) :
    ∀ (ops : List Op) (w w1 : World), runOps cfg hw fuel ops w = some w1 →
      (w.SDQueueID ≠ none → (w.capacity : Nat) = QUEUE_SIZE) →
      w1.SDQueueID ≠ none → (w1.capacity : Nat) = QUEUE_SIZE := by
  intro ops
  induction ops with
  | nil =>
    intro w w1 h h0
    simp only [runOps, Option.some.injEq] at h
    subst h
    exact h0
  | cons op ops ih =>
    intro w w1 h h0
    rw [runOps] at h
    cases ho : runOp cfg hw fuel op w with
    | none => simp [ho] at h
    | some w2 =>
      simp only [ho] at h
      exact ih w2 w1 h (runOp_capacity cfg hw fuel op w w2 ho h0)

/-- A readiness poll that returns has read the tick counter at least once. -/
theorem waitTransfer_nTick (hw : Hw) (timer timeout : Nat) :
    ∀ (fuel : Nat) (w : World) (b : Bool) (w1 : World),
      waitTransfer hw timer timeout fuel w = some (b, w1) → w.nTick + 1 ≤ w1.nTick := by
  intro fuel
  induction fuel with
  | zero => intro w b w1 h; simp [waitTransfer] at h
  | succ n ih =>
    intro w b w1 h
    unfold waitTransfer at h
    simp only at h
    split at h
    · split at h
      · simp only [Option.some.injEq, Prod.mk.injEq] at h
        rw [← h.2]
        simp [HAL_SD_GetCardState, osKernelGetTickCount]
      · have := ih _ _ _ h
        simp only [HAL_SD_GetCardState, osKernelGetTickCount] at this
        omega
    · simp only [Option.some.injEq, Prod.mk.injEq] at h
      rw [← h.2]
      simp [osKernelGetTickCount]

/-- On the fast path of `SD_DMA_read`, once the request is accepted and the wait
delivers `READ_CPLT_MSG`, the result is that of the readiness poll. -/
theorem read_fast_by_poll (cfg : Config) (hw : Hw) (fuel addr : Nat) (buf : Mem)
    (s count : Nat) (w : World)
    (h1 : (fastReadIssue hw addr buf s count w).1 = HAL_Status.HAL_OK)
    (h2 : (fastReadWait cfg hw addr buf s count w).1 = osStatus.osOK)
    (h3 : (fastReadWait cfg hw addr buf s count w).2.1 = READ_CPLT_MSG) :
    (SD_DMA_read_fast cfg hw fuel addr buf s count w).map (fun r => r.1) =
      (fastReadPoll cfg hw fuel addr buf s count w).map
        (fun r => if r.1 = true then DRESULT.RES_OK else DRESULT.RES_ERROR) := by
  unfold fastReadPoll
  unfold fastReadWait at h2 h3 ⊢
  unfold fastReadIssue at h1 h2 h3 ⊢
  unfold SD_DMA_read_fast
  simp only [h1, h2, h3, and_self, if_true]
  cases hp : waitTransfer hw
      (osKernelGetTickCount hw (osMessageQueueGet cfg.SD_TIMEOUT 0
        (HAL_SD_ReadBlocks_DMA hw (Region.caller addr) (u32 s) (u32 count)
          buf w).2.2).2.2).1
      cfg.SD_TIMEOUT fuel
      (osKernelGetTickCount hw (osMessageQueueGet cfg.SD_TIMEOUT 0
        (HAL_SD_ReadBlocks_DMA hw (Region.caller addr) (u32 s) (u32 count)
          buf w).2.2).2.2).2 with
  | none => rfl
  | some p =>
    obtain ⟨b, w1⟩ := p
    cases b <;> rfl

/-- On the fast path of `SD_DMA_write`, once the request is accepted and the
wait delivers `WRITE_CPLT_MSG`, the result is that of the readiness poll. -/
theorem write_fast_by_poll (cfg : Config) (hw : Hw) (fuel addr : Nat) (buf : Mem)
    (s count : Nat) (w : World)
    (h1 : (fastWriteIssue cfg hw addr buf s count w).1 = HAL_Status.HAL_OK)
    (h2 : (fastWriteWait cfg hw addr buf s count w).1 = osStatus.osOK)
    (h3 : (fastWriteWait cfg hw addr buf s count w).2.1 = WRITE_CPLT_MSG) :
    (SD_DMA_write_fast cfg hw fuel addr buf s count w).map (fun r => r.1) =
      (fastWritePoll cfg hw fuel addr buf s count w).map
        (fun r => if r.1 = true then DRESULT.RES_OK else DRESULT.RES_ERROR) := by
  unfold fastWritePoll
  unfold fastWriteWait at h2 h3 ⊢
  unfold fastWriteIssue at h1 h2 h3 ⊢
  rw [write_fast_unfold]
  simp only [h1, h2, h3, and_self, if_true]
  cases hp : waitTransfer hw
      (osKernelGetTickCount hw (osMessageQueueGet cfg.SD_TIMEOUT 0
        (HAL_SD_WriteBlocks_DMA hw (Region.caller addr) (u32 s) (u32 count) buf
          (writeFastIssueState cfg addr count w)).2).2.2).1
      cfg.SD_TIMEOUT fuel
      (osKernelGetTickCount hw (osMessageQueueGet cfg.SD_TIMEOUT 0
        (HAL_SD_WriteBlocks_DMA hw (Region.caller addr) (u32 s) (u32 count) buf
          (writeFastIssueState cfg addr count w)).2).2.2).2 with
  | none => rfl
  | some p =>
    obtain ⟨b, w1⟩ := p
    cases b <;> rfl

/-- The state in which the fast path of `SD_DMA_write` issues its request has
the queue of the state before. -/
theorem writeFastIssueState_queue (cfg : Config) (addr count : Nat) (w : World) :
    (writeFastIssueState cfg addr count w).SDQueueID = w.SDQueueID ∧
    (writeFastIssueState cfg addr count w).queue = w.queue ∧
    (writeFastIssueState cfg addr count w).nIssue = w.nIssue ∧
    (writeFastIssueState cfg addr count w).capacity = w.capacity ∧
    (writeFastIssueState cfg addr count w).nTick = w.nTick ∧
    (writeFastIssueState cfg addr count w).nState = w.nState := by
  unfold writeFastIssueState
  cases cfg.ENABLE_SD_DMA_CACHE_MAINTENANCE <;> simp [SCB_CleanDCache_by_Addr]

/-- The event that the wait after a DMA request delivers, by what the queue
held before and which interrupt the card raises: the oldest pending event if
there is one; otherwise, on an idle queue, the event that the raised callback
posts, and none without an interrupt.  `rx` tells whether the request is a
read. -/
theorem wait_after_irq (irq : Irq) (timeout : Nat) (rx : Bool) (w : World)
    (hid : w.SDQueueID ≠ none) :
    (∀ e rest, w.queue = e :: rest →
      (osMessageQueueGet timeout 0 (raiseIrq irq rx w)).1 = osStatus.osOK ∧
      (osMessageQueueGet timeout 0 (raiseIrq irq rx w)).2.1 = e) ∧
    (w.queue = [] → irq = Irq.matching →
      (osMessageQueueGet timeout 0 (raiseIrq irq rx w)).1 = osStatus.osOK ∧
      (osMessageQueueGet timeout 0 (raiseIrq irq rx w)).2.1 =
        (if rx = true then READ_CPLT_MSG else WRITE_CPLT_MSG)) ∧
    (w.queue = [] → irq = Irq.crossed →
      (osMessageQueueGet timeout 0 (raiseIrq irq rx w)).1 = osStatus.osOK ∧
      (osMessageQueueGet timeout 0 (raiseIrq irq rx w)).2.1 =
        (if rx = true then WRITE_CPLT_MSG else READ_CPLT_MSG)) ∧
    (w.queue = [] → irq = Irq.silent →
      (osMessageQueueGet timeout 0 (raiseIrq irq rx w)).1 ≠ osStatus.osOK) := by
  obtain ⟨q, hq⟩ := Option.ne_none_iff_exists'.mp hid
  refine ⟨?_, ?_, ?_, ?_⟩
  · intro e rest hqe
    cases irq <;> cases rx <;>
      by_cases hl : rest.length + 1 < (w.capacity : Nat) <;>
      simp [raiseIrq, HAL_SD_RxCpltCallback, HAL_SD_TxCpltCallback, osMessageQueuePut,
        osMessageQueueGet, hq, hqe, hl]
  · intro hqe hirq
    subst hirq
    cases rx <;>
      simp [raiseIrq, HAL_SD_RxCpltCallback, HAL_SD_TxCpltCallback, osMessageQueuePut,
        osMessageQueueGet, hq, hqe, READ_CPLT_MSG, WRITE_CPLT_MSG]
  · intro hqe hirq
    subst hirq
    cases rx <;>
      simp [raiseIrq, HAL_SD_RxCpltCallback, HAL_SD_TxCpltCallback, osMessageQueuePut,
        osMessageQueueGet, hq, hqe, READ_CPLT_MSG, WRITE_CPLT_MSG]
  · intro hqe hirq
    subst hirq
    by_cases ht : timeout = 0 <;>
      simp [raiseIrq, osMessageQueueGet, hq, hqe, ht]

/-- The interrupt and the wait on the queue leave the counters of tick readings
and card-state samples as they are. -/
theorem wait_after_irq_ticks (irq : Irq) (timeout event : Nat) (rx : Bool) (w : World) :
    (osMessageQueueGet timeout event (raiseIrq irq rx w)).2.2.nTick = w.nTick ∧
    (osMessageQueueGet timeout event (raiseIrq irq rx w)).2.2.nState = w.nState := by
  have h1 : (raiseIrq irq rx w).nTick = w.nTick ∧ (raiseIrq irq rx w).nState = w.nState := by
    cases irq <;> cases rx <;>
      simp [raiseIrq, HAL_SD_RxCpltCallback, HAL_SD_TxCpltCallback, queuePut_effect]
  have h2 : ∀ v : World, (osMessageQueueGet timeout event v).2.2.nTick = v.nTick ∧
      (osMessageQueueGet timeout event v).2.2.nState = v.nState := by
    intro v
    unfold osMessageQueueGet
    cases h : v.SDQueueID with
    | none => simp [h]
    | some q =>
      cases hq : v.queue with
      | nil => by_cases ht : timeout = 0 <;> simp [h, hq, ht]
      | cons a rest => simp [h, hq]
  exact ⟨(h2 _).1.trans h1.1, (h2 _).2.trans h1.2⟩

/-- The wait of the fast path of `SD_DMA_read` after an accepted request. -/
theorem fastReadWait_eq (cfg : Config) (hw : Hw) (addr : Nat) (buf : Mem) (s count : Nat)
    (w : World) (hacc : hw.issueAt w.nIssue = HAL_Status.HAL_OK) :
    (fastReadIssue hw addr buf s count w).1 = HAL_Status.HAL_OK ∧
    fastReadWait cfg hw addr buf s count w =
      osMessageQueueGet cfg.SD_TIMEOUT 0 (raiseIrq (hw.irqAt w.nIssue) true
        { w with nIssue := w.nIssue + 1,
                 trace := w.trace ++ [Ev.readDMA (Region.caller addr) (u32 s) (u32 count)] }) := by
  simp [fastReadWait, fastReadIssue, HAL_SD_ReadBlocks_DMA, hacc]

/-- The wait of the fast path of `SD_DMA_write` after an accepted request. -/
theorem fastWriteWait_eq (cfg : Config) (hw : Hw) (addr : Nat) (buf : Mem) (s count : Nat)
    (w : World) (hacc : hw.issueAt w.nIssue = HAL_Status.HAL_OK) :
    (fastWriteIssue cfg hw addr buf s count w).1 = HAL_Status.HAL_OK ∧
    fastWriteWait cfg hw addr buf s count w =
      osMessageQueueGet cfg.SD_TIMEOUT 0 (raiseIrq (hw.irqAt w.nIssue) false
        { writeFastIssueState cfg addr count w with
          nIssue := w.nIssue + 1,
          trace := (writeFastIssueState cfg addr count w).trace ++
            [Ev.writeDMA (Region.caller addr) (u32 s) (u32 count)],
          disk := diskAfterWrite w.disk buf (u32 s) (u32 count) }) := by
  obtain ⟨-, -, i3, -, -, -⟩ := writeFastIssueState_queue cfg addr count w
  have hd : (writeFastIssueState cfg addr count w).disk = w.disk := by
    unfold writeFastIssueState
    cases cfg.ENABLE_SD_DMA_CACHE_MAINTENANCE <;> simp [SCB_CleanDCache_by_Addr]
  simp [fastWriteWait, fastWriteIssue, HAL_SD_WriteBlocks_DMA, hacc, i3, hd]

/-- The wait of a slow-path sub-request: when the wait delivers the expected
event, the readiness poll runs (it reads the tick counter at least twice);
otherwise no poll runs and the state is the one after the wait. -/
theorem slowWait_ticks (cfg : Config) (hw : Hw) (fuel expected event : Nat) (w : World) :
    ((osMessageQueueGet cfg.SD_TIMEOUT event w).1 = osStatus.osOK →
      (osMessageQueueGet cfg.SD_TIMEOUT event w).2.1 = expected →
      ∀ r, slowWait cfg hw fuel expected event w = some r →
        (osMessageQueueGet cfg.SD_TIMEOUT event w).2.2.nTick + 2 ≤ r.2.nTick) ∧
    (¬ ((osMessageQueueGet cfg.SD_TIMEOUT event w).1 = osStatus.osOK ∧
        (osMessageQueueGet cfg.SD_TIMEOUT event w).2.1 = expected) →
      slowWait cfg hw fuel expected event w =
        some ((osMessageQueueGet cfg.SD_TIMEOUT event w).2.1,
          (osMessageQueueGet cfg.SD_TIMEOUT event w).2.2)) := by
  constructor
  · intro h1 h2 r hr
    unfold slowWait at hr
    simp only [h1, h2, and_self, if_true] at hr
    split at hr
    · simp at hr
    · rename_i b w1 hp
      simp only [Option.some.injEq] at hr
      rw [← hr]
      have := waitTransfer_nTick hw _ _ _ _ _ _ hp
      simp only [osKernelGetTickCount] at this
      simp only
      omega
  · intro hn
    unfold slowWait
    simp only [hn, if_false]

/-- One sub-request of the slow path of `SD_DMA_read`, accepted on an idle
queue: when the card raises the Rx callback the readiness poll runs; when it
raises the Tx callback no poll runs. -/
theorem read_slow_one (cfg : Config) (hw : Hw) (fuel s : Nat) (buf : Mem) (w0 : World)
    (hidle : QueueIdle w0) (hacc : hw.issueAt w0.nIssue = HAL_Status.HAL_OK) :
    (hw.irqAt w0.nIssue = Irq.matching →
      ∀ r, SD_DMA_read_slow cfg hw fuel 1 0 none 0 s 0 buf w0 = some r →
        w0.nTick + 2 ≤ r.2.2.2.nTick) ∧
    (hw.irqAt w0.nIssue = Irq.crossed →
      ∃ r, SD_DMA_read_slow cfg hw fuel 1 0 none 0 s 0 buf w0 = some r ∧
        r.2.2.2.nTick = w0.nTick ∧ r.2.2.2.nState = w0.nState) := by
  have hd : HAL_SD_ReadBlocks_DMA hw Region.scratch (u32 s) 1 buf w0 =
      (HAL_Status.HAL_OK, buf, raiseIrq (hw.irqAt w0.nIssue) true
        { w0 with nIssue := w0.nIssue + 1,
                  trace := w0.trace ++ [Ev.readDMA Region.scratch (u32 s) 1],
                  scratch := memcpy w0.scratch 0 (diskData w0.disk (u32 s)) 0
                    (1 * BLOCKSIZE) }) := by
    simp [HAL_SD_ReadBlocks_DMA, hacc]
  obtain ⟨-, m1, m2, -⟩ := wait_after_irq (hw.irqAt w0.nIssue) cfg.SD_TIMEOUT true
    { w0 with nIssue := w0.nIssue + 1,
              trace := w0.trace ++ [Ev.readDMA Region.scratch (u32 s) 1],
              scratch := memcpy w0.scratch 0 (diskData w0.disk (u32 s)) 0
                (1 * BLOCKSIZE) } hidle.1
  obtain ⟨k1, k2⟩ := wait_after_irq_ticks (hw.irqAt w0.nIssue) cfg.SD_TIMEOUT 0 true
    { w0 with nIssue := w0.nIssue + 1,
              trace := w0.trace ++ [Ev.readDMA Region.scratch (u32 s) 1],
              scratch := memcpy w0.scratch 0 (diskData w0.disk (u32 s)) 0
                (1 * BLOCKSIZE) }
  obtain ⟨t1, t2⟩ := slowWait_ticks cfg hw fuel READ_CPLT_MSG 0
    (raiseIrq (hw.irqAt w0.nIssue) true
      { w0 with nIssue := w0.nIssue + 1,
                trace := w0.trace ++ [Ev.readDMA Region.scratch (u32 s) 1],
                scratch := memcpy w0.scratch 0 (diskData w0.disk (u32 s)) 0
                  (1 * BLOCKSIZE) })
  constructor
  · intro hirq r hr
    obtain ⟨a1, a2⟩ := m1 hidle.2 hirq
    simp only [if_true] at a2
    have hgrow := t1 a1 a2
    unfold SD_DMA_read_slow at hr
    simp only [hd, if_true] at hr
    split at hr
    · simp at hr
    · rename_i e1 w1 hsw
      have h2 := hgrow _ hsw
      unfold SD_DMA_read_slow at hr
      simp only [Option.some.injEq] at hr
      rw [← hr]
      simp only at h2 k1 ⊢
      cases cfg.ENABLE_SD_DMA_CACHE_MAINTENANCE <;>
        simp only [SCB_InvalidateDCache_by_Addr, if_true, Bool.false_eq_true, if_false] <;>
        omega
  · intro hirq
    obtain ⟨a1, a2⟩ := m2 hidle.2 hirq
    simp only [if_true] at a2
    have hne : ¬ ((osMessageQueueGet cfg.SD_TIMEOUT 0
        (raiseIrq (hw.irqAt w0.nIssue) true
          { w0 with nIssue := w0.nIssue + 1,
                    trace := w0.trace ++ [Ev.readDMA Region.scratch (u32 s) 1],
                    scratch := memcpy w0.scratch 0 (diskData w0.disk (u32 s)) 0
                      (1 * BLOCKSIZE) })).1 = osStatus.osOK ∧
        (osMessageQueueGet cfg.SD_TIMEOUT 0
        (raiseIrq (hw.irqAt w0.nIssue) true
          { w0 with nIssue := w0.nIssue + 1,
                    trace := w0.trace ++ [Ev.readDMA Region.scratch (u32 s) 1],
                    scratch := memcpy w0.scratch 0 (diskData w0.disk (u32 s)) 0
                      (1 * BLOCKSIZE) })).2.1 = READ_CPLT_MSG) := by
      rw [a2]
      simp [READ_CPLT_MSG, WRITE_CPLT_MSG]
    have hsw := t2 hne
    unfold SD_DMA_read_slow
    simp only [hd, if_true, hsw]
    unfold SD_DMA_read_slow
    refine ⟨_, rfl, ?_, ?_⟩
    · simp only at k1 ⊢
      cases cfg.ENABLE_SD_DMA_CACHE_MAINTENANCE <;>
        simp only [SCB_InvalidateDCache_by_Addr, if_true, Bool.false_eq_true, if_false] <;>
        omega
    · simp only at k2 ⊢
      cases cfg.ENABLE_SD_DMA_CACHE_MAINTENANCE <;>
        simp only [SCB_InvalidateDCache_by_Addr, if_true, Bool.false_eq_true, if_false] <;>
        omega

/-- The state in which the slow path of `SD_DMA_write` issues a sub-request has
the queue and the counters of the state before. -/
theorem writeSlowIssueState_queue (cfg : Config) (buf : Mem) (off : Nat) (w : World) :
    (writeSlowIssueState cfg buf off w).SDQueueID = w.SDQueueID ∧
    (writeSlowIssueState cfg buf off w).queue = w.queue ∧
    (writeSlowIssueState cfg buf off w).nIssue = w.nIssue ∧
    (writeSlowIssueState cfg buf off w).nTick = w.nTick ∧
    (writeSlowIssueState cfg buf off w).nState = w.nState := by
  unfold writeSlowIssueState
  cases cfg.ENABLE_SD_DMA_CACHE_MAINTENANCE <;> simp [SCB_CleanDCache_by_Addr]

/-- One sub-request of the slow path of `SD_DMA_write`, accepted on an idle
queue: when the card raises the Tx callback the readiness poll runs; when it
raises the Rx callback no poll runs. -/
theorem write_slow_one (cfg : Config) (hw : Hw) (fuel s : Nat) (buf : Mem) (w0 : World)
    (hidle : QueueIdle w0) (hacc : hw.issueAt w0.nIssue = HAL_Status.HAL_OK) :
    (hw.irqAt w0.nIssue = Irq.matching →
      ∀ r, SD_DMA_write_slow cfg hw fuel buf 1 0 none 0 s 0 w0 = some r →
        w0.nTick + 2 ≤ r.2.2.nTick) ∧
    (hw.irqAt w0.nIssue = Irq.crossed →
      ∃ r, SD_DMA_write_slow cfg hw fuel buf 1 0 none 0 s 0 w0 = some r ∧
        r.2.2.nTick = w0.nTick ∧ r.2.2.nState = w0.nState) := by
  obtain ⟨i1, i2, i3, i4, i5⟩ := writeSlowIssueState_queue cfg buf 0 w0
  have hd : HAL_SD_WriteBlocks_DMA hw Region.scratch (u32 s) 1 buf
        (writeSlowIssueState cfg buf 0 w0) =
      (HAL_Status.HAL_OK, raiseIrq (hw.irqAt w0.nIssue) false
        { writeSlowIssueState cfg buf 0 w0 with
          nIssue := (writeSlowIssueState cfg buf 0 w0).nIssue + 1,
          trace := (writeSlowIssueState cfg buf 0 w0).trace ++
            [Ev.writeDMA Region.scratch (u32 s) 1],
          disk := diskAfterWrite (writeSlowIssueState cfg buf 0 w0).disk
            (writeSlowIssueState cfg buf 0 w0).scratch (u32 s) 1 }) := by
    simp [HAL_SD_WriteBlocks_DMA, hacc, i3]
  obtain ⟨-, m1, m2, -⟩ := wait_after_irq (hw.irqAt w0.nIssue) cfg.SD_TIMEOUT false
    { writeSlowIssueState cfg buf 0 w0 with
      nIssue := (writeSlowIssueState cfg buf 0 w0).nIssue + 1,
      trace := (writeSlowIssueState cfg buf 0 w0).trace ++
        [Ev.writeDMA Region.scratch (u32 s) 1],
      disk := diskAfterWrite (writeSlowIssueState cfg buf 0 w0).disk
        (writeSlowIssueState cfg buf 0 w0).scratch (u32 s) 1 }
    (by simp only [i1]; exact hidle.1)
  obtain ⟨k1, k2⟩ := wait_after_irq_ticks (hw.irqAt w0.nIssue) cfg.SD_TIMEOUT 0 false
    { writeSlowIssueState cfg buf 0 w0 with
      nIssue := (writeSlowIssueState cfg buf 0 w0).nIssue + 1,
      trace := (writeSlowIssueState cfg buf 0 w0).trace ++
        [Ev.writeDMA Region.scratch (u32 s) 1],
      disk := diskAfterWrite (writeSlowIssueState cfg buf 0 w0).disk
        (writeSlowIssueState cfg buf 0 w0).scratch (u32 s) 1 }
  obtain ⟨t1, t2⟩ := slowWait_ticks cfg hw fuel WRITE_CPLT_MSG 0
    (raiseIrq (hw.irqAt w0.nIssue) false
      { writeSlowIssueState cfg buf 0 w0 with
        nIssue := (writeSlowIssueState cfg buf 0 w0).nIssue + 1,
        trace := (writeSlowIssueState cfg buf 0 w0).trace ++
          [Ev.writeDMA Region.scratch (u32 s) 1],
        disk := diskAfterWrite (writeSlowIssueState cfg buf 0 w0).disk
          (writeSlowIssueState cfg buf 0 w0).scratch (u32 s) 1 })
  have k1' := k1.trans i4
  have k2' := k2.trans i5
  have hq0 : ({ writeSlowIssueState cfg buf 0 w0 with
      nIssue := (writeSlowIssueState cfg buf 0 w0).nIssue + 1,
      trace := (writeSlowIssueState cfg buf 0 w0).trace ++
        [Ev.writeDMA Region.scratch (u32 s) 1],
      disk := diskAfterWrite (writeSlowIssueState cfg buf 0 w0).disk
        (writeSlowIssueState cfg buf 0 w0).scratch (u32 s) 1 } : World).queue = [] := by
    simp only [i2]; exact hidle.2
  constructor
  · intro hirq r hr
    obtain ⟨a1, a2⟩ := m1 hq0 hirq
    simp only [Bool.false_eq_true, if_false] at a2
    have hgrow := t1 a1 a2
    rw [write_slow_unfold] at hr
    simp only [hd, if_true] at hr
    split at hr
    · simp at hr
    · rename_i e1 w1 hsw
      have h2 := hgrow _ hsw
      rw [k1'] at h2
      unfold SD_DMA_write_slow at hr
      simp only [Option.some.injEq] at hr
      rw [← hr]
      exact h2
  · intro hirq
    obtain ⟨a1, a2⟩ := m2 hq0 hirq
    simp only [Bool.false_eq_true, if_false] at a2
    have hne : ¬ ((osMessageQueueGet cfg.SD_TIMEOUT 0
        (raiseIrq (hw.irqAt w0.nIssue) false
          { writeSlowIssueState cfg buf 0 w0 with
            nIssue := (writeSlowIssueState cfg buf 0 w0).nIssue + 1,
            trace := (writeSlowIssueState cfg buf 0 w0).trace ++
              [Ev.writeDMA Region.scratch (u32 s) 1],
            disk := diskAfterWrite (writeSlowIssueState cfg buf 0 w0).disk
              (writeSlowIssueState cfg buf 0 w0).scratch (u32 s) 1 })).1 = osStatus.osOK ∧
        (osMessageQueueGet cfg.SD_TIMEOUT 0
        (raiseIrq (hw.irqAt w0.nIssue) false
          { writeSlowIssueState cfg buf 0 w0 with
            nIssue := (writeSlowIssueState cfg buf 0 w0).nIssue + 1,
            trace := (writeSlowIssueState cfg buf 0 w0).trace ++
              [Ev.writeDMA Region.scratch (u32 s) 1],
            disk := diskAfterWrite (writeSlowIssueState cfg buf 0 w0).disk
              (writeSlowIssueState cfg buf 0 w0).scratch (u32 s) 1 })).2.1
          = WRITE_CPLT_MSG) := by
      rw [a2]
      simp [READ_CPLT_MSG, WRITE_CPLT_MSG]
    have hsw := t2 hne
    rw [write_slow_unfold]
    simp only [hd, if_true, hsw]
    unfold SD_DMA_write_slow
    exact ⟨_, rfl, k1', k2'⟩

/-! ## Cache maintenance on the fast path -/

theorem onlyWaits_refl (t : List Ev) : OnlyWaits t t := ⟨[], by simp, by simp⟩

theorem onlyWaits_trans {a b c : List Ev} (h1 : OnlyWaits a b) (h2 : OnlyWaits b c) :
    OnlyWaits a c := by
  obtain ⟨e1, t1, p1⟩ := h1
  obtain ⟨e2, t2, p2⟩ := h2
  refine ⟨e1 ++ e2, by rw [t2, t1, List.append_assoc], ?_⟩
  intro e he
  rcases List.mem_append.mp he with h | h
  · exact p1 e h
  · exact p2 e h

theorem onlyWaits_append {a b : List Ev} (pre : List Ev) (h : OnlyWaits a b) :
    OnlyWaits (pre ++ a) (pre ++ b) := by
  obtain ⟨e1, t1, p1⟩ := h
  exact ⟨e1, by rw [t1, List.append_assoc], p1⟩

theorem ProbeOnly.onlyWaits {w w1 : World} (h : ProbeOnly w w1) :
    OnlyWaits w.trace w1.trace := by
  obtain ⟨-, -, -, -, -, -, -, -, -, evs, ht, hp⟩ := h
  refine ⟨evs, ht, ?_⟩
  intro e he
  rcases hp e he with h | h <;> simp [h, isWaitEvent]

theorem queuePut_onlyWaits (m p t : Nat) (w : World) :
    OnlyWaits w.trace (osMessageQueuePut m p t w).2.trace := by
  rw [queuePut_effect]
  exact ⟨[Ev.queuePut m p t], rfl, by simp [isWaitEvent]⟩

theorem queueGet_onlyWaits (t e : Nat) (w : World) :
    OnlyWaits w.trace (osMessageQueueGet t e w).2.2.trace := by
  rw [queueGet_trace]
  exact ⟨[Ev.queueGet t], rfl, by simp [isWaitEvent]⟩

theorem raiseIrq_onlyWaits (irq : Irq) (rx : Bool) (w : World) :
    OnlyWaits w.trace (raiseIrq irq rx w).trace := by
  cases irq <;> cases rx <;>
    simp only [raiseIrq, HAL_SD_RxCpltCallback, HAL_SD_TxCpltCallback, if_true,
      Bool.false_eq_true, if_false]
  all_goals first
    | exact onlyWaits_refl _
    | exact queuePut_onlyWaits _ _ _ _

theorem getTick_onlyWaits (hw : Hw) (w : World) :
    OnlyWaits w.trace (osKernelGetTickCount hw w).2.trace :=
  ⟨[Ev.getTick], rfl, by simp [isWaitEvent]⟩

/-- The trace of a DMA write request: the request, then the post of the
completion callback if the card raises an interrupt. -/
theorem writeDMA_events (hw : Hw) (src : Region) (blk n : Nat) (buf : Mem) (w : World) :
    OnlyWaits (w.trace ++ [Ev.writeDMA src blk n])
      (HAL_SD_WriteBlocks_DMA hw src blk n buf w).2.trace := by
  unfold HAL_SD_WriteBlocks_DMA
  by_cases h : hw.issueAt w.nIssue = HAL_Status.HAL_OK
  · simp only [h, if_true]
    exact raiseIrq_onlyWaits _ _ _
  · simp only [h, if_false]
    exact onlyWaits_refl _

/-- The trace of a DMA read request: the request, then the post of the
completion callback if the card raises an interrupt. -/
theorem readDMA_events (hw : Hw) (dst : Region) (blk n : Nat) (buf : Mem) (w : World) :
    OnlyWaits (w.trace ++ [Ev.readDMA dst blk n])
      (HAL_SD_ReadBlocks_DMA hw dst blk n buf w).2.2.trace := by
  unfold HAL_SD_ReadBlocks_DMA
  by_cases h : hw.issueAt w.nIssue = HAL_Status.HAL_OK
  · cases dst with
    | caller a =>
      simp only [h, if_true]
      exact raiseIrq_onlyWaits _ _ _
    | scratch =>
      simp only [h, if_true]
      exact raiseIrq_onlyWaits _ _ _
  · simp only [h, if_false]
    exact onlyWaits_refl _

/-- A list with a single element that satisfies `p` splits at that element in
one way only. -/
theorem split_unique {α : Type} (p : α → Prop) :
    ∀ (A pre B post : List α) (d x : α), (∀ e ∈ A, ¬ p e) → (∀ e ∈ B, ¬ p e) → p x →
      A ++ d :: B = pre ++ x :: post → pre = A ∧ x = d ∧ post = B := by
  intro A
  induction A with
  | nil =>
    intro pre B post d x _ hB hx h
    cases pre with
    | nil =>
      simp only [List.nil_append, List.cons.injEq] at h
      exact ⟨rfl, h.1.symm, h.2.symm⟩
    | cons a pre1 =>
      simp only [List.nil_append, List.cons_append, List.cons.injEq] at h
      exact absurd hx (hB x (by rw [h.2]; simp))
  | cons a A1 ih =>
    intro pre B post d x hA hB hx h
    cases pre with
    | nil =>
      simp only [List.nil_append, List.cons_append, List.cons.injEq] at h
      exact absurd hx (by rw [← h.1]; exact hA a (by simp))
    | cons a1 pre1 =>
      simp only [List.cons_append, List.cons.injEq] at h
      obtain ⟨e1, e2, e3⟩ := ih pre1 B post d x
        (fun e he => hA e (List.mem_cons_of_mem _ he)) hB hx h.2
      exact ⟨by rw [e1, h.1], e2, e3⟩

/-- A list without an element that satisfies `p` does not split at one. -/
theorem no_split {α : Type} (p : α → Prop) (L pre post : List α) (x : α)
    (hL : ∀ e ∈ L, ¬ p e) (hx : p x) (h : L = pre ++ x :: post) : False :=
  hL x (by rw [h]; simp) hx

/-- A readiness poll that ends on a transfer-ready sample: its last call is a
card-state sample, and that sample read transfer-ready. -/
theorem waitTransfer_ready (hw : Hw) (timer timeout : Nat) :
    ∀ (fuel : Nat) (w w1 : World),
      waitTransfer hw timer timeout fuel w = some (true, w1) →
      hw.cardStateAt (w1.nState - 1) = HAL_SD_CARD_TRANSFER ∧
      ∃ pre0, w1.trace = w.trace ++ (pre0 ++ [Ev.getCardState]) := by
  intro fuel
  induction fuel with
  | zero => intro w w1 h; simp [waitTransfer] at h
  | succ n ih =>
    intro w w1 h
    unfold waitTransfer at h
    simp only at h
    split at h
    · split at h
      · rename_i hs
        simp only [Option.some.injEq, Prod.mk.injEq, true_and] at h
        subst h
        refine ⟨?_, [Ev.getTick], ?_⟩
        · simpa [HAL_SD_GetCardState, osKernelGetTickCount] using hs
        · simp [HAL_SD_GetCardState, osKernelGetTickCount]
      · obtain ⟨h1, p, hp⟩ := ih _ _ h
        refine ⟨h1, [Ev.getTick, Ev.getCardState] ++ p, ?_⟩
        rw [hp]
        simp [HAL_SD_GetCardState, osKernelGetTickCount]
    · simp at h

/-- The calls of the fast path of `SD_DMA_write` with cache maintenance
compiled in: the cache clean, the DMA request, then waiting and signalling
calls only. -/
theorem write_fast_events (cfg : Config) (hw : Hw) (fuel addr : Nat) (buf : Mem)
    (s count : Nat) (w : World) (res : DRESULT) (w1 : World)
    (hcm : cfg.ENABLE_SD_DMA_CACHE_MAINTENANCE = true)
    (h : SD_DMA_write_fast cfg hw fuel addr buf s count w = some (res, w1)) :
    OnlyWaits
      (w.trace ++ [Ev.cleanDCache (Region.caller addr) (u32 (count * BLOCKSIZE)),
        Ev.writeDMA (Region.caller addr) (u32 s) (u32 count)])
      w1.trace := by
  have hd := writeDMA_events hw (Region.caller addr) (u32 s) (u32 count) buf
    (writeFastIssueState cfg addr count w)
  have hc : (writeFastIssueState cfg addr count w).trace =
      w.trace ++ [Ev.cleanDCache (Region.caller addr) (u32 (count * BLOCKSIZE))] := by
    simp [writeFastIssueState, hcm, SCB_CleanDCache_by_Addr]
  rw [hc, List.append_assoc] at hd
  have hd1 : OnlyWaits
      (w.trace ++ [Ev.cleanDCache (Region.caller addr) (u32 (count * BLOCKSIZE)),
        Ev.writeDMA (Region.caller addr) (u32 s) (u32 count)])
      (HAL_SD_WriteBlocks_DMA hw (Region.caller addr) (u32 s) (u32 count) buf
        (writeFastIssueState cfg addr count w)).2.trace := hd
  have hg := queueGet_onlyWaits cfg.SD_TIMEOUT 0
    (HAL_SD_WriteBlocks_DMA hw (Region.caller addr) (u32 s) (u32 count) buf
      (writeFastIssueState cfg addr count w)).2
  have ht := getTick_onlyWaits hw (osMessageQueueGet cfg.SD_TIMEOUT 0
    (HAL_SD_WriteBlocks_DMA hw (Region.caller addr) (u32 s) (u32 count) buf
      (writeFastIssueState cfg addr count w)).2).2.2
  rw [write_fast_unfold] at h
  split at h
  · split at h
    · split at h
      · simp at h
      · rename_i w2 hp
        simp only [Option.some.injEq, Prod.mk.injEq] at h
        rw [← h.2]
        exact onlyWaits_trans hd1 (onlyWaits_trans hg (onlyWaits_trans ht
          (waitTransfer_probeOnly _ _ _ _ _ _ _ hp).onlyWaits))
      · rename_i w2 hp
        simp only [Option.some.injEq, Prod.mk.injEq] at h
        rw [← h.2]
        exact onlyWaits_trans hd1 (onlyWaits_trans hg (onlyWaits_trans ht
          (waitTransfer_probeOnly _ _ _ _ _ _ _ hp).onlyWaits))
    · simp only [Option.some.injEq, Prod.mk.injEq] at h
      rw [← h.2]
      exact onlyWaits_trans hd1 hg
  · simp only [Option.some.injEq, Prod.mk.injEq] at h
    rw [← h.2]
    exact hd1

/-- The calls of the fast path of `SD_DMA_read` with cache maintenance compiled
in.  A successful read: the DMA request, waiting and signalling calls up to the
transfer-ready sample that ends the readiness poll, then the cache invalidate.
A failed read: the DMA request, then waiting and signalling calls only. -/
theorem read_fast_events (cfg : Config) (hw : Hw) (fuel addr : Nat) (buf : Mem)
    (s count : Nat) (w : World) (res : DRESULT) (buf1 : Mem) (w1 : World)
    (hcm : cfg.ENABLE_SD_DMA_CACHE_MAINTENANCE = true)
    (h : SD_DMA_read_fast cfg hw fuel addr buf s count w = some (res, buf1, w1)) :
    (res = DRESULT.RES_OK ∧
      ∃ wp, (fastReadWait cfg hw addr buf s count w).1 = osStatus.osOK ∧
        (fastReadWait cfg hw addr buf s count w).2.1 = READ_CPLT_MSG ∧
        fastReadPoll cfg hw fuel addr buf s count w = some (true, wp) ∧
        OnlyWaits (w.trace ++ [Ev.readDMA (Region.caller addr) (u32 s) (u32 count)])
          wp.trace ∧
        Ev.queueGet cfg.SD_TIMEOUT ∈ wp.trace.drop w.trace.length ∧
        w1.trace = wp.trace ++
          [Ev.invalidateDCache (Region.caller addr) (u32 (count * BLOCKSIZE))]) ∨
    (res = DRESULT.RES_ERROR ∧
      OnlyWaits (w.trace ++ [Ev.readDMA (Region.caller addr) (u32 s) (u32 count)])
        w1.trace) := by
  have hd := readDMA_events hw (Region.caller addr) (u32 s) (u32 count) buf w
  have hg := queueGet_onlyWaits cfg.SD_TIMEOUT 0
    (HAL_SD_ReadBlocks_DMA hw (Region.caller addr) (u32 s) (u32 count) buf w).2.2
  have hgt := queueGet_trace cfg.SD_TIMEOUT 0
    (HAL_SD_ReadBlocks_DMA hw (Region.caller addr) (u32 s) (u32 count) buf w).2.2
  have ht := getTick_onlyWaits hw (osMessageQueueGet cfg.SD_TIMEOUT 0
    (HAL_SD_ReadBlocks_DMA hw (Region.caller addr) (u32 s) (u32 count) buf w).2.2).2.2
  unfold SD_DMA_read_fast at h
  simp only at h
  split at h
  · split at h
    · rename_i hq
      split at h
      · simp at h
      · rename_i w2 hp
        simp only [hcm, if_true, Option.some.injEq, Prod.mk.injEq] at h
        left
        refine ⟨h.1.symm, w2, hq.1, hq.2, hp, ?_, ?_, ?_⟩
        · exact onlyWaits_trans hd (onlyWaits_trans hg (onlyWaits_trans ht
            (waitTransfer_probeOnly _ _ _ _ _ _ _ hp).onlyWaits))
        · obtain ⟨e1, t1, -⟩ := hd
          obtain ⟨e2, t2, -⟩ := onlyWaits_trans ht
            (waitTransfer_probeOnly _ _ _ _ _ _ _ hp).onlyWaits
          rw [t2, hgt, t1]
          simp
        · rw [← h.2.2]
          simp [SCB_InvalidateDCache_by_Addr]
      · rename_i w2 hp
        simp only [Option.some.injEq, Prod.mk.injEq] at h
        right
        refine ⟨h.1.symm, ?_⟩
        rw [← h.2.2]
        exact onlyWaits_trans hd (onlyWaits_trans hg (onlyWaits_trans ht
          (waitTransfer_probeOnly _ _ _ _ _ _ _ hp).onlyWaits))
    · simp only [Option.some.injEq, Prod.mk.injEq] at h
      right
      refine ⟨h.1.symm, ?_⟩
      rw [← h.2.2]
      exact onlyWaits_trans hd hg
  · simp only [Option.some.injEq, Prod.mk.injEq] at h
    right
    refine ⟨h.1.symm, ?_⟩
    rw [← h.2.2]
    exact hd

/-- With a tick source that passes every deadline within the fuel, the initial
probe returns. -/
theorem check_terminates {hw : Hw} {timeout fuel : Nat}
    (hclk : ClockAdvances hw timeout fuel) (w : World) :
    ∃ r w0, SD_check_status_with_timeout hw timeout fuel w = some (r, w0) := by
  obtain ⟨b, w1, hp, -⟩ := poll_terminates hclk w
  unfold SD_check_status_with_timeout
  simp only [hp]
  cases b
  · exact ⟨-1, w1, rfl⟩
  · exact ⟨0, w1, rfl⟩

/-- With a tick source that passes every deadline within the fuel, the fast
paths return. -/
theorem fast_terminates {cfg : Config} {hw : Hw} {fuel : Nat}
    (hclk : ClockAdvances hw cfg.SD_TIMEOUT fuel) (addr : Nat) (buf : Mem)
    (s count : Nat) (w : World) :
    (SD_DMA_write_fast cfg hw fuel addr buf s count w).isSome = true ∧
    (SD_DMA_read_fast cfg hw fuel addr buf s count w).isSome = true := by
  constructor
  · rw [write_fast_unfold]
    split
    · split
      · obtain ⟨b, w1, hp, -⟩ := poll_terminates hclk
          (osMessageQueueGet cfg.SD_TIMEOUT 0
            (HAL_SD_WriteBlocks_DMA hw (Region.caller addr) (u32 s) (u32 count) buf
              (writeFastIssueState cfg addr count w)).2).2.2
        rw [hp]
        cases b <;> rfl
      · rfl
    · rfl
  · unfold SD_DMA_read_fast
    simp only
    split
    · split
      · obtain ⟨b, w1, hp, -⟩ := poll_terminates hclk
          (osMessageQueueGet cfg.SD_TIMEOUT 0
            (HAL_SD_ReadBlocks_DMA hw (Region.caller addr) (u32 s) (u32 count) buf w).2.2).2.2
        rw [hp]
        cases b <;> rfl
      · rfl
    · rfl

/-- A waiting or signalling call is not a DMA write request. -/
theorem wait_not_writeDMA (e : Ev) (h : isWaitEvent e = true) :
    ¬ ∃ r b n, e = Ev.writeDMA r b n := by
  rintro ⟨r, b, n, rfl⟩
  simp [isWaitEvent] at h

/-- A waiting or signalling call is not a cache invalidate. -/
theorem wait_not_invalidate (e : Ev) (h : isWaitEvent e = true) :
    ¬ ∃ r len, e = Ev.invalidateDCache r len := by
  rintro ⟨r, len, rfl⟩
  simp [isWaitEvent] at h

/-- A list whose last element is `a` and whose non-empty tail part is `pre`:
`pre` ends with `a`. -/
theorem ends_with {α : Type} (a : α) (L pre : List α) (hne : pre ≠ [])
    (h : (L ++ pre).getLast? = some a) : ∃ p0, pre = p0 ++ [a] := by
  rw [List.getLast?_append_of_ne_nil _ hne] at h
  exact ⟨pre.dropLast, (List.dropLast_append_getLast? a h).symm⟩

/-- C21: with cache maintenance compiled in, a buffer aligned on 32 bytes (the
fast path) and a byte length `count * BLOCKSIZE` that fits 32 bits.
`SD_DMA_write`: every DMA write request among the calls of the invocation is
the request for the caller's buffer and `count` sectors, and the call right
before it is the cache clean over the caller's buffer with length
`count * BLOCKSIZE`.  `SD_DMA_read`: every cache invalidate among the calls of
the invocation is over the caller's buffer with length `count * BLOCKSIZE`, is
the last call, and belongs to a read that returns `RES_OK`; the calls before it
are those up to the state `wp` in which the readiness poll ended on a
transfer-ready card-state sample, after the initial probe succeeded and the
wait on the completion queue delivered `READ_CPLT_MSG`; and a read that returns
`RES_OK` ends with that cache invalidate.  With a tick source that passes every
deadline within the fuel, both functions return. -/
theorem C21_cache_maintenance_order (cfg : Config) (hw : Hw) (fuel addr : Nat) (buf : Mem)
    (s count : Nat) (w : World)
    (hcm : cfg.ENABLE_SD_DMA_CACHE_MAINTENANCE = true) (hal : addr % 32 = 0)
    (hfit : count * BLOCKSIZE < 2 ^ 32) :
    (∀ res w1, SD_DMA_write cfg hw fuel addr buf s count w = some (res, w1) →
      ∃ evs, w1.trace = w.trace ++ evs ∧
        ∀ pre r b n post, evs = pre ++ Ev.writeDMA r b n :: post →
          r = Region.caller addr ∧ b = u32 s ∧ n = count ∧
          ∃ pre0, pre = pre0 ++
            [Ev.cleanDCache (Region.caller addr) (count * BLOCKSIZE)]) ∧
    (∀ res buf1 w1, SD_DMA_read cfg hw fuel addr buf s count w = some (res, buf1, w1) →
      ∃ evs, w1.trace = w.trace ++ evs ∧
        (∀ pre r len post, evs = pre ++ Ev.invalidateDCache r len :: post →
          r = Region.caller addr ∧ len = count * BLOCKSIZE ∧ post = [] ∧
          res = DRESULT.RES_OK ∧
          ∃ w0 wp,
            SD_check_status_with_timeout hw cfg.SD_TIMEOUT fuel w = some (0, w0) ∧
            (fastReadWait cfg hw addr buf s count w0).1 = osStatus.osOK ∧
            (fastReadWait cfg hw addr buf s count w0).2.1 = READ_CPLT_MSG ∧
            fastReadPoll cfg hw fuel addr buf s count w0 = some (true, wp) ∧
            hw.cardStateAt (wp.nState - 1) = HAL_SD_CARD_TRANSFER ∧
            wp.trace = w.trace ++ pre ∧
            Ev.queueGet cfg.SD_TIMEOUT ∈ pre ∧
            ∃ pre0, pre = pre0 ++ [Ev.getCardState]) ∧
        (res = DRESULT.RES_OK →
          ∃ pre, evs = pre ++
            [Ev.invalidateDCache (Region.caller addr) (count * BLOCKSIZE)])) ∧
    (ClockAdvances hw cfg.SD_TIMEOUT fuel →
      (SD_DMA_write cfg hw fuel addr buf s count w).isSome = true ∧
      (SD_DMA_read cfg hw fuel addr buf s count w).isSome = true) := by
  have halr : aligned32 addr = true := (aligned32_iff addr).mpr hal
  have hlen : u32 (count * BLOCKSIZE) = count * BLOCKSIZE := by
    unfold u32; exact Nat.mod_eq_of_lt hfit
  have hcnt : u32 count = count := by
    unfold u32
    apply Nat.mod_eq_of_lt
    have : count ≤ count * BLOCKSIZE := Nat.le_mul_of_pos_right _ (by decide)
    omega
  refine ⟨?_, ?_, ?_⟩
  · -- the write
    intro res w1 h
    unfold SD_DMA_write at h
    cases hp : SD_check_status_with_timeout hw cfg.SD_TIMEOUT fuel w with
    | none => simp [hp] at h
    | some p =>
      obtain ⟨r, w0⟩ := p
      obtain ⟨hpo, hr⟩ := check_probeOnly hw cfg.SD_TIMEOUT fuel w r w0 hp
      obtain ⟨e0, t0, p0⟩ := hpo.onlyWaits
      simp only [hp, halr, if_true] at h
      split at h
      · simp only [Option.some.injEq, Prod.mk.injEq] at h
        refine ⟨e0, by rw [← h.2, t0], ?_⟩
        intro pre r1 b n post hsplit
        exact (no_split (fun e => ∃ r b n, e = Ev.writeDMA r b n) e0 pre post _
          (fun e he => wait_not_writeDMA e (p0 e he)) ⟨r1, b, n, rfl⟩ hsplit).elim
      · obtain ⟨B, tB, pB⟩ := write_fast_events cfg hw fuel addr buf s count w0 res w1 hcm h
        rw [hlen, hcnt, t0] at tB
        refine ⟨(e0 ++ [Ev.cleanDCache (Region.caller addr) (count * BLOCKSIZE)]) ++
          Ev.writeDMA (Region.caller addr) (u32 s) count :: B, ?_, ?_⟩
        · rw [tB]; simp
        · intro pre r1 b n post hsplit
          obtain ⟨e1, e2, -⟩ := split_unique (fun e => ∃ r b n, e = Ev.writeDMA r b n)
            (e0 ++ [Ev.cleanDCache (Region.caller addr) (count * BLOCKSIZE)]) pre B post
            (Ev.writeDMA (Region.caller addr) (u32 s) count) (Ev.writeDMA r1 b n)
            (by
              intro e he
              rcases List.mem_append.mp he with h1 | h1
              · exact wait_not_writeDMA e (p0 e h1)
              · simp only [List.mem_singleton] at h1
                rw [h1]
                rintro ⟨r, b, n, hh⟩
                cases hh)
            (fun e he => wait_not_writeDMA e (pB e he)) ⟨r1, b, n, rfl⟩ hsplit
          simp only [Ev.writeDMA.injEq] at e2
          exact ⟨e2.1, e2.2.1, e2.2.2, e0, e1⟩
  · -- the read
    intro res buf1 w1 h
    unfold SD_DMA_read at h
    cases hp : SD_check_status_with_timeout hw cfg.SD_TIMEOUT fuel w with
    | none => simp [hp] at h
    | some p =>
      obtain ⟨r, w0⟩ := p
      obtain ⟨hpo, hr⟩ := check_probeOnly hw cfg.SD_TIMEOUT fuel w r w0 hp
      obtain ⟨e0, t0, p0⟩ := hpo.onlyWaits
      simp only [hp, halr, if_true] at h
      split at h
      · simp only [Option.some.injEq, Prod.mk.injEq] at h
        refine ⟨e0, by rw [← h.2.2, t0], ?_, ?_⟩
        · intro pre r1 len post hsplit
          exact (no_split (fun e => ∃ r len, e = Ev.invalidateDCache r len) e0 pre post _
            (fun e he => wait_not_invalidate e (p0 e he)) ⟨r1, len, rfl⟩ hsplit).elim
        · intro hres
          rw [← h.1] at hres
          cases hres
      · rename_i hneg
        have hr0 : r = 0 := by
          rcases hr with h0 | h1
          · exact h0
          · exact absurd (by rw [h1]; decide) hneg
        subst hr0
        rcases read_fast_events cfg hw fuel addr buf s count w0 res buf1 w1 hcm h with
          ⟨hres, wp, hw1, hw2, hpoll, ⟨B, tB, pB⟩, hget, htr⟩ | ⟨hres, B, tB, pB⟩
        · rw [hlen] at htr
          have hrd := waitTransfer_ready hw _ _ _ _ _ hpoll
          have hnotinv : ∀ e ∈ e0 ++ Ev.readDMA (Region.caller addr) (u32 s) (u32 count) :: B,
              ¬ ∃ r len, e = Ev.invalidateDCache r len := by
            intro e he
            rcases List.mem_append.mp he with h1 | h1
            · exact wait_not_invalidate e (p0 e h1)
            · rcases List.mem_cons.mp h1 with h2 | h2
              · rw [h2]
                rintro ⟨r, len, hh⟩
                cases hh
              · exact wait_not_invalidate e (pB e h2)
          have hwp : wp.trace = w.trace ++
              (e0 ++ Ev.readDMA (Region.caller addr) (u32 s) (u32 count) :: B) := by
            rw [tB, t0]; simp
          refine ⟨(e0 ++ Ev.readDMA (Region.caller addr) (u32 s) (u32 count) :: B) ++
            [Ev.invalidateDCache (Region.caller addr) (count * BLOCKSIZE)], ?_, ?_, ?_⟩
          · rw [htr, hwp]; simp
          · intro pre r1 len post hsplit
            obtain ⟨e1, e2, e3⟩ := split_unique
              (fun e => ∃ r len, e = Ev.invalidateDCache r len)
              (e0 ++ Ev.readDMA (Region.caller addr) (u32 s) (u32 count) :: B) pre [] post
              (Ev.invalidateDCache (Region.caller addr) (count * BLOCKSIZE))
              (Ev.invalidateDCache r1 len) hnotinv (by simp) ⟨r1, len, rfl⟩ hsplit
            simp only [Ev.invalidateDCache.injEq] at e2
            refine ⟨e2.1, e2.2, e3, hres, w0, wp, rfl, hw1, hw2, hpoll, hrd.1, ?_, ?_, ?_⟩
            · rw [e1]; exact hwp
            · rw [e1]
              rw [hwp, t0] at hget
              have : List.drop (w.trace ++ e0).length
                  (w.trace ++ (e0 ++ Ev.readDMA (Region.caller addr) (u32 s) (u32 count) :: B))
                  = Ev.readDMA (Region.caller addr) (u32 s) (u32 count) :: B := by
                rw [← List.append_assoc]
                exact List.drop_left _ _
              rw [this] at hget
              exact List.mem_append_right _ hget
            · obtain ⟨q, hq⟩ := hrd.2
              have hl : (w.trace ++ pre).getLast? = some Ev.getCardState := by
                rw [e1, ← hwp, hq, ← List.append_assoc]
                simp
              exact ends_with Ev.getCardState w.trace pre (by rw [e1]; simp) hl
          · intro _
            exact ⟨_, rfl⟩
        · refine ⟨e0 ++ Ev.readDMA (Region.caller addr) (u32 s) (u32 count) :: B, ?_, ?_, ?_⟩
          · rw [tB, t0]; simp
          · intro pre r1 len post hsplit
            refine (no_split (fun e => ∃ r len, e = Ev.invalidateDCache r len) _ pre post _
              ?_ ⟨r1, len, rfl⟩ hsplit).elim
            intro e he
            rcases List.mem_append.mp he with h1 | h1
            · exact wait_not_invalidate e (p0 e h1)
            · rcases List.mem_cons.mp h1 with h2 | h2
              · rw [h2]
                rintro ⟨r, len, hh⟩
                cases hh
              · exact wait_not_invalidate e (pB e h2)
          · intro hok
            rw [hres] at hok
            cases hok
  · intro hclk
    obtain ⟨r, w0, hp⟩ := check_terminates hclk w
    obtain ⟨f1, f2⟩ := fast_terminates hclk addr buf s count w0
    constructor
    · unfold SD_DMA_write
      simp only [hp, halr, if_true]
      split
      · rfl
      · exact f1
    · unfold SD_DMA_read
      simp only [hp, halr, if_true]
      split
      · rfl
      · exact f2

/-- C21, at a concrete input: two sectors from sector 100 with a buffer at
address 64, template configuration, on a card that accepts the request and
raises the matching interrupt.  The calls of the write are the probe, the cache
clean over 1024 bytes, the DMA request, the callback post, the wait and the
poll; the calls of the read end with the cache invalidate over 1024 bytes. -/
theorem C21_cache_maintenance_order_witness :
    templateConfig.ENABLE_SD_DMA_CACHE_MAINTENANCE = true ∧ 64 % 32 = 0 ∧
    2 * BLOCKSIZE < 2 ^ 32 ∧
    (SD_DMA_write templateConfig (failAtHw 5) 5 64 (fun _ => 0) 100 2
        (readyWorld (fun _ _ => 0))).map (fun r => (r.1, r.2.trace)) =
      some (DRESULT.RES_OK,
        [Ev.getTick, Ev.getTick, Ev.getCardState,
         Ev.cleanDCache (Region.caller 64) 1024, Ev.writeDMA (Region.caller 64) 100 2,
         Ev.queuePut WRITE_CPLT_MSG 0 0, Ev.queueGet 30000,
         Ev.getTick, Ev.getTick, Ev.getCardState]) ∧
    (SD_DMA_read templateConfig (failAtHw 5) 5 64 (fun _ => 0) 100 2
        (readyWorld (fun _ _ => 0))).map (fun r => (r.1, r.2.2.trace)) =
      some (DRESULT.RES_OK,
        [Ev.getTick, Ev.getTick, Ev.getCardState,
         Ev.readDMA (Region.caller 64) 100 2,
         Ev.queuePut READ_CPLT_MSG 0 0, Ev.queueGet 30000,
         Ev.getTick, Ev.getTick, Ev.getCardState,
         Ev.invalidateDCache (Region.caller 64) 1024]) ∧
    (∀ res w1, SD_DMA_write templateConfig (failAtHw 5) 5 64 (fun _ => 0) 100 2
        (readyWorld (fun _ _ => 0)) = some (res, w1) →
      ∃ evs, w1.trace = (readyWorld (fun _ _ => 0)).trace ++ evs ∧
        ∀ pre r b n post, evs = pre ++ Ev.writeDMA r b n :: post →
          r = Region.caller 64 ∧ b = u32 100 ∧ n = 2 ∧
          ∃ pre0, pre = pre0 ++ [Ev.cleanDCache (Region.caller 64) (2 * BLOCKSIZE)]) ∧
    (∀ res buf1 w1, SD_DMA_read templateConfig (failAtHw 5) 5 64 (fun _ => 0) 100 2
        (readyWorld (fun _ _ => 0)) = some (res, buf1, w1) →
      ∃ evs, w1.trace = (readyWorld (fun _ _ => 0)).trace ++ evs ∧
        (∀ pre r len post, evs = pre ++ Ev.invalidateDCache r len :: post →
          r = Region.caller 64 ∧ len = 2 * BLOCKSIZE ∧ post = [] ∧
          res = DRESULT.RES_OK ∧
          ∃ w0 wp,
            SD_check_status_with_timeout (failAtHw 5) templateConfig.SD_TIMEOUT 5
              (readyWorld (fun _ _ => 0)) = some (0, w0) ∧
            (fastReadWait templateConfig (failAtHw 5) 64 (fun _ => 0) 100 2 w0).1
              = osStatus.osOK ∧
            (fastReadWait templateConfig (failAtHw 5) 64 (fun _ => 0) 100 2 w0).2.1
              = READ_CPLT_MSG ∧
            fastReadPoll templateConfig (failAtHw 5) 5 64 (fun _ => 0) 100 2 w0
              = some (true, wp) ∧
            (failAtHw 5).cardStateAt (wp.nState - 1) = HAL_SD_CARD_TRANSFER ∧
            wp.trace = (readyWorld (fun _ _ => 0)).trace ++ pre ∧
            Ev.queueGet templateConfig.SD_TIMEOUT ∈ pre ∧
            ∃ pre0, pre = pre0 ++ [Ev.getCardState]) ∧
        (res = DRESULT.RES_OK →
          ∃ pre, evs = pre ++
            [Ev.invalidateDCache (Region.caller 64) (2 * BLOCKSIZE)])) ∧
    (SD_DMA_write templateConfig (failAtHw 5) 5 64 (fun _ => 0) 100 2
        (readyWorld (fun _ _ => 0))).isSome = true ∧
    (SD_DMA_read templateConfig (failAtHw 5) 5 64 (fun _ => 0) 100 2
        (readyWorld (fun _ _ => 0))).isSome = true :=
  ⟨rfl, rfl, by decide, by decide, by decide,
    (C21_cache_maintenance_order templateConfig (failAtHw 5) 5 64 (fun _ => 0) 100 2
      (readyWorld (fun _ _ => 0)) rfl rfl (by decide)).1,
    (C21_cache_maintenance_order templateConfig (failAtHw 5) 5 64 (fun _ => 0) 100 2
      (readyWorld (fun _ _ => 0)) rfl rfl (by decide)).2.1,
    (C21_cache_maintenance_order templateConfig (failAtHw 5) 5 64 (fun _ => 0) 100 2
      (readyWorld (fun _ _ => 0)) rfl rfl (by decide)).2.2 (failAtHw_clockAdvances 5)⟩

/-! ## The scratch path of `USBH_write` -/

theorem writeStatuses_append (a b : List UsbEv) :
    writeStatuses (a ++ b) = writeStatuses a ++ writeStatuses b := by
  induction a with
  | nil => rfl
  | cons e rest ih =>
    cases e <;> simp [writeStatuses, ih]

theorem usb_range_shift {α : Type} (f : Nat → α) (k : Nat) :
    (List.range (k + 1)).map f = f 0 :: (List.range k).map (fun j => f (j + 1)) := by
  rw [List.range_succ_eq_map]
  simp only [List.map_cons, List.map_map]
  rfl

/-- The scratch-path loop of `USBH_write` started with `n` sectors to go: it
issues `m ≤ n` single-sector writes from the scratch buffer, for the sectors
`sector + n - 1` downwards; none but the last of them returned `USBH_FAIL`; the
final status is the status of the last write issued; and the loop issued fewer
than `n` writes only if the last one returned `USBH_FAIL`. -/
theorem USBH_write_loop_spec (ucfg : UsbConfig) (host : UsbHost) (lun : Nat) (buf : Mem)
    (sector : Nat) :
    ∀ (n : Nat) (st : USBH_StatusTypeDef) (w : UsbWorld),
      ∃ m, m ≤ n ∧
        (USBH_write_loop ucfg host lun buf sector n st w).2.nWrite = w.nWrite + m ∧
        (USBH_write_loop ucfg host lun buf sector n st w).2.nInfo = w.nInfo ∧
        (USBH_write_loop ucfg host lun buf sector n st w).2.trace = w.trace ++
          (List.range m).map (fun j =>
            UsbEv.mscWrite lun (u32 (sector + (n - 1 - j))) Region.scratch 1
              (host.writeAt (w.nWrite + j))) ∧
        (∀ j, j + 1 < m → host.writeAt (w.nWrite + j) ≠ USBH_StatusTypeDef.USBH_FAIL) ∧
        (1 ≤ n → 1 ≤ m ∧
          (USBH_write_loop ucfg host lun buf sector n st w).1
            = host.writeAt (w.nWrite + m - 1)) ∧
        (n = 0 → (USBH_write_loop ucfg host lun buf sector n st w).1 = st) ∧
        (m < n → (USBH_write_loop ucfg host lun buf sector n st w).1
          = USBH_StatusTypeDef.USBH_FAIL) := by
  intro n
  induction n with
  | zero =>
    intro st w
    exact ⟨0, le_refl 0, rfl, rfl, by simp [USBH_write_loop], by intro j hj; omega,
      by intro h; omega, fun _ => rfl, by intro h; omega⟩
  | succ n ih =>
    intro st w
    by_cases hf : host.writeAt w.nWrite = USBH_StatusTypeDef.USBH_FAIL
    · have e : USBH_write_loop ucfg host lun buf sector (n + 1) st w =
          USBH_MSC_Write host lun (u32 (sector + n)) Region.scratch 1
            { w with scratch :=
                memcpy w.scratch 0 buf (u32 (n * ucfg.FF_MAX_SS)) ucfg.FF_MAX_SS } := by
        simp [USBH_write_loop, USBH_MSC_Write, hf]
      rw [e]
      refine ⟨1, by omega, rfl, rfl, ?_, by intro j hj; omega, ?_, by intro h; omega, ?_⟩
      · simp [USBH_MSC_Write, List.range_succ]
      · intro _
        exact ⟨le_refl 1, rfl⟩
      · intro _
        exact hf
    · have e : USBH_write_loop ucfg host lun buf sector (n + 1) st w =
          USBH_write_loop ucfg host lun buf sector n (host.writeAt w.nWrite)
            (USBH_MSC_Write host lun (u32 (sector + n)) Region.scratch 1
              { w with scratch :=
                  memcpy w.scratch 0 buf (u32 (n * ucfg.FF_MAX_SS)) ucfg.FF_MAX_SS }).2 := by
        simp [USBH_write_loop, USBH_MSC_Write, hf]
      obtain ⟨m, hm, h1, h2, h3, h4, h5, h6, h7⟩ := ih (host.writeAt w.nWrite)
        (USBH_MSC_Write host lun (u32 (sector + n)) Region.scratch 1
          { w with scratch :=
              memcpy w.scratch 0 buf (u32 (n * ucfg.FF_MAX_SS)) ucfg.FF_MAX_SS }).2
      rw [e]
      have hn : (USBH_MSC_Write host lun (u32 (sector + n)) Region.scratch 1
          { w with scratch :=
              memcpy w.scratch 0 buf (u32 (n * ucfg.FF_MAX_SS)) ucfg.FF_MAX_SS }).2.nWrite
          = w.nWrite + 1 := rfl
      rw [hn] at h1 h3 h4 h5
      refine ⟨m + 1, by omega, by rw [h1]; omega, h2, ?_, ?_, ?_, by intro h; omega, ?_⟩
      · rw [h3, usb_range_shift]
        have hmap : (List.range m).map (fun j =>
              UsbEv.mscWrite lun (u32 (sector + (n - 1 - j))) Region.scratch 1
                (host.writeAt (w.nWrite + 1 + j))) =
            (List.range m).map (fun j =>
              UsbEv.mscWrite lun (u32 (sector + (n + 1 - 1 - (j + 1)))) Region.scratch 1
                (host.writeAt (w.nWrite + (j + 1)))) := by
          apply List.map_congr_left
          intro j _
          have a1 : n - 1 - j = n + 1 - 1 - (j + 1) := by omega
          have a2 : w.nWrite + 1 + j = w.nWrite + (j + 1) := by omega
          rw [a1, a2]
        rw [hmap]
        simp [USBH_MSC_Write]
      · intro j hj
        cases j with
        | zero => exact hf
        | succ j1 =>
          have := h4 j1 (by omega)
          have a2 : w.nWrite + 1 + j1 = w.nWrite + (j1 + 1) := by omega
          rw [a2] at this
          exact this
      · intro _
        refine ⟨by omega, ?_⟩
        by_cases hn0 : n = 0
        · have hm0 : m = 0 := by omega
          rw [h6 hn0, hm0]
          rfl
        · obtain ⟨hm1, hlast⟩ := h5 (by omega)
          rw [hlast]
          have a3 : w.nWrite + 1 + m - 1 = w.nWrite + (m + 1) - 1 := by omega
          rw [a3]
      · intro hlt
        exact h7 (by omega)

/-- The scratch path of `USBH_write` for `count ≥ 1`: it issues `m` writes with
`1 ≤ m ≤ count`, none but the last of which returned `USBH_FAIL`; it stops
before `count` writes only on `USBH_FAIL`; and it returns `RES_OK` exactly when
the last write issued returned `USBH_OK`, whatever the earlier ones returned. -/
theorem USBH_write_scratch_result (ucfg : UsbConfig) (host : UsbHost) (lun addr : Nat)
    (buf : Mem) (sector count : Nat) (w : UsbWorld)
    (hpath : usbScratchPath host addr = true) (hc : 1 ≤ count) (hlt : count < 2 ^ 32) :
    ∃ m, 1 ≤ m ∧ m ≤ count ∧
      (USBH_write ucfg host lun addr buf sector count w).2.nWrite = w.nWrite + m ∧
      (∀ j, j + 1 < m → host.writeAt (w.nWrite + j) ≠ USBH_StatusTypeDef.USBH_FAIL) ∧
      (m < count → host.writeAt (w.nWrite + m - 1) = USBH_StatusTypeDef.USBH_FAIL) ∧
      ((USBH_write ucfg host lun addr buf sector count w).1 = DRESULT.RES_OK ↔
        host.writeAt (w.nWrite + m - 1) = USBH_StatusTypeDef.USBH_OK) ∧
      writeStatuses (USBH_write ucfg host lun addr buf sector count w).2.trace =
        writeStatuses w.trace ++ (List.range m).map (fun j => host.writeAt (w.nWrite + j)) := by
  have hcnt : u32 count = count := by unfold u32; exact Nat.mod_eq_of_lt hlt
  obtain ⟨m, hm, h1, h2, h3, h4, h5, -, h7⟩ := USBH_write_loop_spec ucfg host lun buf sector
    count USBH_StatusTypeDef.USBH_OK w
  obtain ⟨hm1, hlast⟩ := h5 hc
  have hst : writeStatuses ((List.range m).map (fun j =>
        UsbEv.mscWrite lun (u32 (sector + (count - 1 - j))) Region.scratch 1
          (host.writeAt (w.nWrite + j)))) =
      (List.range m).map (fun j => host.writeAt (w.nWrite + j)) := by
    generalize List.range m = l
    induction l with
    | nil => rfl
    | cons a rest ih => simp [writeStatuses, ih]
  refine ⟨m, hm1, hm, ?_, h4, ?_, ?_, ?_⟩
  · unfold USBH_write
    simp only [hpath, if_true, hcnt]
    split
    · exact h1
    · simp only [USBH_MSC_GetLUNInfo]
      exact h1
  · intro hlt2
    rw [← hlast]
    exact h7 hlt2
  · unfold USBH_write
    simp only [hpath, if_true, hcnt]
    rw [← hlast]
    split
    · rename_i hok
      simp [hok]
    · rename_i hno
      simp only [hno, iff_false]
      split <;> simp
  · unfold USBH_write
    simp only [hpath, if_true, hcnt]
    split
    · rw [h3, writeStatuses_append, hst]
    · simp only [USBH_MSC_GetLUNInfo]
      rw [writeStatuses_append, h3, writeStatuses_append, hst]
      simp [writeStatuses]

/-- If `USBH_MSC_Write` returns no status other than `USBH_OK` and `USBH_FAIL`,
the scratch path of `USBH_write` returns `RES_OK` only if it issued `count`
writes and each of them returned `USBH_OK`. -/
theorem USBH_write_scratch_two_valued (ucfg : UsbConfig) (host : UsbHost) (lun addr : Nat)
    (buf : Mem) (sector count : Nat) (w : UsbWorld)
    (hpath : usbScratchPath host addr = true) (hc : 1 ≤ count) (hlt : count < 2 ^ 32)
    (h2 : ∀ n, host.writeAt n = USBH_StatusTypeDef.USBH_OK ∨
      host.writeAt n = USBH_StatusTypeDef.USBH_FAIL)
    (hok : (USBH_write ucfg host lun addr buf sector count w).1 = DRESULT.RES_OK) :
    (USBH_write ucfg host lun addr buf sector count w).2.nWrite = w.nWrite + count ∧
    ∀ j, j < count → host.writeAt (w.nWrite + j) = USBH_StatusTypeDef.USBH_OK := by
  obtain ⟨m, hm1, hm, h1, h4, h5, h6, -⟩ :=
    USBH_write_scratch_result ucfg host lun addr buf sector count w hpath hc hlt
  have hlast := h6.mp hok
  have hmc : m = count := by
    by_contra hne
    have := h5 (by omega)
    rw [hlast] at this
    cases this
  subst hmc
  refine ⟨h1, ?_⟩
  intro j hj
  by_cases hj1 : j + 1 < m
  · rcases h2 (w.nWrite + j) with h | h
    · exact h
    · exact absurd h (h4 j hj1)
  · have : w.nWrite + j = w.nWrite + m - 1 := by omega
    rw [this]
    exact hlast

/-- C22: a two-sector `USBH_write` on the scratch path (buffer at the 4-byte
aligned address 4, host DMA enabled) whose first `USBH_MSC_Write`, for sector
101, returns `USBH_BUSY` and whose second, for sector 100, returns `USBH_OK`:
the call returns `RES_OK` although one of the two writes it issued did not
return `USBH_OK`. -/
theorem C22_scratch_write_overwrites_status :
    usbScratchPath busyFirstHost 4 = true ∧
    (USBH_write usbConfig512 busyFirstHost 0 4 (fun _ => 0) 100 2 UsbWorld.boot).1
      = DRESULT.RES_OK ∧
    (USBH_write usbConfig512 busyFirstHost 0 4 (fun _ => 0) 100 2 UsbWorld.boot).2.trace
      = [UsbEv.mscWrite 0 101 Region.scratch 1 USBH_StatusTypeDef.USBH_BUSY,
         UsbEv.mscWrite 0 100 Region.scratch 1 USBH_StatusTypeDef.USBH_OK] ∧
    ¬ (∀ st ∈ writeStatuses
        (USBH_write usbConfig512 busyFirstHost 0 4 (fun _ => 0) 100 2 UsbWorld.boot).2.trace,
        st = USBH_StatusTypeDef.USBH_OK) := by
  refine ⟨by decide, by decide, by decide, ?_⟩
  intro h
  have := h USBH_StatusTypeDef.USBH_BUSY (by decide)
  cases this

/-! ## The events that the transfers accept -/

/-- With a tick source that passes every deadline within the fuel, one
sub-request of either slow path returns. -/
theorem slow_one_terminates {cfg : Config} {hw : Hw} {fuel : Nat}
    (hclk : ClockAdvances hw cfg.SD_TIMEOUT fuel) (s : Nat) (buf : Mem) (w : World) :
    (SD_DMA_read_slow cfg hw fuel 1 0 none 0 s 0 buf w).isSome = true ∧
    (SD_DMA_write_slow cfg hw fuel buf 1 0 none 0 s 0 w).isSome = true := by
  constructor
  · unfold SD_DMA_read_slow
    simp only
    split
    · obtain ⟨e1, w1, hs, -⟩ := slowWait_terminates hclk READ_CPLT_MSG 0
        (HAL_SD_ReadBlocks_DMA hw Region.scratch (u32 s) 1 buf w).2.2
      rw [hs]
      unfold SD_DMA_read_slow
      rfl
    · rfl
  · rw [write_slow_unfold]
    split
    · obtain ⟨e1, w1, hs, -⟩ := slowWait_terminates hclk WRITE_CPLT_MSG 0
        (HAL_SD_WriteBlocks_DMA hw Region.scratch (u32 s) 1 buf
          (writeSlowIssueState cfg buf 0 w)).2
      rw [hs]
      unfold SD_DMA_write_slow
      rfl
    · rfl

/-- C20: each completion callback makes exactly one post to the completion
queue, with a zero timeout, and returns: `HAL_SD_RxCpltCallback` appends
`READ_CPLT_MSG` and `HAL_SD_TxCpltCallback` appends `WRITE_CPLT_MSG` when the
queue exists and holds fewer events than it has slots; when the queue is full
the post is refused at once (`osErrorResource`) and the queue is unchanged;
nothing else changes.  The queue has `QUEUE_SIZE = 10` slots: that is the
count with which `SD_DMA_initialize` creates it, and it stays so over every
sequence of calls of the entry points from process start.  The kind posted by
the Rx (Tx) callback is exactly the kind that `SD_DMA_read` (`SD_DMA_write`)
accepts.  After a successful initial probe that leaves the state `w0`, with the
queue idle and the DMA request accepted: when the card raises the callback of
the request's direction, the wait of the fast path delivers `READ_CPLT_MSG`
(`WRITE_CPLT_MSG`) and the call returns what the readiness poll gives, and the
one-sector slow path goes on to its readiness poll; when the card raises the
other callback, the fast path returns `RES_ERROR` and the slow path runs no
poll.  Whatever event is the oldest in the queue when the request is accepted,
the fast path returns `RES_OK` exactly when that event is `READ_CPLT_MSG`
(`WRITE_CPLT_MSG`) and the poll sees the card ready.  With a tick source that
passes every deadline within the fuel all four calls return. -/
theorem C20_callbacks_post_one_event (cfg : Config) (hw : Hw) (fuel addrF addrS : Nat)
    (buf : Mem) (s count : Nat) (v w w0 : World)
    (hprobe : SD_check_status_with_timeout hw cfg.SD_TIMEOUT fuel w = some (0, w0))
    (hidle : QueueIdle w0) (hacc : hw.issueAt w0.nIssue = HAL_Status.HAL_OK)
    (hF : addrF % 32 = 0) (hS : addrS % 32 ≠ 0) :
    HAL_SD_RxCpltCallback v =
      { v with
        queue := if v.SDQueueID ≠ none ∧ v.queue.length < v.capacity
          then v.queue ++ [READ_CPLT_MSG] else v.queue
        trace := v.trace ++ [Ev.queuePut READ_CPLT_MSG 0 0] } ∧
    HAL_SD_TxCpltCallback v =
      { v with
        queue := if v.SDQueueID ≠ none ∧ v.queue.length < v.capacity
          then v.queue ++ [WRITE_CPLT_MSG] else v.queue
        trace := v.trace ++ [Ev.queuePut WRITE_CPLT_MSG 0 0] } ∧
    (∀ m, (osMessageQueuePut m 0 0 v).1 =
      (if v.SDQueueID = none then osStatus.osErrorParameter
        else if v.queue.length < v.capacity then osStatus.osOK
        else osStatus.osErrorResource)) ∧
    QUEUE_SIZE = 10 ∧
    (v.SDQueueID = none → ( SD_DMA_initialize cfg hw v).2.SDQueueID ≠ none →
      (( SD_DMA_initialize cfg hw v).2.capacity : Nat) = QUEUE_SIZE ∧
      ( SD_DMA_initialize cfg hw v).2.queue = []) ∧
    (∀ ops disk w1, runOps cfg hw fuel ops (World.boot disk) = some w1 →
      w1.SDQueueID ≠ none → (w1.capacity : Nat) = QUEUE_SIZE) ∧
    (raiseIrq Irq.matching true v = HAL_SD_RxCpltCallback v ∧
      raiseIrq Irq.matching false v = HAL_SD_TxCpltCallback v ∧
      raiseIrq Irq.crossed true v = HAL_SD_TxCpltCallback v ∧
      raiseIrq Irq.crossed false v = HAL_SD_RxCpltCallback v ∧
      raiseIrq Irq.silent true v = v ∧ raiseIrq Irq.silent false v = v) ∧
    (hw.irqAt w0.nIssue = Irq.matching →
      (fastReadWait cfg hw addrF buf s count w0).1 = osStatus.osOK ∧
      (fastReadWait cfg hw addrF buf s count w0).2.1 = READ_CPLT_MSG ∧
      (fastWriteWait cfg hw addrF buf s count w0).1 = osStatus.osOK ∧
      (fastWriteWait cfg hw addrF buf s count w0).2.1 = WRITE_CPLT_MSG ∧
      (SD_DMA_read cfg hw fuel addrF buf s count w).map (fun r => r.1) =
        (fastReadPoll cfg hw fuel addrF buf s count w0).map
          (fun r => if r.1 = true then DRESULT.RES_OK else DRESULT.RES_ERROR) ∧
      (SD_DMA_write cfg hw fuel addrF buf s count w).map (fun r => r.1) =
        (fastWritePoll cfg hw fuel addrF buf s count w0).map
          (fun r => if r.1 = true then DRESULT.RES_OK else DRESULT.RES_ERROR) ∧
      (∀ r, SD_DMA_read cfg hw fuel addrS buf s 1 w = some r →
        w0.nTick + 2 ≤ r.2.2.nTick) ∧
      (∀ r, SD_DMA_write cfg hw fuel addrS buf s 1 w = some r →
        w0.nTick + 2 ≤ r.2.nTick)) ∧
    (hw.irqAt w0.nIssue = Irq.crossed →
      (fastReadWait cfg hw addrF buf s count w0).2.1 = WRITE_CPLT_MSG ∧
      (fastWriteWait cfg hw addrF buf s count w0).2.1 = READ_CPLT_MSG ∧
      (SD_DMA_read cfg hw fuel addrF buf s count w).map (fun r => r.1)
        = some DRESULT.RES_ERROR ∧
      (SD_DMA_write cfg hw fuel addrF buf s count w).map (fun r => r.1)
        = some DRESULT.RES_ERROR ∧
      (∃ r, SD_DMA_read cfg hw fuel addrS buf s 1 w = some r ∧
        r.2.2.nTick = w0.nTick ∧ r.2.2.nState = w0.nState) ∧
      (∃ r, SD_DMA_write cfg hw fuel addrS buf s 1 w = some r ∧
        r.2.nTick = w0.nTick ∧ r.2.nState = w0.nState)) ∧
    (v.SDQueueID ≠ none → hw.issueAt v.nIssue = HAL_Status.HAL_OK →
      ∀ e rest, v.queue = e :: rest →
        ((SD_DMA_read_fast cfg hw fuel addrF buf s count v).map (fun r => r.1)
            = some DRESULT.RES_OK ↔
          e = READ_CPLT_MSG ∧
          (fastReadPoll cfg hw fuel addrF buf s count v).map (fun r => r.1) = some true) ∧
        ((SD_DMA_write_fast cfg hw fuel addrF buf s count v).map (fun r => r.1)
            = some DRESULT.RES_OK ↔
          e = WRITE_CPLT_MSG ∧
          (fastWritePoll cfg hw fuel addrF buf s count v).map (fun r => r.1) = some true)) ∧
    (ClockAdvances hw cfg.SD_TIMEOUT fuel →
      (SD_DMA_read cfg hw fuel addrF buf s count w).isSome = true ∧
      (SD_DMA_write cfg hw fuel addrF buf s count w).isSome = true ∧
      (SD_DMA_read cfg hw fuel addrS buf s 1 w).isSome = true ∧
      (SD_DMA_write cfg hw fuel addrS buf s 1 w).isSome = true) := by
  have halF : aligned32 addrF = true := (aligned32_iff addrF).mpr hF
  have halS : aligned32 addrS = false := by
    cases h : aligned32 addrS
    · rfl
    · exact absurd ((aligned32_iff addrS).mp h) hS
  have erF : SD_DMA_read cfg hw fuel addrF buf s count w =
      SD_DMA_read_fast cfg hw fuel addrF buf s count w0 := by
    simp [SD_DMA_read, hprobe, halF]
  have ewF : SD_DMA_write cfg hw fuel addrF buf s count w =
      SD_DMA_write_fast cfg hw fuel addrF buf s count w0 := by
    simp [SD_DMA_write, hprobe, halF]
  have erS : SD_DMA_read cfg hw fuel addrS buf s 1 w =
      match SD_DMA_read_slow cfg hw fuel 1 0 none 0 s 0 buf w0 with
      | none => none
      | some (i, ret, buf1, w2) =>
        if i = 1 ∧ ret = some HAL_Status.HAL_OK then some (DRESULT.RES_OK, buf1, w2)
        else some (DRESULT.RES_ERROR, buf1, w2) := by
    simp [SD_DMA_read, hprobe, halS]
  have ewS : SD_DMA_write cfg hw fuel addrS buf s 1 w =
      match SD_DMA_write_slow cfg hw fuel buf 1 0 none 0 s 0 w0 with
      | none => none
      | some (i, ret, w2) =>
        if i = 1 ∧ ret = some HAL_Status.HAL_OK then some (DRESULT.RES_OK, w2)
        else some (DRESULT.RES_ERROR, w2) := by
    simp [SD_DMA_write, hprobe, halS]
  -- the waits of the fast paths from `w0`
  obtain ⟨ri, rw0⟩ := fastReadWait_eq cfg hw addrF buf s count w0 hacc
  obtain ⟨wi, ww0⟩ := fastWriteWait_eq cfg hw addrF buf s count w0 hacc
  obtain ⟨q1, q2, -, -, -, -⟩ := writeFastIssueState_queue cfg addrF count w0
  obtain ⟨-, rm, rc, -⟩ := wait_after_irq (hw.irqAt w0.nIssue) cfg.SD_TIMEOUT true
    { w0 with nIssue := w0.nIssue + 1,
              trace := w0.trace ++ [Ev.readDMA (Region.caller addrF) (u32 s) (u32 count)] }
    hidle.1
  obtain ⟨-, wm, wc, -⟩ := wait_after_irq (hw.irqAt w0.nIssue) cfg.SD_TIMEOUT false
    { writeFastIssueState cfg addrF count w0 with
      nIssue := w0.nIssue + 1,
      trace := (writeFastIssueState cfg addrF count w0).trace ++
        [Ev.writeDMA (Region.caller addrF) (u32 s) (u32 count)],
      disk := diskAfterWrite w0.disk buf (u32 s) (u32 count) }
    (by simp only [q1]; exact hidle.1)
  have wq0 : ({ writeFastIssueState cfg addrF count w0 with
      nIssue := w0.nIssue + 1,
      trace := (writeFastIssueState cfg addrF count w0).trace ++
        [Ev.writeDMA (Region.caller addrF) (u32 s) (u32 count)],
      disk := diskAfterWrite w0.disk buf (u32 s) (u32 count) } : World).queue = [] := by
    simp only [q2]; exact hidle.2
  rw [← rw0] at rm rc
  rw [← ww0] at wm wc
  obtain ⟨rs1, rs2⟩ := read_slow_one cfg hw fuel s buf w0 hidle hacc
  obtain ⟨ws1, ws2⟩ := write_slow_one cfg hw fuel s buf w0 hidle hacc
  refine ⟨?_, ?_, ?_, rfl, initialize_queue cfg hw v, ?_, ⟨rfl, rfl, rfl, rfl, rfl, rfl⟩,
    ?_, ?_, ?_, ?_⟩
  · rw [HAL_SD_RxCpltCallback, queuePut_effect]
    simp [READ_CPLT_MSG]
  · rw [HAL_SD_TxCpltCallback, queuePut_effect]
    simp [WRITE_CPLT_MSG]
  · intro m
    unfold osMessageQueuePut
    cases h : v.SDQueueID with
    | none => simp [h]
    | some q => by_cases hl : v.queue.length < (v.capacity : Nat) <;> simp [h, hl]
  · intro ops disk w1 h
    exact runOps_capacity cfg hw fuel ops (World.boot disk) w1 h
      (by intro hb; exact absurd rfl hb)
  · -- the callback of the request's direction
    intro hirq
    obtain ⟨r1, r2⟩ := rm hidle.2 hirq
    obtain ⟨w1, w2⟩ := wm wq0 hirq
    simp only [if_true] at r2
    simp only [Bool.false_eq_true, if_false] at w2
    refine ⟨r1, r2, w1, w2, ?_, ?_, ?_, ?_⟩
    · rw [erF]
      exact read_fast_by_poll cfg hw fuel addrF buf s count w0 ri r1 r2
    · rw [ewF]
      exact write_fast_by_poll cfg hw fuel addrF buf s count w0 wi w1 w2
    · intro r hr
      rw [erS] at hr
      cases hsl : SD_DMA_read_slow cfg hw fuel 1 0 none 0 s 0 buf w0 with
      | none => simp [hsl] at hr
      | some p =>
        obtain ⟨i, ret, buf1, w2⟩ := p
        have := rs1 hirq _ hsl
        simp only [hsl] at hr
        split at hr <;>
          · simp only [Option.some.injEq] at hr
            rw [← hr]
            exact this
    · intro r hr
      rw [ewS] at hr
      cases hsl : SD_DMA_write_slow cfg hw fuel buf 1 0 none 0 s 0 w0 with
      | none => simp [hsl] at hr
      | some p =>
        obtain ⟨i, ret, w2⟩ := p
        have := ws1 hirq _ hsl
        simp only [hsl] at hr
        split at hr <;>
          · simp only [Option.some.injEq] at hr
            rw [← hr]
            exact this
  · -- the callback of the other direction
    intro hirq
    obtain ⟨r1, r2⟩ := rc hidle.2 hirq
    obtain ⟨w1, w2⟩ := wc wq0 hirq
    simp only [if_true] at r2
    simp only [Bool.false_eq_true, if_false] at w2
    refine ⟨r2, w2, ?_, ?_, ?_, ?_⟩
    · rw [erF]
      refine (read_fast_result cfg hw fuel addrF buf s count w0).2.mpr
        (Or.inr (Or.inr (Or.inl ?_)))
      rw [r2]
      simp [READ_CPLT_MSG, WRITE_CPLT_MSG]
    · rw [ewF]
      refine (write_fast_result cfg hw fuel addrF buf s count w0).2.mpr
        (Or.inr (Or.inr (Or.inl ?_)))
      rw [w2]
      simp [READ_CPLT_MSG, WRITE_CPLT_MSG]
    · obtain ⟨p, hp, h1, h2⟩ := rs2 hirq
      obtain ⟨i, ret, buf1, w2⟩ := p
      rw [erS, hp]
      by_cases hc : i = 1 ∧ ret = some HAL_Status.HAL_OK
      · exact ⟨(DRESULT.RES_OK, buf1, w2), by simp only [hc, and_self, if_true], h1, h2⟩
      · exact ⟨(DRESULT.RES_ERROR, buf1, w2), by simp only [hc, if_false], h1, h2⟩
    · obtain ⟨p, hp, h1, h2⟩ := ws2 hirq
      obtain ⟨i, ret, w2⟩ := p
      rw [ewS, hp]
      by_cases hc : i = 1 ∧ ret = some HAL_Status.HAL_OK
      · exact ⟨(DRESULT.RES_OK, w2), by simp only [hc, and_self, if_true], h1, h2⟩
      · exact ⟨(DRESULT.RES_ERROR, w2), by simp only [hc, if_false], h1, h2⟩
  · -- whatever event is the oldest
    intro hid hav e rest hqe
    obtain ⟨vi, vw⟩ := fastReadWait_eq cfg hw addrF buf s count v hav
    obtain ⟨ui, uw⟩ := fastWriteWait_eq cfg hw addrF buf s count v hav
    obtain ⟨p1, p2, -, -, -, -⟩ := writeFastIssueState_queue cfg addrF count v
    obtain ⟨rh, -, -, -⟩ := wait_after_irq (hw.irqAt v.nIssue) cfg.SD_TIMEOUT true
      { v with nIssue := v.nIssue + 1,
               trace := v.trace ++ [Ev.readDMA (Region.caller addrF) (u32 s) (u32 count)] }
      hid
    obtain ⟨wh, -, -, -⟩ := wait_after_irq (hw.irqAt v.nIssue) cfg.SD_TIMEOUT false
      { writeFastIssueState cfg addrF count v with
        nIssue := v.nIssue + 1,
        trace := (writeFastIssueState cfg addrF count v).trace ++
          [Ev.writeDMA (Region.caller addrF) (u32 s) (u32 count)],
        disk := diskAfterWrite v.disk buf (u32 s) (u32 count) }
      (by simp only [p1]; exact hid)
    rw [← vw] at rh
    rw [← uw] at wh
    obtain ⟨a1, a2⟩ := rh e rest hqe
    obtain ⟨b1, b2⟩ := wh e rest (by simp only [p2]; exact hqe)
    constructor
    · rw [(read_fast_result cfg hw fuel addrF buf s count v).1, a2]
      constructor
      · intro h; exact ⟨h.2.2.1, h.2.2.2⟩
      · intro h; exact ⟨vi, a1, h.1, h.2⟩
    · rw [(write_fast_result cfg hw fuel addrF buf s count v).1, b2]
      constructor
      · intro h; exact ⟨h.2.2.1, h.2.2.2⟩
      · intro h; exact ⟨ui, b1, h.1, h.2⟩
  · intro hclk
    obtain ⟨f1, f2⟩ := fast_terminates hclk addrF buf s count w0
    obtain ⟨s1, s2⟩ := slow_one_terminates hclk s buf w0
    refine ⟨by rw [erF]; exact f2, by rw [ewF]; exact f1, ?_, ?_⟩
    · rw [erS]
      obtain ⟨p, hp⟩ := Option.isSome_iff_exists.mp s1
      obtain ⟨i, ret, buf1, w2⟩ := p
      rw [hp]
      by_cases hc : i = 1 ∧ ret = some HAL_Status.HAL_OK
      · simp only [hc, and_self, if_true]; rfl
      · simp only [hc, if_false]; rfl
    · rw [ewS]
      obtain ⟨p, hp⟩ := Option.isSome_iff_exists.mp s2
      obtain ⟨i, ret, w2⟩ := p
      rw [hp]
      by_cases hc : i = 1 ∧ ret = some HAL_Status.HAL_OK
      · simp only [hc, and_self, if_true]; rfl
      · simp only [hc, if_false]; rfl

/-- C20, at a concrete input: a card that accepts the request, raises the
callback of its direction and is ready; template configuration, buffers at
addresses 32 and 8, sector 100.  On a queue that holds ten events the Rx
callback leaves the queue unchanged; from process start, `SD_DMA_initialize`
followed by eleven Rx callbacks leaves ten events in a queue of ten slots; the
read and the write on the fast path return `RES_OK`. -/
theorem C20_callbacks_post_one_event_witness :
    SD_check_status_with_timeout (failAtHw 5) templateConfig.SD_TIMEOUT 5
      (readyWorld (fun _ _ => 0)) =
      some (0, pollDone (failAtHw 5) (readyWorld (fun _ _ => 0))) ∧
    QueueIdle (pollDone (failAtHw 5) (readyWorld (fun _ _ => 0))) ∧
    (failAtHw 5).issueAt (pollDone (failAtHw 5) (readyWorld (fun _ _ => 0))).nIssue
      = HAL_Status.HAL_OK ∧
    32 % 32 = 0 ∧ 8 % 32 ≠ 0 ∧
    (HAL_SD_RxCpltCallback
      { readyWorld (fun _ _ => 0) with queue := [1, 2, 1, 2, 1, 2, 1, 2, 1, 2] }).queue
      = [1, 2, 1, 2, 1, 2, 1, 2, 1, 2] ∧
    (runOps templateConfig (failAtHw 5) 5 (Op.init :: List.replicate 11 Op.rxCplt)
      (World.boot (fun _ _ => 0))).map (fun w => (w.queue, (w.capacity : Nat)))
      = some (List.replicate 10 READ_CPLT_MSG, 10) ∧
    (SD_DMA_read templateConfig (failAtHw 5) 5 32 (fun _ => 0) 100 2
      (readyWorld (fun _ _ => 0))).map (fun r => r.1) = some DRESULT.RES_OK ∧
    (SD_DMA_write templateConfig (failAtHw 5) 5 32 (fun _ => 0) 100 2
      (readyWorld (fun _ _ => 0))).map (fun r => r.1) = some DRESULT.RES_OK ∧
    ((fastReadWait templateConfig (failAtHw 5) 32 (fun _ => 0) 100 2
        (pollDone (failAtHw 5) (readyWorld (fun _ _ => 0)))).1 = osStatus.osOK ∧
      (fastReadWait templateConfig (failAtHw 5) 32 (fun _ => 0) 100 2
        (pollDone (failAtHw 5) (readyWorld (fun _ _ => 0)))).2.1 = READ_CPLT_MSG ∧
      (fastWriteWait templateConfig (failAtHw 5) 32 (fun _ => 0) 100 2
        (pollDone (failAtHw 5) (readyWorld (fun _ _ => 0)))).1 = osStatus.osOK ∧
      (fastWriteWait templateConfig (failAtHw 5) 32 (fun _ => 0) 100 2
        (pollDone (failAtHw 5) (readyWorld (fun _ _ => 0)))).2.1 = WRITE_CPLT_MSG ∧
      (SD_DMA_read templateConfig (failAtHw 5) 5 32 (fun _ => 0) 100 2
          (readyWorld (fun _ _ => 0))).map (fun r => r.1) =
        (fastReadPoll templateConfig (failAtHw 5) 5 32 (fun _ => 0) 100 2
          (pollDone (failAtHw 5) (readyWorld (fun _ _ => 0)))).map
          (fun r => if r.1 = true then DRESULT.RES_OK else DRESULT.RES_ERROR) ∧
      (SD_DMA_write templateConfig (failAtHw 5) 5 32 (fun _ => 0) 100 2
          (readyWorld (fun _ _ => 0))).map (fun r => r.1) =
        (fastWritePoll templateConfig (failAtHw 5) 5 32 (fun _ => 0) 100 2
          (pollDone (failAtHw 5) (readyWorld (fun _ _ => 0)))).map
          (fun r => if r.1 = true then DRESULT.RES_OK else DRESULT.RES_ERROR) ∧
      (∀ r, SD_DMA_read templateConfig (failAtHw 5) 5 8 (fun _ => 0) 100 1
          (readyWorld (fun _ _ => 0)) = some r →
        (pollDone (failAtHw 5) (readyWorld (fun _ _ => 0))).nTick + 2 ≤ r.2.2.nTick) ∧
      (∀ r, SD_DMA_write templateConfig (failAtHw 5) 5 8 (fun _ => 0) 100 1
          (readyWorld (fun _ _ => 0)) = some r →
        (pollDone (failAtHw 5) (readyWorld (fun _ _ => 0))).nTick + 2 ≤ r.2.nTick)) ∧
    ((SD_DMA_read templateConfig (failAtHw 5) 5 32 (fun _ => 0) 100 2
        (readyWorld (fun _ _ => 0))).isSome = true ∧
      (SD_DMA_write templateConfig (failAtHw 5) 5 32 (fun _ => 0) 100 2
        (readyWorld (fun _ _ => 0))).isSome = true ∧
      (SD_DMA_read templateConfig (failAtHw 5) 5 8 (fun _ => 0) 100 1
        (readyWorld (fun _ _ => 0))).isSome = true ∧
      (SD_DMA_write templateConfig (failAtHw 5) 5 8 (fun _ => 0) 100 1
        (readyWorld (fun _ _ => 0))).isSome = true) :=
  ⟨rfl, ⟨by decide, rfl⟩, rfl, rfl, by decide, by decide, by decide, by decide, by decide,
    (C20_callbacks_post_one_event templateConfig (failAtHw 5) 5 32 8 (fun _ => 0) 100 2
      { readyWorld (fun _ _ => 0) with queue := [1, 2, 1, 2, 1, 2, 1, 2, 1, 2] }
      (readyWorld (fun _ _ => 0)) (pollDone (failAtHw 5) (readyWorld (fun _ _ => 0)))
      rfl ⟨by decide, rfl⟩ rfl rfl (by decide)).2.2.2.2.2.2.2.1 rfl,
    (C20_callbacks_post_one_event templateConfig (failAtHw 5) 5 32 8 (fun _ => 0) 100 2
      { readyWorld (fun _ _ => 0) with queue := [1, 2, 1, 2, 1, 2, 1, 2, 1, 2] }
      (readyWorld (fun _ _ => 0)) (pollDone (failAtHw 5) (readyWorld (fun _ _ => 0)))
      rfl ⟨by decide, rfl⟩ rfl rfl (by decide)).2.2.2.2.2.2.2.2.2.2
      (failAtHw_clockAdvances 5)⟩

end FatFs
